import Mathlib

/-!
# Memory-augmented conversation pipeline (`src/src/services/ai.js`)

A shallow embedding of `getUserMemory`, `saveUserMemory` and `generateResponse`.

JavaScript strings are modelled as lists of characters.  The regular expression
`/\[MEMORY:\s*(.*?)\s*\|\s*(.*?)\]/` has neither the `u` nor the `s` flag: every literal
of the pattern and every character that the classes `\s` and `.` tell apart lies in the
Basic Multilingual Plane, so on well-formed strings matching on code points and matching on
UTF-16 code units agree (a surrogate half is one more character that `.` accepts).

The outside of the program (the browser storage, the backend, the model provider) is a `World`:
the outcomes of the interactions of one turn.  A computation is a `Run`: the trace of its
actions and the value it resolves with, or the error it rejects with.
-/

namespace AiFinance

/-- A well-formed JavaScript string (one without a lone surrogate), as the list of its code
points. -/
abbrev JsString := List Char

/-! ## Character classes of ECMAScript -/

/-- ECMAScript `LineTerminator`: LF, CR, LS, PS.  The class `.` (no `s` flag) is its complement. -/
def isLineTerminator (c : Char) : Bool :=
  c.toNat == 0x0A || c.toNat == 0x0D || c.toNat == 0x2028 || c.toNat == 0x2029

/-- ECMAScript `WhiteSpace` together with `LineTerminator`: the class `\s`, which is also the
set of characters that `String.prototype.trim` strips. -/
def isWhiteSpace (c : Char) : Bool :=
  c.toNat == 0x09 || c.toNat == 0x0B || c.toNat == 0x0C || c.toNat == 0x20 ||
  c.toNat == 0xA0 || c.toNat == 0x1680 || (0x2000 ≤ c.toNat && c.toNat ≤ 0x200A) ||
  c.toNat == 0x202F || c.toNat == 0x205F || c.toNat == 0x3000 || c.toNat == 0xFEFF ||
  isLineTerminator c

/-- The single-character atoms that occur in the directive pattern. -/
inductive CharSet where
  | lit (c : Char)
  | space
  | dot
  deriving Repr, DecidableEq

/-- Does the atom accept the character? -/
def CharSet.test : CharSet → Char → Bool
  | .lit a, c => c == a
  | .space, c => isWhiteSpace c
  | .dot, c => !isLineTerminator c

/-- The terms of the pattern: one atom, a greedy star of an atom `a*`, and a capturing group
around a lazy star of an atom `(a*?)`. -/
inductive Term where
  | one (a : CharSet)
  | star (a : CharSet)
  | capLazy (a : CharSet)
  deriving Repr, DecidableEq

/-- The result of matching a sequence of terms: the text consumed and the captures of the
groups, in the order of the groups. -/
structure MatchState where
  matched : JsString
  captures : List JsString
  deriving Repr, DecidableEq

/-- Records one more consumed character in front of a result. -/
def MatchState.push (c : Char) (r : MatchState) : MatchState :=
  { r with matched := c :: r.matched }

/-- Closes a capturing group that consumed `cap` in front of a result. -/
def MatchState.capture (cap : JsString) (r : MatchState) : MatchState :=
  { matched := cap ++ r.matched, captures := cap :: r.captures }

/-- Greedy `a*` followed by the continuation `k`: takes a character whenever the atom accepts
it and the rest then matches, and gives characters back one at a time otherwise. -/
def starGreedy (a : CharSet) (k : JsString → Option MatchState) : JsString → Option MatchState
  | [] => k []
  | c :: cs =>
    if a.test c then
      match starGreedy a k cs with
      | some r => some (r.push c)
      | none => k (c :: cs)
    else k (c :: cs)

/-- Lazy `a*?` followed by the continuation `k`: the continuation is tried first, and a
character is taken only when it fails.  Returns the text taken and the continuation's result. -/
def starLazy (a : CharSet) (k : JsString → Option MatchState) :
    JsString → Option (JsString × MatchState)
  | [] => (k []).map fun r => ([], r)
  | c :: cs =>
    match k (c :: cs) with
    | some r => some ([], r)
    | none =>
      if a.test c then (starLazy a k cs).map fun p => (c :: p.1, p.2)
      else none

/-- Backtracking match of a sequence of terms at the start of the input. -/
def matchHere : List Term → JsString → Option MatchState
  | [] => fun _ => some { matched := [], captures := [] }
  | .one a :: ts => fun input =>
    match input with
    | [] => none
    | c :: cs => if a.test c then (matchHere ts cs).map (MatchState.push c) else none
  | .star a :: ts => starGreedy a (matchHere ts)
  | .capLazy a :: ts => fun input =>
    (starLazy a (matchHere ts) input).map fun p => p.2.capture p.1

/-- The value of `String.prototype.match` for a regular expression without the `g` flag:
the text before the match (its length is `index`), the match `[0]` and the captures. -/
structure RegExpMatch where
  before : JsString
  whole : JsString
  groups : List JsString
  deriving Repr, DecidableEq

/-- The search of `RegExp.prototype.exec`: the start positions are tried from left to right, the end
of the input included, and the first position at which the pattern matches wins. -/
def regExpExec (pat : List Term) : JsString → Option RegExpMatch
  | [] => (matchHere pat []).map fun r => { before := [], whole := r.matched, groups := r.captures }
  | c :: cs =>
    match matchHere pat (c :: cs) with
    | some r => some { before := [], whole := r.matched, groups := r.captures }
    | none => (regExpExec pat cs).map fun m => { m with before := c :: m.before }

/-- The pattern `/\[MEMORY:\s*(.*?)\s*\|\s*(.*?)\]/` of `generateResponse`. -/
def memoryPattern : List Term :=
  [.one (.lit '['), .one (.lit 'M'), .one (.lit 'E'), .one (.lit 'M'), .one (.lit 'O'),
   .one (.lit 'R'), .one (.lit 'Y'), .one (.lit ':'),
   .star .space, .capLazy .dot, .star .space, .one (.lit '|'), .star .space, .capLazy .dot,
   .one (.lit ']')]

/-- The call `responseContent.match(/\[MEMORY:\s*(.*?)\s*\|\s*(.*?)\]/)`. -/
def memoryMatch (responseContent : JsString) : Option RegExpMatch :=
  regExpExec memoryPattern responseContent

/-- The call `String.prototype.replace(searchValue, replaceValue)` with a string `searchValue`:
the first occurrence of `searchValue` is replaced, and a string without an occurrence is
returned as it is.  (`replaceValue` is `''` in `generateResponse`, so no `$` pattern is
expanded.) -/
def replaceFirst (searchValue replaceValue : JsString) : JsString → JsString
  | [] => if searchValue.isPrefixOf [] then replaceValue else []
  | c :: cs =>
    if searchValue.isPrefixOf (c :: cs) then replaceValue ++ (c :: cs).drop searchValue.length
    else c :: replaceFirst searchValue replaceValue cs

/-- The call `String.prototype.trimStart()`. -/
def trimStart (s : JsString) : JsString := s.dropWhile isWhiteSpace

/-- The call `String.prototype.trimEnd()`. -/
def trimEnd (s : JsString) : JsString := (s.reverse.dropWhile isWhiteSpace).reverse

/-- The call `String.prototype.trim()`: white space and line terminators are stripped from both
ends. -/
def trim (s : JsString) : JsString := trimEnd (trimStart s)

/-! ## Values and effects -/

/-- A value that is a string, `null` or `undefined`: the `apiKey` argument, the `content` of a
completion (`completion.choices[0]?.message?.content`) and the `message` of a thrown value. -/
inductive JsOpt where
  | undefined
  | null
  | str (s : JsString)
  deriving Repr, DecidableEq

/-- Truthiness: `null`, `undefined` and the empty string are falsy. -/
def JsOpt.truthy : JsOpt → Bool
  | .str (_ :: _) => true
  | _ => false

/-- The expression `v || fallback`. -/
def JsOpt.orElse (v : JsOpt) (fallback : JsString) : JsString :=
  match v with
  | .str (c :: cs) => c :: cs
  | _ => fallback

/-- A thrown value, with its `message` property. -/
structure JsError where
  message : JsOpt
  deriving Repr, DecidableEq

deriving instance DecidableEq for Except

/-- A row of the Memory Store as `generateResponse` reads it (`m.category`, `m.content`). -/
structure MemoryFact where
  category : JsString
  content : JsString
  deriving Repr, DecidableEq

/-- A chat message: an entry of `history` and an entry of the `messages` sent to the model. -/
structure ChatMessage where
  role : JsString
  content : JsString
  deriving Repr, DecidableEq

/-- The outcome of a `fetch`: the promise rejects, or it resolves with a response that has a
status and a body (`response.json()` may itself reject). -/
inductive FetchOutcome (β : Type) where
  | rejected (error : JsError)
  | responded (status : Nat) (json : Except JsError β)
  deriving DecidableEq

/-- The property `response.ok`: the status is in the range 200-299. -/
def responseOk (status : Nat) : Bool := 200 ≤ status && status ≤ 299

/-- The outcome of `groq.chat.completions.create`: the request rejects, or it resolves with a
completion whose `choices[0]?.message?.content` is the given value. -/
inductive CompletionOutcome where
  | rejected (error : JsError)
  | resolved (content : JsOpt)
  deriving Repr, DecidableEq

/-- What the outside answers during one turn: the token that `localStorage` holds, and the
outcomes of the memory fetch, of the model call and of the memory write. -/
structure World where
  token : Option JsString
  memoryGet : FetchOutcome (List MemoryFact)
  completion : CompletionOutcome
  memoryPost : FetchOutcome Unit

/-- The observable actions of a turn, in the order in which they happen. -/
inductive Event where
  | getUserMemory
  | saveUserMemory (category content : JsString)
  | fetch (method url : String) (authorization : Option JsString)
      (body : Option (JsString × JsString))
  | completionCreate (messages : List ChatMessage)
  | consoleError (label : String) (error : JsError)
  deriving Repr, DecidableEq

/-- An `async` computation: the actions performed, and the value it resolves with or the error it
rejects with. -/
structure Run (α : Type) where
  events : List Event
  result : Except JsError α
  deriving DecidableEq

/-- A computation that resolves at once. -/
def Run.pure {α : Type} (a : α) : Run α := ⟨[], .ok a⟩

/-- Sequencing (`await`): a rejection stops the computation. -/
def Run.bind {α β : Type} (x : Run α) (f : α → Run β) : Run β :=
  match x.result with
  | .error e => ⟨x.events, .error e⟩
  | .ok a => ⟨x.events ++ (f a).events, (f a).result⟩

instance : Monad Run where
  pure := Run.pure
  bind := Run.bind

/-- Performs one action. -/
def emit (e : Event) : Run Unit := ⟨[e], .ok ()⟩

/-- The statement `try { body } catch (error) { handler }`. -/
def tryCatch {α : Type} (body : Run α) (handler : JsError → Run α) : Run α :=
  match body.result with
  | .ok _ => body
  | .error e => ⟨body.events ++ (handler e).events, (handler e).result⟩

/-- The call `fetch(url, { method, headers, body })` whose outcome is `o`. -/
def fetch {β : Type} (method url : String) (authorization : Option JsString)
    (body : Option (JsString × JsString)) (o : FetchOutcome β) :
    Run (Nat × Except JsError β) :=
  match o with
  | .rejected e => ⟨[.fetch method url authorization body], .error e⟩
  | .responded status json => ⟨[.fetch method url authorization body], .ok (status, json)⟩

/-- The expression `!token` for the value of `localStorage.getItem('token')`. -/
def tokenMissing : Option JsString → Bool
  | none => true
  | some [] => true
  | some (_ :: _) => false

/-- The function `getUserMemory`. -/
def getUserMemory (w : World) : Run (List MemoryFact) := do
  emit .getUserMemory
  tryCatch
    (if tokenMissing w.token then pure []
     else do
      let response ← fetch "GET" "/api/memory" (some ("Bearer ".toList ++ w.token.getD [])) none
        w.memoryGet
      if !responseOk response.1 then pure []
      else
        match response.2 with
        | .ok rows => pure rows
        | .error e => (⟨[], .error e⟩ : Run (List MemoryFact)))
    (fun error => do
      emit (.consoleError "Failed to fetch memory:" error)
      pure [])

/-- The function `saveUserMemory`. -/
def saveUserMemory (w : World) (category content : JsString) : Run Unit := do
  emit (.saveUserMemory category content)
  tryCatch
    (if tokenMissing w.token then pure ()
     else do
      let _ ← fetch "POST" "/api/memory" (some ("Bearer ".toList ++ w.token.getD []))
        (some (category, content)) w.memoryPost
      pure ())
    (fun error => emit (.consoleError "Failed to save memory:" error))

/-- The call `Array.prototype.join(sep)` on an array of strings. -/
def join (sep : JsString) (parts : List JsString) : JsString := sep.intercalate parts

/-- One fact as `generateResponse` renders it: the template "- [category] content". -/
def renderFact (m : MemoryFact) : JsString :=
  "- [".toList ++ m.category ++ "] ".toList ++ m.content

/-- The value `memoryContext` of `generateResponse`. -/
def memoryContext (memories : List MemoryFact) : JsString :=
  join ['\n'] (memories.map renderFact)

/-- The memory section of the prompt: `memoryContext || "No prior context available."`. -/
def memorySection (memories : List MemoryFact) : JsString :=
  (JsOpt.str (memoryContext memories)).orElse "No prior context available.".toList

/-- The value `enhancedSystemPrompt` of `generateResponse`, for the persona text `SYSTEM_PROMPT`
of `systemPrompt.js`. -/
def enhancedSystemPrompt (SYSTEM_PROMPT : JsString) (memories : List MemoryFact) : JsString :=
  SYSTEM_PROMPT ++ "\n\n    === USER LONG-TERM MEMORY ===\n    ".toList ++ memorySection memories ++
  ("\n    \n    INSTRUCTION: Use the above memory to personalize your response. " ++
   "If the user tells you a new important fact (e.g. \"I moved to Berlin\", " ++
   "\"My salary is $5000\"), reply normally but also output a special tag " ++
   "[MEMORY: category | content] at the end of your message so the system can save it." ++
   "\n    ").toList

/-- The value `conversationHistory` of `generateResponse`. -/
def conversationHistory (history : List ChatMessage) : List ChatMessage :=
  (history.filter fun msg => msg.role != "system".toList).map fun msg =>
    { role := if msg.role == "assistant".toList then "assistant".toList else "user".toList,
      content := msg.content }

/-- The value `messages` of `generateResponse`. -/
def requestMessages (SYSTEM_PROMPT : JsString) (memories : List MemoryFact)
    (history : List ChatMessage) (newMessage : JsString) : List ChatMessage :=
  [{ role := "system".toList, content := enhancedSystemPrompt SYSTEM_PROMPT memories }] ++
  conversationHistory history ++ [{ role := "user".toList, content := newMessage }]

/-- The call `groq.chat.completions.create({ messages, ... })`. -/
def completionsCreate (w : World) (messages : List ChatMessage) : Run JsOpt :=
  match w.completion with
  | .rejected e => ⟨[.completionCreate messages], .error e⟩
  | .resolved content => ⟨[.completionCreate messages], .ok content⟩

/-- The message that `generateResponse` returns when the model call fails. -/
def connectionErrorMessage (error : JsError) : JsString :=
  "**Connection Error**: Unable to connect to Groq. \n\nDetails: ".toList ++
  error.message.orElse "Unknown error".toList ++ ". \n\nPlease verify your API Key.".toList

/-- The message that `generateResponse` returns when there is no API key. -/
def missingKeyMessage : JsString :=
  "Please set your Groq API Key in the settings (Gear icon) to start chatting.".toList

/-- The reply of `generateResponse` when the completion has no content:
`content || "No response generated."`. -/
def noResponseMessage : JsString := "No response generated.".toList

/-- The statements of `generateResponse` that follow the completion: the directive is searched
in `responseContent`, saved and removed. -/
def extractMemory (w : World) (responseContent : JsString) : Run JsString :=
  match memoryMatch responseContent with
  | some m => do
    saveUserMemory w (m.groups.getD 0 []) (m.groups.getD 1 [])
    pure (trim (replaceFirst m.whole [] responseContent))
  | none => pure responseContent

/-- The function `generateResponse`. -/
def generateResponse (SYSTEM_PROMPT : JsString) (w : World) (apiKey : JsOpt)
    (history : List ChatMessage) (newMessage : JsString) : Run JsString :=
  if !apiKey.truthy then pure missingKeyMessage
  else do
    let memories ← getUserMemory w
    let messages := requestMessages SYSTEM_PROMPT memories history newMessage
    tryCatch
      (do
        let content ← completionsCreate w messages
        let responseContent := content.orElse noResponseMessage
        extractMemory w responseContent)
      (fun error => do
        emit (.consoleError "Groq AI Error:" error)
        pure (connectionErrorMessage error))

/-- A world in which the user is signed in and every request succeeds, the model answering
`content`. -/
def World.fine (content : JsOpt) : World :=
  { token := some "tok".toList, memoryGet := .responded 200 (.ok []),
    completion := .resolved content, memoryPost := .responded 200 (.ok ()) }

/-- The example output of the specification. -/
def berlinOutput : JsString :=
  "Noted. [MEMORY: Location | Moved to Berlin] Let me know more.".toList

/-- The match of the directive pattern in the example output. -/
def berlinMatch : RegExpMatch :=
  { before := "Noted. ".toList, whole := "[MEMORY: Location | Moved to Berlin]".toList,
    groups := ["Location".toList, "Moved to Berlin".toList] }

/-! ## Specification side: the words of a pattern -/

/-- The words that a sequence of terms accepts (greedy and lazy stars accept the same words). -/
def Lang : List Term → JsString → Prop
  | [], w => w = []
  | .one a :: ts, w => ∃ c v, w = c :: v ∧ a.test c = true ∧ Lang ts v
  | .star a :: ts, w => ∃ u v, w = u ++ v ∧ (∀ c ∈ u, a.test c = true) ∧ Lang ts v
  | .capLazy a :: ts, w => ∃ u v, w = u ++ v ∧ (∀ c ∈ u, a.test c = true) ∧ Lang ts v

/-- The text has an occurrence of a word of the pattern. -/
def HasMatch (pat : List Term) (x : JsString) : Prop :=
  ∃ p w s, x = p ++ w ++ s ∧ Lang pat w

/-- The invocations of `saveUserMemory` among the actions, with their arguments. -/
def saveCalls : List Event → List (JsString × JsString)
  | [] => []
  | .saveUserMemory category content :: es => (category, content) :: saveCalls es
  | _ :: es => saveCalls es

/-- The reports to `console.error` among the actions. -/
def errorReports : List Event → List String
  | [] => []
  | .consoleError label _ :: es => label :: errorReports es
  | _ :: es => errorReports es

/-- The lines of a text: its pieces between the newline characters. -/
def lines (s : JsString) : List JsString := s.splitOn '\n'

/-! ## The built-in `JSON.parse` -/

/-- A value that `JSON.parse` builds.  A number is kept as its literal text (the double that
`JSON.parse` builds is a function of it); the members of an object are kept in the order of the
text. -/
inductive Json where
  | null
  | bool (b : Bool)
  | number (literal : JsString)
  | string (s : JsString)
  | array (items : List Json)
  | object (members : List (JsString × Json))
  deriving Repr

/-- JSON white space: space, tab, line feed, carriage return. -/
def isJsonSpace (c : Char) : Bool := c == ' ' || c == '\t' || c == '\n' || c == '\r'

/-- Skips JSON white space. -/
def skipJsonSpace (s : JsString) : JsString := s.dropWhile isJsonSpace

/-- A decimal digit. -/
def isDigit (c : Char) : Bool := '0' ≤ c && c ≤ '9'

/-- The value of a hexadecimal digit. -/
def hexValue (c : Char) : Option Nat :=
  if '0' ≤ c && c ≤ '9' then some (c.toNat - '0'.toNat)
  else if 'a' ≤ c && c ≤ 'f' then some (c.toNat - 'a'.toNat + 10)
  else if 'A' ≤ c && c ≤ 'F' then some (c.toNat - 'A'.toNat + 10)
  else none

/-- The fraction part `. digits` of a JSON number, when there is one: its text and the rest. -/
def parseFraction (s : JsString) : Option (JsString × JsString) :=
  match s with
  | '.' :: t =>
    if (t.takeWhile isDigit).isEmpty then none
    else some ('.' :: t.takeWhile isDigit, t.dropWhile isDigit)
  | _ => some ([], s)

/-- The digits of an exponent, after its optional sign. -/
def parseExponentDigits (mark : JsString) (t : JsString) : Option (JsString × JsString) :=
  if (t.takeWhile isDigit).isEmpty then none
  else some (mark ++ t.takeWhile isDigit, t.dropWhile isDigit)

/-- The exponent part `e sign digits` of a JSON number, when there is one. -/
def parseExponent (s : JsString) : Option (JsString × JsString) :=
  match s with
  | 'e' :: '+' :: t => parseExponentDigits ['e', '+'] t
  | 'e' :: '-' :: t => parseExponentDigits ['e', '-'] t
  | 'e' :: t => parseExponentDigits ['e'] t
  | 'E' :: '+' :: t => parseExponentDigits ['E', '+'] t
  | 'E' :: '-' :: t => parseExponentDigits ['E', '-'] t
  | 'E' :: t => parseExponentDigits ['E'] t
  | _ => some ([], s)

/-- The integer part of a JSON number: `0`, or a digit from 1 to 9 followed by digits. -/
def parseInteger (s : JsString) : Option (JsString × JsString) :=
  match s with
  | '0' :: t => some (['0'], t)
  | c :: t =>
    if isDigit c then some (c :: t.takeWhile isDigit, t.dropWhile isDigit) else none
  | [] => none

/-- A JSON number without its sign: the literal and the rest of the text. -/
def parseUnsigned (s : JsString) : Option (JsString × JsString) :=
  match parseInteger s with
  | none => none
  | some (i, r1) =>
    match parseFraction r1 with
    | none => none
    | some (f, r2) =>
      match parseExponent r2 with
      | none => none
      | some (e, r3) => some (i ++ f ++ e, r3)

/-- A JSON number: the literal and the rest of the text. -/
def parseNumber (s : JsString) : Option (JsString × JsString) :=
  match s with
  | '-' :: t => (parseUnsigned t).map fun p => ('-' :: p.1, p.2)
  | _ => parseUnsigned s

/-- The body of a JSON string, after the opening quote: the characters that it denotes and the
rest of the text after the closing quote.  An escape `\uXXXX` denotes the character with that
code (surrogate halves are outside the model). -/
def parseStringBody : JsString → Option (JsString × JsString)
  | [] => none
  | '"' :: rest => some ([], rest)
  | '\\' :: 'u' :: a :: b :: c :: d :: rest =>
    match hexValue a, hexValue b, hexValue c, hexValue d with
    | some x, some y, some z, some w =>
      (parseStringBody rest).map fun p =>
        (Char.ofNat (((x * 16 + y) * 16 + z) * 16 + w) :: p.1, p.2)
    | _, _, _, _ => none
  | '\\' :: e :: rest =>
    let denoted : Option Char :=
      if e == '"' then some '"' else if e == '\\' then some '\\' else if e == '/' then some '/'
      else if e == 'b' then some (Char.ofNat 8) else if e == 'f' then some (Char.ofNat 12)
      else if e == 'n' then some '\n' else if e == 'r' then some '\r'
      else if e == 't' then some '\t' else none
    match denoted with
    | some ch => (parseStringBody rest).map fun p => (ch :: p.1, p.2)
    | none => none
  | c :: rest =>
    if c.toNat < 0x20 || c == '\\' then none
    else (parseStringBody rest).map fun p => (c :: p.1, p.2)

/-- A literal name (`null`, `true`, `false`) at the start of the text. -/
def parseName (name : JsString) (v : Json) (s : JsString) : Option (Json × JsString) :=
  if name.isPrefixOf s then some (v, s.drop name.length) else none

/-- A JSON value that is neither an array nor an object, at the start of the text: a string, a
literal name or a number. -/
def parseScalar (s : JsString) : Option (Json × JsString) :=
  match s with
  | [] => none
  | c :: rest =>
    if c = '"' then (parseStringBody rest).map fun p => (.string p.1, p.2)
    else if c = 'n' then parseName "null".toList .null (c :: rest)
    else if c = 't' then parseName "true".toList (.bool true) (c :: rest)
    else if c = 'f' then parseName "false".toList (.bool false) (c :: rest)
    else (parseNumber (c :: rest)).map fun p => (.number p.1, p.2)

mutual

/-- A JSON value at the start of the text (after white space), and the rest of the text.  The
first argument bounds the number of nested calls. -/
def parseValue : Nat → JsString → Option (Json × JsString)
  | 0, _ => none
  | fuel + 1, input =>
    match skipJsonSpace input with
    | [] => none
    | c :: rest =>
      if c = '[' then
        if (skipJsonSpace rest).head? = some ']' then
          some (.array [], (skipJsonSpace rest).tail)
        else (parseElements fuel rest).map fun p => (.array p.1, p.2)
      else if c = '{' then
        if (skipJsonSpace rest).head? = some '}' then
          some (.object [], (skipJsonSpace rest).tail)
        else (parseMembers fuel rest).map fun p => (.object p.1, p.2)
      else parseScalar (c :: rest)

/-- The elements of a non-empty JSON array, up to its closing bracket. -/
def parseElements : Nat → JsString → Option (List Json × JsString)
  | 0, _ => none
  | fuel + 1, input =>
    match parseValue fuel input with
    | none => none
    | some (v, rest) =>
      if (skipJsonSpace rest).head? = some ',' then
        (parseElements fuel (skipJsonSpace rest).tail).map fun p => (v :: p.1, p.2)
      else if (skipJsonSpace rest).head? = some ']' then some ([v], (skipJsonSpace rest).tail)
      else none

/-- The members of a non-empty JSON object, up to its closing brace. -/
def parseMembers : Nat → JsString → Option (List (JsString × Json) × JsString)
  | 0, _ => none
  | fuel + 1, input =>
    if (skipJsonSpace input).head? = some '"' then
      match parseStringBody (skipJsonSpace input).tail with
      | none => none
      | some (key, rest1) =>
        if (skipJsonSpace rest1).head? = some ':' then
          match parseValue fuel (skipJsonSpace rest1).tail with
          | none => none
          | some (v, rest3) =>
            if (skipJsonSpace rest3).head? = some ',' then
              (parseMembers fuel (skipJsonSpace rest3).tail).map fun p => ((key, v) :: p.1, p.2)
            else if (skipJsonSpace rest3).head? = some '}' then
              some ([(key, v)], (skipJsonSpace rest3).tail)
            else none
        else none
    else none

end

/-- The function `JSON.parse` on a text: the value, or nothing when the text is not well-formed
JSON (a `SyntaxError`).  Twice the length of the text bounds the nesting of the calls
(`parseValue_enough_fuel`). -/
def jsonParse (text : JsString) : Option Json :=
  match parseValue (2 * text.length + 2) text with
  | some (v, rest) => if (skipJsonSpace rest).isEmpty then some v else none
  | none => none

/-- What a successful parse with some fuel gives: it consumed text, and every fuel that is at
least twice the text consumed gives the same result. -/
def FuelInvariant (m : Nat) : Prop :=
  (∀ (s : JsString) (v : Json) (rest : JsString), parseValue m s = some (v, rest) →
    rest.length < s.length ∧
    ∀ n, 2 * (s.length - rest.length) ≤ n → parseValue n s = some (v, rest)) ∧
  (∀ (s : JsString) (vs : List Json) (rest : JsString), parseElements m s = some (vs, rest) →
    rest.length < s.length ∧
    ∀ n, 2 * (s.length - rest.length) ≤ n + 1 → parseElements n s = some (vs, rest)) ∧
  (∀ (s : JsString) (ms : List (JsString × Json)) (rest : JsString),
    parseMembers m s = some (ms, rest) →
    rest.length < s.length ∧
    ∀ n, 2 * (s.length - rest.length) ≤ n + 1 → parseMembers n s = some (ms, rest))

/-- The conversion `ToString` of a value that is a string, `null` or `undefined`. -/
def jsToString : JsOpt → JsString
  | .undefined => "undefined".toList
  | .null => "null".toList
  | .str s => s

/-- Does the value carry the field?  (`JSON.parse` keeps the last member of a name.) -/
def Json.hasField (v : Json) (name : JsString) : Bool :=
  match v with
  | .object members => members.any fun m => m.1 == name
  | _ => false

/-- Does the value carry every field of the list? -/
def Json.hasFields (v : Json) (names : List JsString) : Bool :=
  names.all fun name => v.hasField name

/-! ## The structured generators -/

/-- What the outside answers to a structured generator: the outcome of the model call, and the
`SyntaxError` that `JSON.parse` throws for a text that is not well-formed JSON. -/
structure Upstream where
  completion : CompletionOutcome
  syntaxError : JsString → JsError

/-- The call `groq.chat.completions.create` of a structured generator. -/
def jsonCompletionsCreate (u : Upstream) (messages : List ChatMessage) : Run JsOpt :=
  match u.completion with
  | .rejected e => ⟨[.completionCreate messages], .error e⟩
  | .resolved content => ⟨[.completionCreate messages], .ok content⟩

/-- The call `JSON.parse(content)`: the content is converted to a string and parsed. -/
def JSON_parse (u : Upstream) (content : JsOpt) : Run Json :=
  match jsonParse (jsToString content) with
  | some v => pure v
  | none => ⟨[], .error (u.syntaxError (jsToString content))⟩

/-- The statement `throw new Error(text + error.message)`. -/
def throwNewError {α : Type} (text : String) (error : JsError) : Run α :=
  ⟨[], .error ⟨.str (text.toList ++ jsToString error.message)⟩⟩

/-- The statement `if (!apiKey) throw new Error("API Key missing")`, before the rest. -/
def requireKey {α : Type} (apiKey : JsOpt) (rest : Run α) : Run α :=
  if !apiKey.truthy then ⟨[], .error ⟨.str "API Key missing".toList⟩⟩ else rest

/-- The number of UTF-16 code units of a character: two above the Basic Multilingual Plane. -/
def utf16Units (c : Char) : Nat := if c.toNat < 0x10000 then 1 else 2

/-- The call `String.prototype.substring(0, n)`: the text is cut after `n` UTF-16 code units.
When the cut falls inside a character of two units, the unit it leaves is a lone surrogate, which
the strings of this development cannot hold: it is written U+FFFD. -/
def substringFromStart : JsString → Nat → JsString
  | [], _ => []
  | c :: cs, n =>
    if n = 0 then []
    else if utf16Units c ≤ n then c :: substringFromStart cs (n - utf16Units c)
    else [Char.ofNat 0xFFFD]

/-- The value `prompt` of `analyzeExpenses`: the template around its inputs. -/
def expensePrompt (csvData : JsString) : JsString :=
  ("\n" ++
    "        You are a financial analyst. Analyze the following bank statem" ++
    "ent data (CSV format) and provide a structured JSON response.\n" ++
    "        \n" ++
    "        DATA:\n" ++
    "        ").toList ++
  substringFromStart csvData 15000 ++
  (" \n" ++
    "        \n" ++
    "        INSTRUCTIONS:\n" ++
    "        1. Categorize each transaction into one of these standard cate" ++
    "gories: Food, Transport, Rent/Housing, Utilities, Entertainment, Shopp" ++
    "ing, Income, Healthcare, Debt, Others.\n" ++
    "        2. Calculate total spending and total income.\n" ++
    "        3. Identify 3 key insights or spending habits.\n" ++
    "        4. Flag any \"risky\" or unusual spending (e.g. gambling, overdr" ++
    "aft fees, very high discretionary spend).\n" ++
    "        \n" ++
    "        OUTPUT FORMAT (Strict JSON):\n" ++
    "        \x7b\n" ++
    "            \"categories\": [\n" ++
    "                \x7b\"name\": \"Food\", \"value\": 500, \"color\": \"#FF8042\", \"de" ++
    "tails\": \"Eating out 5 times\"\x7d,\n" ++
    "                \x7b\"name\": \"Transport\", \"value\": 200, \"color\": \"#00C49F\"" ++
    ", \"details\": \"Uber and Gas\"\x7d\n" ++
    "            ],\n" ++
    "            \"total_spent\": 1200,\n" ++
    "            \"total_income\": 3000,\n" ++
    "            \"insights\": [\"High spending on dining out\", \"Transport cos" ++
    "ts increased\"],\n" ++
    "            \"risky_spending\": [\x7b\"date\": \"2024-01-01\", \"description\": \"" ++
    "Unknown\", \"amount\": 500, \"reason\": \"Unrecognized merchant\"\x7d]\n" ++
    "        \x7d\n" ++
    "    ").toList

/-- The value `prompt` of `generateBudgetPlan`: the template around its inputs. -/
def budgetPrompt (income fixedCosts goals : JsString) : JsString :=
  ("\n" ++
    "        You are an expert financial planner. Create a monthly budget p" ++
    "lan based on the 50/30/20 rule (Needs/Wants/Savings) for the following" ++
    " user profile.\n" ++
    "        \n" ++
    "        USER DATA:\n" ++
    "        - Monthly Income: ₹").toList ++
  income ++
  ("\n" ++
    "        - Fixed Costs (Needs): ₹").toList ++
  fixedCosts ++
  ("\n" ++
    "        - Financial Goals: ").toList ++
  goals ++
  ("\n" ++
    "        \n" ++
    "        INSTRUCTIONS:\n" ++
    "        1. Calculate the ideal 50/30/20 split based on the income.\n" ++
    "        2. Compare valid fixed costs against the 50% \"Needs\" bucket.\n" ++
    "        3. Adjust the plan if fixed costs exceed 50% (reduce wants fir" ++
    "st).\n" ++
    "        4. Provide specific, actionable advice to achieve the stated g" ++
    "oals.\n" ++
    "        \n" ++
    "        OUTPUT FORMAT (Strict JSON):\n" ++
    "        \x7b\n" ++
    "            \"allocations\": [\n" ++
    "                \x7b\"name\": \"Needs\", \"value\": 1500, \"limit\": 1500, \"color" ++
    "\": \"#0088FE\", \"description\": \"Rent, Bills, Groceries\"\x7d,\n" ++
    "                \x7b\"name\": \"Wants\", \"value\": 900, \"limit\": 900, \"color\":" ++
    " \"#FFBB28\", \"description\": \"Dining, Entertainment\"\x7d,\n" ++
    "                \x7b\"name\": \"Savings\", \"value\": 600, \"limit\": 600, \"color" ++
    "\": \"#00C49F\", \"description\": \"Investments, Emergency Fund\"\x7d\n" ++
    "            ],\n" ++
    "            \"analysis\": \"Your fixed costs are within the 50% limit. Gr" ++
    "eat job!\",\n" ++
    "            \"action_plan\": [\n" ++
    "                \"Automate ₹5000 transfer to savings immediately upon p" ++
    "ayday.\",\n" ++
    "                \"Review subscription services to optimize 'Wants' spen" ++
    "ding.\"\n" ++
    "            ]\n" ++
    "        \x7d\n" ++
    "    ").toList

/-- The value `prompt` of `generateGoalStrategy`: the template around its inputs. -/
def goalPrompt (name amount years risk : JsString) : JsString :=
  ("\n" ++
    "        You are a certified financial planner. Create an investment st" ++
    "rategy for a specific user goal.\n" ++
    "        \n" ++
    "        GOAL DETAILS:\n" ++
    "        - Goal: ").toList ++
  name ++
  ("\n" ++
    "        - Target Amount: ₹").toList ++
  amount ++
  ("\n" ++
    "        - Timeline: ").toList ++
  years ++
  (" years\n" ++
    "        - Risk Tolerance: ").toList ++
  risk ++
  ("\n" ++
    "        \n" ++
    "        INSTRUCTIONS:\n" ++
    "        1. Calculate the estimated monthly contribution required to re" ++
    "ach the target (assume reasonable annual returns based on risk: Low=5%" ++
    ", Med=8%, High=12%).\n" ++
    "        2. Suggest an investment portfolio split (e.g., Equity Mutual " ++
    "Funds vs Debt/FDs vs Gold/Cash).\n" ++
    "        3. Explain the \"Why\" behind the split.\n" ++
    "        \n" ++
    "        OUTPUT FORMAT (Strict JSON):\n" ++
    "        \x7b\n" ++
    "            \"monthly_savings_required\": 5000,\n" ++
    "            \"estimated_return_rate\": \"12%\",\n" ++
    "            \"investment_split\": [\n" ++
    "                \x7b\"type\": \"Equity (SIP)\", \"percentage\": 60, \"amount\": 3" ++
    "000, \"color\": \"#8884d8\"\x7d,\n" ++
    "                \x7b\"type\": \"Debt / FD\", \"percentage\": 30, \"amount\": 1500" ++
    ", \"color\": \"#00C49F\"\x7d,\n" ++
    "                \x7b\"type\": \"Gold / Cash\", \"percentage\": 10, \"amount\": 50" ++
    "0, \"color\": \"#FFBB28\"\x7d\n" ++
    "            ],\n" ++
    "            \"strategy_logic\": \"Given the 5-year timeline and medium ri" ++
    "sk, a 60/40 equity-debt split balances growth with stability.\",\n" ++
    "            \"recommendations\": [\n" ++
    "                \"Start a SIP of ₹3000 in an Index Fund.\",\n" ++
    "                \"Open a Recurring Deposit for the stable portion.\"\n" ++
    "            ]\n" ++
    "        \x7d\n" ++
    "    ").toList

/-- The value `prompt` of `explainInvestmentConcept`: the template around its inputs. -/
def conceptPrompt (term : JsString) : JsString :=
  ("\n" ++
    "        You are a friendly financial tutor. Explain the following inve" ++
    "stment term to a beginner.\n" ++
    "        \n" ++
    "        TERM: \"").toList ++
  term ++
  ("\"\n" ++
    "        \n" ++
    "        INSTRUCTIONS:\n" ++
    "        1. Define the term simply (no jargon).\n" ++
    "        2. Provide a concrete numerical example (e.g., \"If you invest " ++
    "₹1000...\").\n" ++
    "        3. Assign a Risk Level (Low, Medium, High) and a corresponding" ++
    " color code.\n" ++
    "        4. List 3 key takeaways.\n" ++
    "        \n" ++
    "        OUTPUT FORMAT (Strict JSON):\n" ++
    "        \x7b\n" ++
    "            \"term\": \"SIP (Systematic Investment Plan)\",\n" ++
    "            \"definition\": \"A way to invest a fixed amount regularly (l" ++
    "ike monthly) in mutual funds, rather than a lump sum.\",\n" ++
    "            \"example\": \x7b\n" ++
    "                \"scenario\": \"You invest ₹5000 every month for 10 years" ++
    " at 12% annual return.\",\n" ++
    "                \"invested_amount\": \"₹6,00,000\",\n" ++
    "                \"final_value\": \"₹11,61,700\",\n" ++
    "                \"gain\": \"₹5,61,700\"\n" ++
    "            \x7d,\n" ++
    "            \"risk_level\": \"Medium\",\n" ++
    "            \"risk_color\": \"#F59E0B\",\n" ++
    "            \"takeaways\": [\n" ++
    "                \"Disciplined investing habit.\",\n" ++
    "                \"Reduces impact of market volatility (Rupee Cost Avera" ++
    "ging).\",\n" ++
    "                \"Great for long-term wealth creation.\"\n" ++
    "            ]\n" ++
    "        \x7d\n" ++
    "    ").toList

/-- The function `analyzeExpenses`. -/
def analyzeExpenses (u : Upstream) (apiKey : JsOpt) (csvData : JsString) : Run Json :=
  requireKey apiKey <|
    tryCatch
      (do
        let content ← jsonCompletionsCreate u
          [{ role := "system".toList,
             content := ("You are a JSON-only financial API. Output strict JSON. " ++
               "No markdown formatting.").toList },
           { role := "user".toList, content := expensePrompt csvData }]
        JSON_parse u content)
      (fun error => do
        emit (.consoleError "Expense Analysis Error:" error)
        throwNewError "Failed to analyze expenses. " error)

/-- The function `generateBudgetPlan`. -/
def generateBudgetPlan (u : Upstream) (apiKey : JsOpt) (income fixedCosts goals : JsString) :
    Run Json :=
  requireKey apiKey <|
    tryCatch
      (do
        let content ← jsonCompletionsCreate u
          [{ role := "system".toList,
             content := ("You are a JSON-only financial API. Output strict JSON. " ++
               "No markdown.").toList },
           { role := "user".toList, content := budgetPrompt income fixedCosts goals }]
        JSON_parse u content)
      (fun error => do
        emit (.consoleError "Budget Planning Error:" error)
        throwNewError "Failed to generate budget plan. " error)

/-- The function `generateGoalStrategy`. -/
def generateGoalStrategy (u : Upstream) (apiKey : JsOpt) (name amount years risk : JsString) :
    Run Json :=
  requireKey apiKey <|
    tryCatch
      (do
        let content ← jsonCompletionsCreate u
          [{ role := "system".toList,
             content := ("You are a JSON-only financial API. Output strict JSON. " ++
               "No markdown.").toList },
           { role := "user".toList, content := goalPrompt name amount years risk }]
        JSON_parse u content)
      (fun error => do
        emit (.consoleError "Goal Strategy Error:" error)
        throwNewError "Failed to generate goal strategy. " error)

/-- The function `explainInvestmentConcept`. -/
def explainInvestmentConcept (u : Upstream) (apiKey : JsOpt) (term : JsString) : Run Json :=
  requireKey apiKey <|
    tryCatch
      (do
        let content ← jsonCompletionsCreate u
          [{ role := "system".toList,
             content := ("You are a JSON-only financial tutor. Output strict JSON. " ++
               "No markdown.").toList },
           { role := "user".toList, content := conceptPrompt term }]
        JSON_parse u content)
      (fun error => do
        emit (.consoleError "Investment Explanation Error:" error)
        throwNewError "Failed to explain concept. " error)

/-- The four structured generators. -/
inductive Generator where
  | expenses (csvData : JsString)
  | budget (income fixedCosts goals : JsString)
  | goal (name amount years risk : JsString)
  | concept (term : JsString)

/-- Runs a structured generator. -/
def Generator.run (g : Generator) (u : Upstream) (apiKey : JsOpt) : Run Json :=
  match g with
  | .expenses csvData => analyzeExpenses u apiKey csvData
  | .budget income fixedCosts goals => generateBudgetPlan u apiKey income fixedCosts goals
  | .goal name amount years risk => generateGoalStrategy u apiKey name amount years risk
  | .concept term => explainInvestmentConcept u apiKey term

/-- The text that opens the message of the error that a generator raises from its `catch`. -/
def Generator.failure : Generator → String
  | .expenses _ => "Failed to analyze expenses. "
  | .budget _ _ _ => "Failed to generate budget plan. "
  | .goal _ _ _ _ => "Failed to generate goal strategy. "
  | .concept _ => "Failed to explain concept. "

/-- The fields of the output format that the prompt of a generator fixes. -/
def Generator.schema : Generator → List JsString
  | .expenses _ =>
    ["categories".toList, "total_spent".toList, "total_income".toList, "insights".toList,
     "risky_spending".toList]
  | .budget _ _ _ => ["allocations".toList, "analysis".toList, "action_plan".toList]
  | .goal _ _ _ _ =>
    ["monthly_savings_required".toList, "estimated_return_rate".toList,
     "investment_split".toList, "strategy_logic".toList, "recommendations".toList]
  | .concept _ =>
    ["term".toList, "definition".toList, "example".toList, "risk_level".toList,
     "risk_color".toList, "takeaways".toList]

/-- An upstream whose model answers `content`. -/
def Upstream.answering (content : JsOpt) : Upstream :=
  { completion := .resolved content,
    syntaxError := fun _ => ⟨.str "Unexpected token".toList⟩ }

/-! ## The backend (`src/api/index.js`)

The tables are the ones that `initDb` creates.  A nullable column that the routes always fill
(`user_memory.user_id`, `user_memory.category`, `messages.user_id`) is modelled without `NULL`;
`users.name`, which a signup without a name leaves `NULL`, is optional.  The database is taken to
be reachable: a query fails only on a parameter that PostgreSQL refuses (a text that holds
U+0000, an integer out of the range of `INTEGER`), on an exhausted sequence or on a constraint
of the schema. -/

/-- A row of the table `users`. -/
structure UserRow where
  id : Nat
  name : Option JsString
  email : JsString
  password_hash : JsString
  created_at : Nat
  deriving Repr, DecidableEq

/-- A row of the table `user_memory`. -/
structure MemoryRow where
  id : Nat
  user_id : Nat
  category : JsString
  content : JsString
  created_at : Nat
  deriving Repr, DecidableEq

/-- A row of the table `messages`. -/
structure MessageRow where
  id : Nat
  user_id : Nat
  role : JsString
  content : JsString
  created_at : Nat
  deriving Repr, DecidableEq

/-- The state of the database: the rows of the three tables, in the order of their insertion,
and the last value of the sequence behind each `SERIAL` column. -/
structure Db where
  users : List UserRow
  user_memory : List MemoryRow
  messages : List MessageRow
  users_id_seq : Nat
  user_memory_id_seq : Nat
  messages_id_seq : Nat
  deriving Repr, DecidableEq

/-- An error that a query raises, with the SQLSTATE code that `err.code` holds. -/
inductive DbError where
  | stringTooLong (limit : Nat)
  | notNull (column : String)
  | uniqueViolation (constraint : String)
  | foreignKeyViolation (constraint : String)
  | invalidByteSequence
  | numericValueOutOfRange
  | sequenceExhausted
  deriving Repr, DecidableEq

/-- The property `err.code` of a database error. -/
def DbError.code : DbError → String
  | .stringTooLong _ => "22001"
  | .notNull _ => "23502"
  | .uniqueViolation _ => "23505"
  | .foreignKeyViolation _ => "23503"
  | .invalidByteSequence => "22021"
  | .numericValueOutOfRange => "22003"
  | .sequenceExhausted => "2200H"

/-- The largest value of an `INTEGER` column, and of the sequence behind a `SERIAL` column. -/
def int4Max : Nat := 2147483647

/-- Does the string hold the character U+0000? -/
def hasNul (s : JsString) : Bool := s.any fun c => c.toNat == 0

/-- Binding a text parameter of a query: PostgreSQL refuses a string that holds U+0000 (its
encoding UTF8 has no such character), before the query is planned or run. -/
def textParam : Option JsString → Except DbError (Option JsString)
  | none => .ok none
  | some s => if hasNul s then .error .invalidByteSequence else .ok (some s)

/-- Binding the text of a natural number as a parameter that is compared with an `INTEGER`
column: a number above the range is refused. -/
def int4Param (n : Nat) : Except DbError Nat :=
  if int4Max < n then .error .numericValueOutOfRange else .ok n

/-- The call `nextval` of the sequence behind a `SERIAL` column: the next value, or an error
once the sequence has reached the largest `INTEGER`. -/
def nextval (seq : Nat) : Except DbError Nat :=
  if seq < int4Max then .ok (seq + 1) else .error .sequenceExhausted

/-- The value that a query parameter sends: `undefined` and `null` are sent as `NULL`. -/
def sqlParam : JsOpt → Option JsString
  | .str s => some s
  | _ => none

/-- Storing a string in a `VARCHAR(limit)` column: a longer string is an error, unless the
characters in excess are all spaces, in which case it is truncated to the limit. -/
def varchar (limit : Nat) (s : JsString) : Except DbError JsString :=
  if s.length ≤ limit then .ok s
  else if (s.drop limit).all (fun c => c == ' ') then .ok (s.take limit)
  else .error (.stringTooLong limit)

/-- Storing an optional string in a `VARCHAR(limit)` column; `NULL` stays `NULL`. -/
def varcharNullable (limit : Nat) : Option JsString → Except DbError (Option JsString)
  | none => .ok none
  | some s => (varchar limit s).map some

/-- The constraint `NOT NULL` of a column. -/
def notNull (column : String) : Option JsString → Except DbError JsString
  | none => .error (.notNull column)
  | some s => .ok s

/-- The query `INSERT INTO users (name, email, password_hash) VALUES ($1, $2, $3)
RETURNING id, name, email`.  The text parameters are bound and fitted to their columns first (a
refusal there leaves the sequence as it is); then the sequence advances, and `NOT NULL` and the
unique index on `email` are checked (a refusal there leaves the sequence advanced).  The hash is
the output of `bcrypt.hash`, a text of printable characters. -/
def insertUser (now : Nat) (db : Db) (name email : Option JsString) (password_hash : JsString) :
    Except DbError UserRow × Db :=
  let bound : Except DbError (Option JsString × Option JsString) := do
    let name ← textParam name
    let email ← textParam email
    let name ← varcharNullable 100 name
    let email ← varcharNullable 255 email
    pure (name, email)
  match bound with
  | .error e => (.error e, db)
  | .ok (name, email) =>
    match nextval db.users_id_seq with
    | .error e => (.error e, db)
    | .ok id =>
      let checked : Except DbError UserRow := do
        let email ← notNull "email" email
        if db.users.any (fun r => r.email == email) then
          throw (.uniqueViolation "users_email_key")
        pure { id := id, name := name, email := email, password_hash := password_hash,
               created_at := now }
      match checked with
      | .ok row => (.ok row, { db with users_id_seq := id, users := db.users ++ [row] })
      | .error e => (.error e, { db with users_id_seq := id })

/-- The query `INSERT INTO user_memory (user_id, category, content) VALUES ($1, $2, $3)
RETURNING *`, in the same order: binding and fitting, the sequence, the constraints. -/
def insertMemory (now : Nat) (db : Db) (user_id : Nat) (category : JsString)
    (content : Option JsString) : Except DbError MemoryRow × Db :=
  let bound : Except DbError (JsString × Option JsString) := do
    let _ ← textParam (some category)
    let content ← textParam content
    let category ← varchar 50 category
    pure (category, content)
  match bound with
  | .error e => (.error e, db)
  | .ok (category, content) =>
    match nextval db.user_memory_id_seq with
    | .error e => (.error e, db)
    | .ok id =>
      let checked : Except DbError MemoryRow := do
        let content ← notNull "content" content
        if !db.users.any (fun r => r.id == user_id) then
          throw (.foreignKeyViolation "user_memory_user_id_fkey")
        pure { id := id, user_id := user_id, category := category, content := content,
               created_at := now }
      match checked with
      | .ok row =>
        (.ok row, { db with user_memory_id_seq := id, user_memory := db.user_memory ++ [row] })
      | .error e => (.error e, { db with user_memory_id_seq := id })

/-- The query `INSERT INTO messages (user_id, role, content) VALUES ($1, $2, $3) RETURNING *`,
in the same order: binding and fitting, the sequence, the constraints. -/
def insertMessage (now : Nat) (db : Db) (user_id : Nat) (role content : Option JsString) :
    Except DbError MessageRow × Db :=
  let bound : Except DbError (Option JsString × Option JsString) := do
    let role ← textParam role
    let content ← textParam content
    let role ← varcharNullable 20 role
    pure (role, content)
  match bound with
  | .error e => (.error e, db)
  | .ok (role, content) =>
    match nextval db.messages_id_seq with
    | .error e => (.error e, db)
    | .ok id =>
      let checked : Except DbError MessageRow := do
        let role ← notNull "role" role
        let content ← notNull "content" content
        if !db.users.any (fun r => r.id == user_id) then
          throw (.foreignKeyViolation "messages_user_id_fkey")
        pure { id := id, user_id := user_id, role := role, content := content,
               created_at := now }
      match checked with
      | .ok row => (.ok row, { db with messages_id_seq := id, messages := db.messages ++ [row] })
      | .error e => (.error e, { db with messages_id_seq := id })

/-- The query `SELECT * FROM user_memory WHERE user_id = $1 ORDER BY created_at DESC`.  Rows of
equal `created_at` come in the order of their insertion (any order would do for the database). -/
def selectMemory (db : Db) (user_id : Nat) : List MemoryRow :=
  (db.user_memory.filter fun r => r.user_id == user_id).insertionSort
    fun a b => b.created_at ≤ a.created_at

/-- The query `SELECT role, content FROM messages WHERE user_id = $1 ORDER BY created_at ASC`. -/
def selectMessages (db : Db) (user_id : Nat) : List (JsString × JsString) :=
  ((db.messages.filter fun r => r.user_id == user_id).insertionSort
    fun a b => a.created_at ≤ b.created_at).map fun r => (r.role, r.content)

/-- The query `SELECT * FROM users WHERE email = $1`, `rows[0]`: the parameter is bound first. -/
def selectUserByEmail (db : Db) (email : Option JsString) : Except DbError (Option UserRow) :=
  match textParam email with
  | .error e => .error e
  | .ok none => .ok none
  | .ok (some e) => .ok (db.users.find? fun r => r.email == e)

/-- The query `DELETE FROM user_memory WHERE id = $1 AND user_id = $2`, for an id that was bound
as an `INTEGER`: the `rowCount` and the new state. -/
def deleteMemory (db : Db) (id user_id : Nat) : Nat × Db :=
  ((db.user_memory.filter fun r => r.id == id && r.user_id == user_id).length,
   { db with user_memory := db.user_memory.filter fun r => !(r.id == id && r.user_id == user_id) })

/-- The query `DELETE FROM user_memory WHERE user_id = $1`. -/
def clearMemory (db : Db) (user_id : Nat) : Nat × Db :=
  ((db.user_memory.filter fun r => r.user_id == user_id).length,
   { db with user_memory := db.user_memory.filter fun r => !(r.user_id == user_id) })

/-- The query `DELETE FROM messages WHERE user_id = $1`. -/
def clearMessages (db : Db) (user_id : Nat) : Nat × Db :=
  ((db.messages.filter fun r => r.user_id == user_id).length,
   { db with messages := db.messages.filter fun r => !(r.user_id == user_id) })

/-- What a Google identity token asserts: `ticket.getPayload()`. -/
structure GooglePayload where
  name : JsOpt
  email : JsOpt
  picture : JsOpt
  deriving Repr, DecidableEq

/-- What the libraries and the clock answer during one request: the value of
`CURRENT_TIMESTAMP`; for a token of three parts, whether `jsonwebtoken` accepts its signature and
expiry, and the `id` of its payload; the token that `jwt.sign` issues for an id; the salted hash
that `bcrypt.hash` computes and the verdict of `bcrypt.compare`; whether `GOOGLE_CLIENT_ID` is
set, the verdict of `verifyIdToken` and the draw of `Math.random`. -/
structure ServerEnv where
  now : Nat
  jwtCheck : JsString → Except JsError Nat
  jwtSign : Nat → JsString
  bcryptHash : JsString → JsString
  bcryptCompare : JsString → JsString → Bool
  googleConfigured : Bool
  googleVerify : JsOpt → Except JsError GooglePayload
  randomPassword : JsString

/-- The call `jwt.verify(token, JWT_SECRET, callback)` of `jsonwebtoken`: a missing or empty
token and a token that is not made of three parts separated by dots are refused before the
signature is looked at. -/
def jwtVerify (env : ServerEnv) (token : Option JsString) : Except JsError Nat :=
  match token with
  | none => .error ⟨.str "jwt must be provided".toList⟩
  | some [] => .error ⟨.str "jwt must be provided".toList⟩
  | some (c :: cs) =>
    if ((c :: cs).splitOn '.').length = 3 then env.jwtCheck (c :: cs)
    else .error ⟨.str "jwt malformed".toList⟩

/-- What a handler caught: an error of the database or an error of a library. -/
inductive ServerError where
  | db (e : DbError)
  | js (e : JsError)
  deriving Repr, DecidableEq

/-- The body of a response. -/
inductive Body where
  | error (text : String)
  | failure (err : ServerError)
  | message (text : String)
  | memoryRows (rows : List MemoryRow)
  | memoryRow (row : MemoryRow)
  | messageRows (rows : List (JsString × JsString))
  | messageRow (row : MessageRow)
  | session (token : JsString) (id : Nat) (name : Option JsString) (email : JsString)
      (picture : Option JsOpt)
  | noSession
  | errorPage (text : String)
  deriving Repr, DecidableEq

/-- A response: the status and the JSON body (`errorPage` is the page that Express writes for an
error that no handler caught). -/
structure Response where
  status : Nat
  body : Body
  deriving Repr, DecidableEq

/-- The observable actions of the backend during a request. -/
inductive ServerEvent where
  | jwtVerify (token : Option JsString)
  | query (sql : String)
  | bcryptHash (password : JsString)
  | bcryptCompare (password hash : JsString)
  | jwtSign (id : Nat)
  | googleVerify (token : JsOpt)
  | consoleError (label : String)
  deriving Repr, DecidableEq

/-- The outcome of a request: the response, the new state of the database and the actions. -/
structure Outcome where
  response : Response
  db : Db
  events : List ServerEvent
  deriving Repr, DecidableEq

/-- The routes behind `verifyToken`, with the fields of the body that the handler reads (a
string, `null` or `undefined` each).  The `:id` of `DELETE /api/memory/:id` is taken to be a
decimal numeral, given by its value. -/
inductive ProtectedRoute where
  | memoryList
  | memoryAdd (category content : JsOpt)
  | memoryRemove (id : Nat)
  | memoryClear
  | chatList
  | chatAdd (role content : JsOpt)
  | chatClear
  deriving Repr, DecidableEq

/-- The routes without a session, with the fields of the body that the handler reads. -/
inductive PublicRoute where
  | signup (name email password : JsOpt)
  | login (email password : JsOpt)
  | google (token : JsOpt)
  deriving Repr, DecidableEq

/-- The routes of the application. -/
inductive Route where
  | unguarded (r : PublicRoute)
  | guarded (r : ProtectedRoute)
  deriving Repr, DecidableEq

/-- A request: the header `authorization` and the route with its parameters and body. -/
structure Request where
  authorization : Option JsString
  route : Route
  deriving Repr, DecidableEq

/-- The handler of `GET /api/memory`. -/
def memoryList (db : Db) (userId : Nat) : Outcome :=
  { response := ⟨200, .memoryRows (selectMemory db userId)⟩, db := db,
    events := [.query "SELECT * FROM user_memory WHERE user_id = $1 ORDER BY created_at DESC"] }

/-- The handler of `POST /api/memory`. -/
def memoryAdd (env : ServerEnv) (db : Db) (userId : Nat) (category content : JsOpt) : Outcome :=
  match insertMemory env.now db userId (category.orElse "General".toList) (sqlParam content) with
  | (.ok row, db') =>
    { response := ⟨200, .memoryRow row⟩, db := db',
      events := [.query ("INSERT INTO user_memory (user_id, category, content) " ++
        "VALUES ($1, $2, $3) RETURNING *")] }
  | (.error e, db') =>
    { response := ⟨500, .failure (.db e)⟩, db := db',
      events := [.query ("INSERT INTO user_memory (user_id, category, content) " ++
        "VALUES ($1, $2, $3) RETURNING *")] }

/-- The handler of `DELETE /api/memory/:id`: an id above the range of `INTEGER` makes the query
fail, and the `catch` answers 500. -/
def memoryRemove (db : Db) (userId : Nat) (id : Nat) : Outcome :=
  match int4Param id with
  | .error e =>
    { response := ⟨500, .failure (.db e)⟩, db := db,
      events := [.query "DELETE FROM user_memory WHERE id = $1 AND user_id = $2"] }
  | .ok id =>
    if (deleteMemory db id userId).1 = 0 then
      { response := ⟨404, .error "Memory not found or unauthorized"⟩,
        db := (deleteMemory db id userId).2,
        events := [.query "DELETE FROM user_memory WHERE id = $1 AND user_id = $2"] }
    else
      { response := ⟨200, .message "Memory deleted"⟩, db := (deleteMemory db id userId).2,
        events := [.query "DELETE FROM user_memory WHERE id = $1 AND user_id = $2"] }

/-- The handler of `DELETE /api/memory`. -/
def memoryClear (db : Db) (userId : Nat) : Outcome :=
  { response := ⟨200, .message "All memories cleared"⟩, db := (clearMemory db userId).2,
    events := [.query "DELETE FROM user_memory WHERE user_id = $1"] }

/-- The handler of `GET /api/chat`. -/
def chatList (db : Db) (userId : Nat) : Outcome :=
  { response := ⟨200, .messageRows (selectMessages db userId)⟩, db := db,
    events := [.query ("SELECT role, content FROM messages WHERE user_id = $1 " ++
      "ORDER BY created_at ASC")] }

/-- The handler of `POST /api/chat`. -/
def chatAdd (env : ServerEnv) (db : Db) (userId : Nat) (role content : JsOpt) : Outcome :=
  match insertMessage env.now db userId (sqlParam role) (sqlParam content) with
  | (.ok row, db') =>
    { response := ⟨200, .messageRow row⟩, db := db',
      events := [.query ("INSERT INTO messages (user_id, role, content) " ++
        "VALUES ($1, $2, $3) RETURNING *")] }
  | (.error e, db') =>
    { response := ⟨500, .failure (.db e)⟩, db := db',
      events := [.query ("INSERT INTO messages (user_id, role, content) " ++
        "VALUES ($1, $2, $3) RETURNING *")] }

/-- The handler of `DELETE /api/chat`. -/
def chatClear (db : Db) (userId : Nat) : Outcome :=
  { response := ⟨200, .message "Chat history cleared"⟩, db := (clearMessages db userId).2,
    events := [.query "DELETE FROM messages WHERE user_id = $1"] }

/-- The handler of a protected route, run with `req.userId`. -/
def runProtected (r : ProtectedRoute) (env : ServerEnv) (db : Db) (userId : Nat) : Outcome :=
  match r with
  | .memoryList => memoryList db userId
  | .memoryAdd category content => memoryAdd env db userId category content
  | .memoryRemove id => memoryRemove db userId id
  | .memoryClear => memoryClear db userId
  | .chatList => chatList db userId
  | .chatAdd role content => chatAdd env db userId role content
  | .chatClear => chatClear db userId

/-- The middleware `verifyToken`, in front of the handler `next`. -/
def verifyToken (env : ServerEnv) (authorization : Option JsString) (db : Db)
    (next : Nat → Outcome) : Outcome :=
  if tokenMissing authorization then
    { response := ⟨403, .error "No token provided"⟩, db := db, events := [] }
  else
    match jwtVerify env ((authorization.getD []).splitOn ' ')[1]? with
    | .error _ =>
      { response := ⟨401, .error "Unauthorized"⟩, db := db,
        events := [.jwtVerify ((authorization.getD []).splitOn ' ')[1]?] }
    | .ok id =>
      { next id with
        events := .jwtVerify ((authorization.getD []).splitOn ' ')[1]? :: (next id).events }

/-- The error of `bcryptjs` for a password that is no string: the message names the types of
the two arguments. -/
def illegalArguments (password : JsOpt) (second : String) : JsError :=
  match password with
  | .undefined => ⟨.str ("Illegal arguments: undefined, " ++ second).toList⟩
  | .null => ⟨.str ("Illegal arguments: object, " ++ second).toList⟩
  | .str _ => ⟨.str ("Illegal arguments: string, " ++ second).toList⟩

/-- The handler of `POST /api/auth/signup`. -/
def signup (env : ServerEnv) (db : Db) (name email password : JsOpt) : Outcome :=
  match password with
  | .str pw =>
    match insertUser env.now db (sqlParam name) (sqlParam email) (env.bcryptHash pw) with
    | (.ok user, db') =>
      { response := ⟨200, .session (env.jwtSign user.id) user.id user.name user.email none⟩,
        db := db',
        events := [.bcryptHash pw,
          .query ("INSERT INTO users (name, email, password_hash) VALUES ($1, $2, $3) " ++
            "RETURNING id, name, email"),
          .jwtSign user.id] }
    | (.error e, db') =>
      { response :=
          if e.code = "23505" then ⟨400, .error "Email already exists"⟩
          else ⟨500, .failure (.db e)⟩,
        db := db',
        events := [.bcryptHash pw,
          .query ("INSERT INTO users (name, email, password_hash) VALUES ($1, $2, $3) " ++
            "RETURNING id, name, email")] }
  | _ =>
    { response := ⟨500, .failure (.js (illegalArguments password "number"))⟩, db := db,
      events := [] }

/-- The handler of `POST /api/auth/login`. -/
def login (env : ServerEnv) (db : Db) (email password : JsOpt) : Outcome :=
  match selectUserByEmail db (sqlParam email) with
  | .error e =>
    { response := ⟨500, .failure (.db e)⟩, db := db,
      events := [.query "SELECT * FROM users WHERE email = $1"] }
  | .ok none =>
    { response := ⟨404, .error "User not found"⟩, db := db,
      events := [.query "SELECT * FROM users WHERE email = $1"] }
  | .ok (some user) =>
    match password with
    | .str pw =>
      if env.bcryptCompare pw user.password_hash then
        { response := ⟨200, .session (env.jwtSign user.id) user.id user.name user.email none⟩,
          db := db,
          events := [.query "SELECT * FROM users WHERE email = $1",
            .bcryptCompare pw user.password_hash, .jwtSign user.id] }
      else
        { response := ⟨401, .noSession⟩, db := db,
          events := [.query "SELECT * FROM users WHERE email = $1",
            .bcryptCompare pw user.password_hash] }
    | _ =>
      { response := ⟨500, .failure (.js (illegalArguments password "string"))⟩, db := db,
        events := [.query "SELECT * FROM users WHERE email = $1"] }

/-- The handler of `POST /api/auth/google`. -/
def googleLogin (env : ServerEnv) (db : Db) (token : JsOpt) : Outcome :=
  if !env.googleConfigured then
    { response := ⟨500, .error "Google Auth is not configured on the server"⟩, db := db,
      events := [.consoleError "GOOGLE_CLIENT_ID is not configured on the server"] }
  else
    match env.googleVerify token with
    | .error _ =>
      { response := ⟨401, .error "Invalid Google Token"⟩, db := db,
        events := [.googleVerify token, .consoleError "Google Auth Error:"] }
    | .ok payload =>
      match selectUserByEmail db (sqlParam payload.email) with
      | .error _ =>
        { response := ⟨401, .error "Invalid Google Token"⟩, db := db,
          events := [.googleVerify token, .query "SELECT * FROM users WHERE email = $1",
            .consoleError "Google Auth Error:"] }
      | .ok (some user) =>
        { response := ⟨200, .session (env.jwtSign user.id) user.id user.name user.email
            (some payload.picture)⟩,
          db := db,
          events := [.googleVerify token, .query "SELECT * FROM users WHERE email = $1",
            .jwtSign user.id] }
      | .ok none =>
        match insertUser env.now db (sqlParam payload.name) (sqlParam payload.email)
          (env.bcryptHash env.randomPassword) with
        | (.ok user, db') =>
          { response := ⟨200, .session (env.jwtSign user.id) user.id user.name user.email
              (some payload.picture)⟩,
            db := db',
            events := [.googleVerify token, .query "SELECT * FROM users WHERE email = $1",
              .bcryptHash env.randomPassword,
              .query ("INSERT INTO users (name, email, password_hash) VALUES ($1, $2, $3) " ++
                "RETURNING id, name, email"),
              .jwtSign user.id] }
        | (.error _, db') =>
          { response := ⟨401, .error "Invalid Google Token"⟩, db := db',
            events := [.googleVerify token, .query "SELECT * FROM users WHERE email = $1",
              .bcryptHash env.randomPassword,
              .query ("INSERT INTO users (name, email, password_hash) VALUES ($1, $2, $3) " ++
                "RETURNING id, name, email"),
              .consoleError "Google Auth Error:"] }

/-- The handler of a route without a session. -/
def runPublic (r : PublicRoute) (env : ServerEnv) (db : Db) : Outcome :=
  match r with
  | .signup name email password => signup env db name email password
  | .login email password => login env db email password
  | .google token => googleLogin env db token

/-- The routes of the application: one request, whose body `express.json()` has parsed, against
a state of the database. -/
def handle (env : ServerEnv) (db : Db) (req : Request) : Outcome :=
  match req.route with
  | .unguarded r => runPublic r env db
  | .guarded r => verifyToken env req.authorization db fun userId => runProtected r env db userId

/-- A request as it arrives: the length of its body in bytes (0 without a body), and what the
header and the parsed body hold. -/
structure HttpRequest where
  contentLength : Nat
  request : Request
  deriving Repr, DecidableEq

/-- The limit of `express.json()` on the body of a request: its default, 100 kB. -/
def bodyLimit : Nat := 102400

/-- The application `app`: the middleware `express.json()` in front of the routes.  A body above
the limit is refused with 413 before the session gate and the handlers run. -/
def app (env : ServerEnv) (db : Db) (http : HttpRequest) : Outcome :=
  if bodyLimit < http.contentLength then
    { response := ⟨413, .errorPage "request entity too large"⟩, db := db, events := [] }
  else handle env db http.request

/-- The sequences are within the range of `INTEGER`, as is every value drawn from them. -/
def Db.InRange (db : Db) : Prop :=
  db.users_id_seq ≤ int4Max ∧ db.user_memory_id_seq ≤ int4Max ∧ db.messages_id_seq ≤ int4Max

/-- The invariants that the schema maintains: the ids of a table are distinct and were drawn
from its sequence, and the emails of the users are distinct. -/
def Db.WellFormed (db : Db) : Prop :=
  (∀ r ∈ db.users, r.id ≤ db.users_id_seq) ∧ (db.users.map fun r => r.id).Nodup ∧
  (db.users.map fun r => r.email).Nodup ∧
  (∀ r ∈ db.user_memory, r.id ≤ db.user_memory_id_seq) ∧
  (db.user_memory.map fun r => r.id).Nodup ∧
  (∀ r ∈ db.messages, r.id ≤ db.messages_id_seq) ∧ (db.messages.map fun r => r.id).Nodup

/-- The header resolves to the session of the user: it is present, and the token after its
first blank verifies with the id of the user. -/
def ValidSession (env : ServerEnv) (authorization : Option JsString) (userId : Nat) : Prop :=
  tokenMissing authorization = false ∧
  jwtVerify env ((authorization.getD []).splitOn ' ')[1]? = .ok userId

/-- The empty database, after `initDb`. -/
def Db.empty : Db :=
  { users := [], user_memory := [], messages := [], users_id_seq := 0, user_memory_id_seq := 0,
    messages_id_seq := 0 }

/-- An environment for examples: the token of user `n` is `n` letters `t` between two dots with
letters around, every such token verifies, and a hash is the password behind a mark. -/
def ServerEnv.sample (now : Nat) : ServerEnv :=
  { now := now,
    jwtCheck := fun t =>
      match t.splitOn '.' with
      | [['h'], payload, ['s']] =>
        if payload.all (fun c => c == 't') then .ok payload.length
        else .error ⟨.str "invalid token".toList⟩
      | _ => .error ⟨.str "invalid signature".toList⟩,
    jwtSign := fun id => ['h', '.'] ++ List.replicate id 't' ++ ['.', 's'],
    bcryptHash := fun pw => '$' :: pw,
    bcryptCompare := fun pw hash => hash == '$' :: pw,
    googleConfigured := true,
    googleVerify := fun _ => .error ⟨.str "no network".toList⟩,
    randomPassword := "k3x9q1zz".toList }

/-- A database for examples: Ann (id 1) with two facts and two messages, Bob (id 2) with one
fact. -/
def Db.sample : Db :=
  { users :=
      [{ id := 1, name := some "Ann".toList, email := "ann@x.io".toList,
         password_hash := "$pw1".toList, created_at := 1 },
       { id := 2, name := some "Bob".toList, email := "bob@x.io".toList,
         password_hash := "$pw2".toList, created_at := 2 }],
    user_memory :=
      [{ id := 1, user_id := 1, category := "Location".toList,
         content := "Moved to Berlin".toList, created_at := 10 },
       { id := 2, user_id := 2, category := "Income".toList, content := "Salary 5000".toList,
         created_at := 11 },
       { id := 3, user_id := 1, category := "Goal".toList, content := "Buy a house".toList,
         created_at := 12 }],
    messages :=
      [{ id := 1, user_id := 1, role := "user".toList, content := "hi".toList,
         created_at := 20 },
       { id := 2, user_id := 1, role := "assistant".toList, content := "hello".toList,
         created_at := 21 }],
    users_id_seq := 2, user_memory_id_seq := 3, messages_id_seq := 2 }

/-- The fact that Ann adds to the sample database at time 30 in the examples. -/
def retireFact : MemoryRow :=
  { id := 4, user_id := 1, category := "Goal".toList, content := "Retire at 50".toList,
    created_at := 30 }

/-! ## The pages of the client (`MemorySettings.jsx`, `ChatInterface.jsx`) -/

/-- The calls of `fetch` among the actions: the method, the address and the header
`Authorization` (absent when the call passes no such header). -/
def fetchCalls : List Event → List (String × String × Option JsString)
  | [] => []
  | .fetch method url authorization _ :: es => (method, url, authorization) :: fetchCalls es
  | _ :: es => fetchCalls es

/-- The completion requests among the actions, with the messages submitted. -/
def completionCalls : List Event → List (List ChatMessage)
  | [] => []
  | .completionCreate messages :: es => messages :: completionCalls es
  | _ :: es => completionCalls es

/-- The body of a response as the page `MemorySettings` reads it: as the rows to show
(`setMemories(data)`) and through its property `error` (`errorData.error`). -/
structure MemoryReply where
  rows : List MemoryRow
  error : JsOpt
  deriving Repr, DecidableEq

/-- The state of the page `MemorySettings`: the facts shown, the spinner and the error shown
(`null` at first). -/
structure MemoryPage where
  memories : List MemoryRow
  loading : Bool
  error : Option JsString
  deriving Repr, DecidableEq

/-- The function `fetchMemories` of `MemorySettings`: `fetch('/api/memory')` is called with the
address alone. -/
def fetchMemories (page : MemoryPage) (o : FetchOutcome MemoryReply) : Run MemoryPage :=
  Run.bind
    (tryCatch
      (do
        let response ← fetch "GET" "/api/memory" none none o
        if !responseOk response.1 then
          let errorData : JsOpt :=
            match response.2 with
            | .ok data => data.error
            | .error _ => .undefined
          (⟨[], .error ⟨.str (errorData.orElse
            ("Server error: ".toList ++ (toString response.1).toList))⟩⟩ : Run MemoryPage)
        else
          match response.2 with
          | .ok data => pure { memories := data.rows, loading := true, error := none }
          | .error e => (⟨[], .error e⟩ : Run MemoryPage))
      (fun err => pure
        { memories := page.memories, loading := true,
          error := some (err.message.orElse
            ("Could not connect to the database. " ++
             "Make sure the backend server is running.").toList) }))
    (fun p => pure { p with loading := false })

/-- The function `handleDelete` of `MemorySettings`: the request passes the method alone, and
the fact leaves the page once the request has resolved, whatever its status. -/
def handleDelete (page : MemoryPage) (id : Nat) (o : FetchOutcome Unit) : Run MemoryPage :=
  tryCatch
    (do
      let _ ← fetch "DELETE" ("/api/memory/" ++ toString id) none none o
      pure { page with memories := page.memories.filter fun m => m.id != id })
    (fun err => do
      emit (.consoleError "Failed to delete memory" err)
      pure page)

/-- The function `handleClearAll` of `MemorySettings`, for the answer to `window.confirm`. -/
def handleClearAll (page : MemoryPage) (confirmed : Bool) (o : FetchOutcome Unit) :
    Run MemoryPage :=
  if !confirmed then pure page
  else
    tryCatch
      (do
        let _ ← fetch "DELETE" "/api/memory" none none o
        pure { page with memories := [] })
      (fun err => do
        emit (.consoleError "Failed to clear memories" err)
        pure page)

/-- The function `fetchHistory` of `ChatInterface`, run when `user && token` holds: the messages
shown afterwards. -/
def fetchHistory (user : Bool) (token : Option JsString) (messages : List ChatMessage)
    (o : FetchOutcome (List ChatMessage)) : Run (List ChatMessage) :=
  if user && !tokenMissing token then
    tryCatch
      (do
        let response ← fetch "GET" "/api/chat" (some ("Bearer ".toList ++ token.getD [])) none o
        if responseOk response.1 then
          match response.2 with
          | .ok history => pure (if history.length > 0 then history else messages)
          | .error e => (⟨[], .error e⟩ : Run (List ChatMessage))
        else pure messages)
      (fun error => do
        emit (.consoleError "Failed to fetch chat history:" error)
        pure messages)
  else pure messages

/-- The function `saveMessageToDb` of `ChatInterface`. -/
def saveMessageToDb (user : Bool) (token : Option JsString) (role content : JsString)
    (o : FetchOutcome Unit) : Run Unit :=
  if !user || tokenMissing token then pure ()
  else
    tryCatch
      (do
        let _ ← fetch "POST" "/api/chat" (some ("Bearer ".toList ++ token.getD []))
          (some (role, content)) o
        pure ())
      (fun error => emit (.consoleError "Failed to save message:" error))

/-- A page for examples: the two facts of Ann. -/
def MemoryPage.sample : MemoryPage :=
  { memories := selectMemory Db.sample 1, loading := false, error := none }

/-! ## Runs of requests and examples for the sign-in routes -/

/-- The messages of the Conversation Log all have the role `user` or `assistant`. -/
def RolesValid (db : Db) : Prop :=
  ∀ r ∈ db.messages, r.role = "user".toList ∨ r.role = "assistant".toList

/-- One `POST /api/chat` request of a run: the answers of its moment (the clock among them),
the length of its body, its role and its content. -/
structure Send where
  env : ServerEnv
  contentLength : Nat
  role : JsString
  content : JsString

/-- A run of `POST /api/chat` requests with one header, one after the other. -/
def appendAll (authorization : Option JsString) (db : Db) : List Send → Db
  | [] => db
  | send :: rest =>
    appendAll authorization
      (app send.env db ⟨send.contentLength,
        ⟨authorization, .guarded (.chatAdd (.str send.role) (.str send.content))⟩⟩).db rest

/-- A send of the examples: at the time `now`, with a body of 40 bytes. -/
def Send.sample (now : Nat) (role content : String) : Send :=
  { env := ServerEnv.sample now, contentLength := 40, role := role.toList,
    content := content.toList }

/-- The database with other password hashes: every other column of every row is kept. -/
def rehash (f : UserRow → JsString) (db : Db) : Db :=
  { db with users := db.users.map fun r => { r with password_hash := f r } }

/-- An environment for examples in which Google vouches for `payload`, whatever the token. -/
def ServerEnv.google (now : Nat) (payload : GooglePayload) : ServerEnv :=
  { ServerEnv.sample now with googleVerify := fun _ => .ok payload }

/-- An identity assertion for examples: Eve, who has no account in the sample database. -/
def evePayload : GooglePayload :=
  { name := .str "Eve".toList, email := .str "eve@x.io".toList,
    picture := .str "https://x.io/eve.png".toList }

/-- The row of Eve once her first login with Google at time 30 has created it. -/
def eveRow : UserRow :=
  { id := 3, name := some "Eve".toList, email := "eve@x.io".toList,
    password_hash := "$k3x9q1zz".toList, created_at := 30 }

/-- The row that `POST /api/auth/google` creates for an asserted name and email. -/
def googleRow (env : ServerEnv) (db : Db) (name : JsOpt) (e : JsString) : UserRow :=
  { id := db.users_id_seq + 1, name := sqlParam name, email := e,
    password_hash := env.bcryptHash env.randomPassword, created_at := env.now }

/-- An identity assertion for examples with a name of 101 characters. -/
def longNamePayload : GooglePayload :=
  { name := .str (List.replicate 101 'x'), email := .str "eve@x.io".toList,
    picture := .undefined }

/-! ## The backtracking matcher -/

theorem matchHere_one {a : CharSet} {ts : List Term} {x : JsString} {r : MatchState}
    (h : matchHere (.one a :: ts) x = some r) :
    ∃ c y r', x = c :: y ∧ a.test c = true ∧ matchHere ts y = some r' ∧
      r.matched = c :: r'.matched ∧ r.captures = r'.captures := by
  cases x with
  | nil => simp [matchHere] at h
  | cons c cs =>
    simp only [matchHere] at h
    split at h
    · rename_i ht
      cases hr : matchHere ts cs with
      | none => simp [hr] at h
      | some r' =>
        simp [hr] at h
        subst h
        exact ⟨c, cs, r', rfl, ht, hr, rfl, rfl⟩
    · simp at h

theorem starGreedy_some {a : CharSet} {k : JsString → Option MatchState} :
    ∀ {x : JsString} {r : MatchState}, starGreedy a k x = some r →
    ∃ u y r', x = u ++ y ∧ (∀ c ∈ u, a.test c = true) ∧ k y = some r' ∧
      r.matched = u ++ r'.matched ∧ r.captures = r'.captures := by
  intro x
  induction x with
  | nil =>
    intro r h
    exact ⟨[], [], r, rfl, by simp, by simpa [starGreedy] using h, rfl, rfl⟩
  | cons c cs ih =>
    intro r h
    simp only [starGreedy] at h
    split at h
    · rename_i ht
      split at h
      · rename_i r0 hr0
        obtain ⟨u, y, r', hx, hu, hk, hm, hc⟩ := ih hr0
        simp at h
        subst h
        refine ⟨c :: u, y, r', by simp [hx], ?_, hk, by simp [MatchState.push, hm],
          by simp [MatchState.push, hc]⟩
        intro d hd
        rcases List.mem_cons.1 hd with rfl | hd
        · exact ht
        · exact hu d hd
      · exact ⟨[], c :: cs, r, rfl, by simp, h, rfl, rfl⟩
    · exact ⟨[], c :: cs, r, rfl, by simp, h, rfl, rfl⟩

theorem starLazy_some {a : CharSet} {k : JsString → Option MatchState} :
    ∀ {x : JsString} {cap : JsString} {r : MatchState}, starLazy a k x = some (cap, r) →
    ∃ y, x = cap ++ y ∧ (∀ c ∈ cap, a.test c = true) ∧ k y = some r ∧
      ∀ p q, cap = p ++ q → q ≠ [] → k (q ++ y) = none := by
  intro x
  induction x with
  | nil =>
    intro cap r h
    simp only [starLazy] at h
    cases hk : k [] with
    | none => simp [hk] at h
    | some r0 =>
      simp [hk] at h
      obtain ⟨h1, h2⟩ := h
      subst h1 h2
      refine ⟨[], rfl, by simp, hk, ?_⟩
      intro p q hpq hq
      simp at hpq
      exact absurd hpq.2 hq
  | cons c cs ih =>
    intro cap r h
    simp only [starLazy] at h
    split at h
    · rename_i r0 hr0
      simp at h
      obtain ⟨h1, h2⟩ := h
      subst h1 h2
      refine ⟨c :: cs, rfl, by simp, hr0, ?_⟩
      intro p q hpq hq
      simp at hpq
      exact absurd hpq.2 hq
    · rename_i hnone
      split at h
      · rename_i ht
        cases hrec : starLazy a k cs with
        | none => simp [hrec] at h
        | some pr =>
          obtain ⟨cap0, r0⟩ := pr
          simp [hrec] at h
          obtain ⟨h1, h2⟩ := h
          subst h1 h2
          obtain ⟨y, hx, hall, hk, hmin⟩ := ih hrec
          refine ⟨y, by simp [hx], ?_, hk, ?_⟩
          · intro d hd
            rcases List.mem_cons.1 hd with rfl | hd
            · exact ht
            · exact hall d hd
          · intro p q hpq hq
            cases p with
            | nil =>
              simp at hpq
              subst hpq
              simpa [hx] using hnone
            | cons d p' =>
              simp at hpq
              exact hmin p' q hpq.2 hq
      · simp at h

theorem matchHere_star {a : CharSet} {ts : List Term} {x : JsString} {r : MatchState}
    (h : matchHere (.star a :: ts) x = some r) :
    ∃ u y r', x = u ++ y ∧ (∀ c ∈ u, a.test c = true) ∧ matchHere ts y = some r' ∧
      r.matched = u ++ r'.matched ∧ r.captures = r'.captures := by
  simp only [matchHere] at h
  exact starGreedy_some h

theorem matchHere_capLazy {a : CharSet} {ts : List Term} {x : JsString} {r : MatchState}
    (h : matchHere (.capLazy a :: ts) x = some r) :
    ∃ u y r', x = u ++ y ∧ (∀ c ∈ u, a.test c = true) ∧ matchHere ts y = some r' ∧
      r.matched = u ++ r'.matched ∧ r.captures = u :: r'.captures ∧
      ∀ p q, u = p ++ q → q ≠ [] → matchHere ts (q ++ y) = none := by
  simp only [matchHere] at h
  cases hl : starLazy a (matchHere ts) x with
  | none => simp [hl] at h
  | some pr =>
    obtain ⟨cap, r'⟩ := pr
    simp [hl] at h
    subst h
    obtain ⟨y, hx, hall, hk, hmin⟩ := starLazy_some hl
    exact ⟨cap, y, r', hx, hall, hk, rfl, rfl, hmin⟩

/-- Soundness of the matcher: the text consumed starts the input and is a word of the
pattern. -/
theorem matchHere_sound : ∀ (pat : List Term) {x : JsString} {r : MatchState},
    matchHere pat x = some r → ∃ rest, x = r.matched ++ rest ∧ Lang pat r.matched := by
  intro pat
  induction pat with
  | nil =>
    intro x r h
    simp [matchHere] at h
    subst h
    exact ⟨x, rfl, rfl⟩
  | cons t ts ih =>
    intro x r h
    cases t with
    | one a =>
      obtain ⟨c, y, r', hx, ht, hk, hm, _⟩ := matchHere_one h
      obtain ⟨rest, hy, hl⟩ := ih hk
      refine ⟨rest, ?_, ?_⟩
      · rw [hx, hm, hy]; simp
      · rw [hm]; exact ⟨c, r'.matched, rfl, ht, hl⟩
    | star a =>
      obtain ⟨u, y, r', hx, hu, hk, hm, _⟩ := matchHere_star h
      obtain ⟨rest, hy, hl⟩ := ih hk
      refine ⟨rest, ?_, ?_⟩
      · rw [hx, hm, hy]; simp
      · rw [hm]; exact ⟨u, r'.matched, rfl, hu, hl⟩
    | capLazy a =>
      obtain ⟨u, y, r', hx, hu, hk, hm, _, _⟩ := matchHere_capLazy h
      obtain ⟨rest, hy, hl⟩ := ih hk
      refine ⟨rest, ?_, ?_⟩
      · rw [hx, hm, hy]; simp
      · rw [hm]; exact ⟨u, r'.matched, rfl, hu, hl⟩

theorem starGreedy_isSome_of_continuation {a : CharSet} {k : JsString → Option MatchState}
    {y : JsString} (hk : (k y).isSome = true) : (starGreedy a k y).isSome = true := by
  cases y with
  | nil => simpa [starGreedy] using hk
  | cons c cs =>
    simp only [starGreedy]
    split
    · split
      · rfl
      · exact hk
    · exact hk

theorem starGreedy_isSome {a : CharSet} {k : JsString → Option MatchState} :
    ∀ (u : JsString) {y : JsString}, (∀ c ∈ u, a.test c = true) → (k y).isSome = true →
      (starGreedy a k (u ++ y)).isSome = true := by
  intro u
  induction u with
  | nil => intro y _ hk; exact starGreedy_isSome_of_continuation hk
  | cons c cs ih =>
    intro y hu hk
    have hrec := ih (fun d hd => hu d (List.mem_cons_of_mem _ hd)) hk
    have hc : a.test c = true := hu c (List.mem_cons_self _ _)
    simp only [List.cons_append, starGreedy, hc, if_true]
    cases hs : starGreedy a k (cs ++ y) with
    | none => simp [hs] at hrec
    | some r => rfl

theorem starLazy_isSome_of_continuation {a : CharSet} {k : JsString → Option MatchState}
    {y : JsString} (hk : (k y).isSome = true) : (starLazy a k y).isSome = true := by
  cases y with
  | nil =>
    simp only [starLazy]
    cases h : k [] with
    | none => simp [h] at hk
    | some r => rfl
  | cons c cs =>
    simp only [starLazy]
    cases h : k (c :: cs) with
    | none => simp [h] at hk
    | some r => rfl

theorem starLazy_isSome {a : CharSet} {k : JsString → Option MatchState} :
    ∀ (u : JsString) {y : JsString}, (∀ c ∈ u, a.test c = true) → (k y).isSome = true →
      (starLazy a k (u ++ y)).isSome = true := by
  intro u
  induction u with
  | nil => intro y _ hk; exact starLazy_isSome_of_continuation hk
  | cons c cs ih =>
    intro y hu hk
    have hrec := ih (fun d hd => hu d (List.mem_cons_of_mem _ hd)) hk
    have hc : a.test c = true := hu c (List.mem_cons_self _ _)
    simp only [List.cons_append, starLazy]
    cases h : k (c :: (cs ++ y)) with
    | some r => rfl
    | none =>
      simp only [hc, if_true]
      cases hs : starLazy a k (cs ++ y) with
      | none => simp [hs] at hrec
      | some r => rfl

/-- Completeness of the matcher: backtracking finds a match wherever the input starts with a
word of the pattern. -/
theorem matchHere_complete : ∀ (pat : List Term) {w : JsString}, Lang pat w →
    ∀ rest, (matchHere pat (w ++ rest)).isSome = true := by
  intro pat
  induction pat with
  | nil => intro w _ rest; rfl
  | cons t ts ih =>
    intro w hw rest
    cases t with
    | one a =>
      obtain ⟨c, v, rfl, ht, hv⟩ := hw
      have := ih hv rest
      simp only [List.cons_append, matchHere, ht, if_true]
      cases h : matchHere ts (v ++ rest) with
      | none => simp [h] at this
      | some r => rfl
    | star a =>
      obtain ⟨u, v, rfl, hu, hv⟩ := hw
      simp only [matchHere, List.append_assoc]
      exact starGreedy_isSome u hu (ih hv rest)
    | capLazy a =>
      obtain ⟨u, v, rfl, hu, hv⟩ := hw
      have := starLazy_isSome (k := matchHere ts) u hu (ih hv rest)
      simp only [matchHere, List.append_assoc]
      cases h : starLazy a (matchHere ts) (u ++ (v ++ rest)) with
      | none => simp [h] at this
      | some r => rfl

/-! ## The search of `exec` and the string replace -/

theorem regExpExec_some {pat : List Term} : ∀ {x : JsString} {m : RegExpMatch},
    regExpExec pat x = some m →
    ∃ r s, x = m.before ++ (m.whole ++ s) ∧ matchHere pat (m.whole ++ s) = some r ∧
      m.whole = r.matched ∧ m.groups = r.captures ∧
      ∀ p q, m.before = p ++ q → q ≠ [] → matchHere pat (q ++ (m.whole ++ s)) = none := by
  intro x
  induction x with
  | nil =>
    intro m h
    simp only [regExpExec] at h
    cases hr : matchHere pat [] with
    | none => simp [hr] at h
    | some r =>
      simp [hr] at h
      subst h
      obtain ⟨rest, hx, _⟩ := matchHere_sound pat hr
      have h1 : r.matched = [] := (List.append_eq_nil.1 hx.symm).1
      have h2 : rest = [] := (List.append_eq_nil.1 hx.symm).2
      refine ⟨r, [], by simp [h1], by simpa [h1] using hr, rfl, rfl, ?_⟩
      intro p q hpq hq
      simp at hpq
      exact absurd hpq.2 hq
  | cons c cs ih =>
    intro m h
    simp only [regExpExec] at h
    split at h
    · rename_i r hr
      simp at h
      subst h
      obtain ⟨rest, hx, _⟩ := matchHere_sound pat hr
      refine ⟨r, rest, by simpa using hx, by simpa [← hx] using hr, rfl, rfl, ?_⟩
      intro p q hpq hq
      simp at hpq
      exact absurd hpq.2 hq
    · rename_i hnone
      cases hrec : regExpExec pat cs with
      | none => simp [hrec] at h
      | some m' =>
        simp [hrec] at h
        subst h
        obtain ⟨r, s, hx, hm, hw, hg, hmin⟩ := ih hrec
        refine ⟨r, s, by simp [hx], hm, hw, hg, ?_⟩
        intro p q hpq hq
        cases p with
        | nil =>
          simp at hpq
          subst hpq
          simpa [← hx] using hnone
        | cons d p' =>
          simp at hpq
          exact hmin p' q hpq.2 hq

theorem regExpExec_none {pat : List Term} : ∀ (p : JsString) {y : JsString},
    regExpExec pat (p ++ y) = none → matchHere pat y = none := by
  intro p
  induction p with
  | nil =>
    intro y h
    cases y with
    | nil =>
      simp only [List.append_nil, regExpExec] at h
      cases hr : matchHere pat [] with
      | none => rfl
      | some r => simp [hr] at h
    | cons c cs =>
      simp only [List.nil_append, regExpExec] at h
      split at h
      · simp at h
      · assumption
  | cons c cs ih =>
    intro y h
    simp only [List.cons_append, regExpExec] at h
    split at h
    · simp at h
    · cases hrec : regExpExec pat (cs ++ y) with
      | none => exact ih hrec
      | some m => simp [hrec] at h

/-- The search finds a match exactly when the text holds a word of the pattern. -/
theorem regExpExec_isSome_iff (pat : List Term) (x : JsString) :
    (regExpExec pat x).isSome = true ↔ HasMatch pat x := by
  constructor
  · intro h
    cases hm : regExpExec pat x with
    | none => simp [hm] at h
    | some m =>
      obtain ⟨r, s, hx, hr, hw, _, _⟩ := regExpExec_some hm
      obtain ⟨_, _, hl⟩ := matchHere_sound pat hr
      exact ⟨m.before, m.whole, s, by simp [hx], hw ▸ hl⟩
  · rintro ⟨p, w, s, rfl, hl⟩
    cases hm : regExpExec pat (p ++ w ++ s) with
    | some m => rfl
    | none =>
      rw [List.append_assoc] at hm
      have h1 := regExpExec_none p hm
      have h2 := matchHere_complete pat hl s
      simp [h1] at h2

theorem regExpExec_eq_none_iff (pat : List Term) (x : JsString) :
    regExpExec pat x = none ↔ ¬ HasMatch pat x := by
  rw [← regExpExec_isSome_iff]
  cases regExpExec pat x <;> simp

theorem append_eq_append_of_length_lt {α : Type} {a b p c : List α}
    (h : a ++ b = p ++ c) (hlt : p.length < a.length) :
    ∃ q, q ≠ [] ∧ a = p ++ q ∧ c = q ++ b := by
  rcases List.append_eq_append_iff.1 h with ⟨a', hp, hb⟩ | ⟨c', ha, hc⟩
  · subst hp
    simp at hlt
  · subst ha
    refine ⟨c', ?_, rfl, hc⟩
    rintro rfl
    simp at hlt

/-- The match that the search returns is the leftmost occurrence of a word of the pattern. -/
theorem regExpExec_leftmost {pat : List Term} {x : JsString} {m : RegExpMatch}
    (h : regExpExec pat x = some m) (p w s : JsString) (hx : x = p ++ w ++ s)
    (hw : Lang pat w) : m.before.length ≤ p.length := by
  obtain ⟨r, s0, hx0, _, _, _, hmin⟩ := regExpExec_some h
  by_contra hlt
  have hlt' : p.length < m.before.length := Nat.lt_of_not_le hlt
  have heq : m.before ++ (m.whole ++ s0) = p ++ (w ++ s) := by
    rw [← hx0, hx, List.append_assoc]
  obtain ⟨q, hq, hb, hc⟩ := append_eq_append_of_length_lt heq hlt'
  have h1 := hmin p q hb hq
  have h2 := matchHere_complete pat hw s
  rw [hc] at h2
  simp [h1] at h2

theorem replaceFirst_at (w rep : JsString) : ∀ (p s : JsString),
    (∀ p1 q, p = p1 ++ q → q ≠ [] → w.isPrefixOf (q ++ (w ++ s)) = false) →
    replaceFirst w rep (p ++ (w ++ s)) = p ++ (rep ++ s) := by
  intro p
  induction p with
  | nil =>
    intro s _
    cases hws : w ++ s with
    | nil =>
      obtain ⟨h1, h2⟩ := List.append_eq_nil.1 hws
      subst h1 h2
      simp [replaceFirst]
    | cons c cs =>
      have hp : w.isPrefixOf (c :: cs) = true := by
        rw [← hws]
        exact List.isPrefixOf_iff_prefix.2 (List.prefix_append w s)
      have hd : List.drop w.length (c :: cs) = s := by
        rw [← hws]
        exact List.drop_left w s
      simp only [List.nil_append, replaceFirst, hp, if_true, hd]
  | cons c cs ih =>
    intro s hno
    have h0 := hno [] (c :: cs) rfl (by simp)
    have hrec := ih s (fun p1 q hpq hq => hno (c :: p1) q (by simp [hpq]) hq)
    simp only [List.cons_append] at h0
    simp [replaceFirst, h0, hrec]

/-- The string replace of `generateResponse` removes the span that the search matched. -/
theorem replaceFirst_regExpExec {pat : List Term} {x : JsString} (rep : JsString)
    {m : RegExpMatch} (h : regExpExec pat x = some m) :
    ∃ s, x = m.before ++ (m.whole ++ s) ∧ Lang pat m.whole ∧
      replaceFirst m.whole rep x = m.before ++ (rep ++ s) := by
  obtain ⟨r, s, hx, hr, hw, _, hmin⟩ := regExpExec_some h
  obtain ⟨_, _, hl⟩ := matchHere_sound pat hr
  rw [← hw] at hl
  refine ⟨s, hx, hl, ?_⟩
  have hrep := replaceFirst_at m.whole rep m.before s (by
    intro p1 q hpq hq
    cases hpre : m.whole.isPrefixOf (q ++ (m.whole ++ s)) with
    | false => rfl
    | true =>
      obtain ⟨t, ht⟩ := List.isPrefixOf_iff_prefix.1 hpre
      have h1 := hmin p1 q hpq hq
      have h2 := matchHere_complete pat hl t
      rw [ht] at h2
      simp [h1] at h2)
  rw [hx]
  exact hrep

/-! ## The directive pattern -/

theorem test_lit {a c : Char} (h : (CharSet.lit a).test c = true) : c = a := by
  simpa [CharSet.test] using h

/-- The anatomy of a match of the directive pattern at the start of the input: the keyword, the
white space runs, the two captures, the separator and the closing bracket. -/
theorem matchHere_memoryPattern {x : JsString} {r : MatchState}
    (h : matchHere memoryPattern x = some r) :
    ∃ w1 cat w2 w3 content rest,
      x = ['[', 'M', 'E', 'M', 'O', 'R', 'Y', ':'] ++
        (w1 ++ (cat ++ (w2 ++ ('|' :: (w3 ++ (content ++ (']' :: rest))))))) ∧
      r.matched = ['[', 'M', 'E', 'M', 'O', 'R', 'Y', ':'] ++
        (w1 ++ (cat ++ (w2 ++ ('|' :: (w3 ++ (content ++ [']'])))))) ∧
      r.captures = [cat, content] ∧
      (∀ c ∈ w1, isWhiteSpace c = true) ∧ (∀ c ∈ w2, isWhiteSpace c = true) ∧
      (∀ c ∈ w3, isWhiteSpace c = true) ∧
      (∀ c ∈ cat, isLineTerminator c = false) ∧ (∀ c ∈ content, isLineTerminator c = false) ∧
      ']' ∉ content := by
  unfold memoryPattern at h
  obtain ⟨c1, y1, r1, rfl, t1, h1, m1, k1⟩ := matchHere_one h
  obtain ⟨c2, y2, r2, rfl, t2, h2, m2, k2⟩ := matchHere_one h1
  obtain ⟨c3, y3, r3, rfl, t3, h3, m3, k3⟩ := matchHere_one h2
  obtain ⟨c4, y4, r4, rfl, t4, h4, m4, k4⟩ := matchHere_one h3
  obtain ⟨c5, y5, r5, rfl, t5, h5, m5, k5⟩ := matchHere_one h4
  obtain ⟨c6, y6, r6, rfl, t6, h6, m6, k6⟩ := matchHere_one h5
  obtain ⟨c7, y7, r7, rfl, t7, h7, m7, k7⟩ := matchHere_one h6
  obtain ⟨c8, y8, r8, rfl, t8, h8, m8, k8⟩ := matchHere_one h7
  obtain ⟨w1, y9, r9, rfl, hw1, h9, m9, k9⟩ := matchHere_star h8
  obtain ⟨cat, y10, r10, rfl, hcat, h10, m10, k10, _⟩ := matchHere_capLazy h9
  obtain ⟨w2, y11, r11, rfl, hw2, h11, m11, k11⟩ := matchHere_star h10
  obtain ⟨c12, y12, r12, rfl, t12, h12, m12, k12⟩ := matchHere_one h11
  obtain ⟨w3, y13, r13, rfl, hw3, h13, m13, k13⟩ := matchHere_star h12
  obtain ⟨content, y14, r14, rfl, hcontent, h14, m14, k14, hmin⟩ := matchHere_capLazy h13
  obtain ⟨c15, y15, r15, rfl, t15, h15, m15, k15⟩ := matchHere_one h14
  have e1 := test_lit t1
  have e2 := test_lit t2
  have e3 := test_lit t3
  have e4 := test_lit t4
  have e5 := test_lit t5
  have e6 := test_lit t6
  have e7 := test_lit t7
  have e8 := test_lit t8
  have e12 := test_lit t12
  have e15 := test_lit t15
  subst e1 e2 e3 e4 e5 e6 e7 e8 e12 e15
  have hr15 : r15 = { matched := [], captures := [] } := by
    simpa [matchHere] using h15.symm
  refine ⟨w1, cat, w2, w3, content, y15, by simp, ?_, ?_, hw1, hw2, hw3, ?_, ?_, ?_⟩
  · rw [m1, m2, m3, m4, m5, m6, m7, m8, m9, m10, m11, m12, m13, m14, m15, hr15]
    simp
  · rw [k1, k2, k3, k4, k5, k6, k7, k8, k9, k10, k11, k12, k13, k14, k15, hr15]
  · intro c hc
    simpa [CharSet.test] using hcat c hc
  · intro c hc
    simpa [CharSet.test] using hcontent c hc
  · intro hmem
    obtain ⟨p, q, hpq⟩ := List.append_of_mem hmem
    have hnone := hmin p (']' :: q) hpq (by simp)
    simp [matchHere, CharSet.test] at hnone

/-- A word of the directive pattern opens with `[` and closes with `]`. -/
theorem lang_memoryPattern_shape {w : JsString} (h : Lang memoryPattern w) :
    ∃ mid, w = '[' :: (mid ++ [']']) := by
  simp only [memoryPattern, Lang] at h
  obtain ⟨c1, v1, rfl, t1, c2, v2, rfl, _, c3, v3, rfl, _, c4, v4, rfl, _, c5, v5, rfl, _,
    c6, v6, rfl, _, c7, v7, rfl, _, c8, v8, rfl, _, w1, v9, rfl, _, cat, v10, rfl, _,
    w2, v11, rfl, _, c12, v12, rfl, _, w3, v13, rfl, _, content, v14, rfl, _,
    c15, v15, rfl, t15, rfl⟩ := h
  have e1 := test_lit t1
  have e15 := test_lit t15
  subst e1 e15
  exact ⟨c2 :: c3 :: c4 :: c5 :: c6 :: c7 :: c8 :: (w1 ++ (cat ++ (w2 ++ (c12 :: (w3 ++ content))))),
    by simp⟩

/-! ## Trimming -/

theorem hasMatch_of_infix {pat : List Term} {a y b : JsString} (h : HasMatch pat y) :
    HasMatch pat (a ++ y ++ b) := by
  obtain ⟨p, w, s, rfl, hl⟩ := h
  exact ⟨a ++ p, w, s ++ b, by simp, hl⟩

theorem trimStart_suffix (x : JsString) : ∃ a, x = a ++ trimStart x := by
  obtain ⟨a, ha⟩ := List.dropWhile_suffix (l := x) isWhiteSpace
  exact ⟨a, ha.symm⟩

theorem trimEnd_prefix (x : JsString) : ∃ b, x = trimEnd x ++ b := by
  obtain ⟨a, ha⟩ := List.dropWhile_suffix (l := x.reverse) isWhiteSpace
  refine ⟨a.reverse, ?_⟩
  have := congrArg List.reverse ha
  simpa [trimEnd] using this.symm

theorem trim_infix (x : JsString) : ∃ a b, x = a ++ trim x ++ b := by
  obtain ⟨a, ha⟩ := trimStart_suffix x
  obtain ⟨b, hb⟩ := trimEnd_prefix (trimStart x)
  refine ⟨a, b, ?_⟩
  unfold trim
  rw [List.append_assoc, ← hb, ← ha]

theorem trimStart_keeps {c : Char} (hc : isWhiteSpace c = false) (t : JsString) :
    ∀ p : JsString, ∃ p', trimStart (p ++ c :: t) = p' ++ c :: t := by
  intro p
  induction p with
  | nil => exact ⟨[], by simp [trimStart, List.dropWhile, hc]⟩
  | cons d ds ih =>
    cases hd : isWhiteSpace d with
    | true =>
      obtain ⟨p', hp'⟩ := ih
      exact ⟨p', by simpa [trimStart, List.dropWhile, hd] using hp'⟩
    | false => exact ⟨d :: ds, by simp [trimStart, List.dropWhile, hd]⟩

theorem trimEnd_keeps {d : Char} (hd : isWhiteSpace d = false) (t s : JsString) :
    ∃ s', trimEnd (t ++ d :: s) = t ++ d :: s' := by
  obtain ⟨p', hp'⟩ := trimStart_keeps hd t.reverse s.reverse
  refine ⟨p'.reverse, ?_⟩
  have h1 : (t ++ d :: s).reverse = s.reverse ++ d :: t.reverse := by simp
  unfold trimEnd
  rw [h1]
  unfold trimStart at hp'
  rw [hp']
  simp

/-- Trimming neither removes nor creates an occurrence of the directive pattern. -/
theorem hasMatch_trim (x : JsString) :
    HasMatch memoryPattern (trim x) ↔ HasMatch memoryPattern x := by
  constructor
  · intro h
    obtain ⟨a, b, hab⟩ := trim_infix x
    rw [hab]
    exact hasMatch_of_infix h
  · rintro ⟨p, w, s, rfl, hl⟩
    obtain ⟨mid, rfl⟩ := lang_memoryPattern_shape hl
    have hopen : isWhiteSpace '[' = false := by decide
    have hclose : isWhiteSpace ']' = false := by decide
    obtain ⟨p', hp'⟩ := trimStart_keeps hopen ((mid ++ [']']) ++ s) p
    obtain ⟨s', hs'⟩ := trimEnd_keeps hclose (p' ++ '[' :: mid) s
    refine ⟨p', '[' :: (mid ++ [']']), s', ?_, hl⟩
    unfold trim
    have e1 : p ++ '[' :: (mid ++ [']']) ++ s = p ++ '[' :: ((mid ++ [']']) ++ s) := by simp
    have e2 : p' ++ '[' :: ((mid ++ [']']) ++ s) = (p' ++ '[' :: mid) ++ ']' :: s := by simp
    rw [e1, hp', e2, hs']
    simp

/-! ## The effects of a turn -/

theorem Run.bind_eq {α β : Type} (x : Run α) (f : α → Run β) :
    (x >>= f) = Run.bind x f := rfl

theorem Run.bind_of_ok {α β : Type} {x : Run α} {a : α} (f : α → Run β)
    (h : x.result = .ok a) : Run.bind x f = ⟨x.events ++ (f a).events, (f a).result⟩ := by
  simp [Run.bind, h]

theorem tryCatch_of_ok {α : Type} {body : Run α} {a : α} (handler : JsError → Run α)
    (h : body.result = .ok a) : tryCatch body handler = body := by
  simp [tryCatch, h]

theorem saveCalls_append (es fs : List Event) :
    saveCalls (es ++ fs) = saveCalls es ++ saveCalls fs := by
  induction es with
  | nil => rfl
  | cons e es ih => cases e <;> simp [saveCalls, ih]

/-- The function `getUserMemory` never rejects. -/
theorem getUserMemory_result (w : World) : ∃ ms, (getUserMemory w).result = .ok ms := by
  obtain ⟨token, memoryGet, completion, memoryPost⟩ := w
  cases htok : tokenMissing token with
  | true =>
    exact ⟨[], by simp [getUserMemory, bind, pure, Run.bind, Run.pure, emit, tryCatch, htok]⟩
  | false =>
    cases memoryGet with
    | rejected e =>
      exact ⟨[], by simp [getUserMemory, bind, pure, Run.bind, Run.pure, emit, tryCatch, htok, fetch]⟩
    | responded status json =>
      cases hok : responseOk status with
      | false =>
        exact ⟨[], by
          simp [getUserMemory, bind, pure, Run.bind, Run.pure, emit, tryCatch, htok, fetch, hok]⟩
      | true =>
        cases json with
        | ok rows =>
          exact ⟨rows, by
            simp [getUserMemory, bind, pure, Run.bind, Run.pure, emit, tryCatch, htok, fetch, hok]⟩
        | error e =>
          exact ⟨[], by
            simp [getUserMemory, bind, pure, Run.bind, Run.pure, emit, tryCatch, htok, fetch, hok]⟩

/-- The function `getUserMemory` does not invoke `saveUserMemory`. -/
theorem getUserMemory_saveCalls (w : World) : saveCalls (getUserMemory w).events = [] := by
  obtain ⟨token, memoryGet, completion, memoryPost⟩ := w
  cases htok : tokenMissing token with
  | true =>
    simp [getUserMemory, bind, pure, Run.bind, Run.pure, emit, tryCatch, htok, saveCalls]
  | false =>
    cases memoryGet with
    | rejected e =>
      simp [getUserMemory, bind, pure, Run.bind, Run.pure, emit, tryCatch, htok, fetch, saveCalls]
    | responded status json =>
      cases hok : responseOk status with
      | false =>
        simp [getUserMemory, bind, pure, Run.bind, Run.pure, emit, tryCatch, htok, fetch, hok,
          saveCalls]
      | true =>
        cases json with
        | ok rows =>
          simp [getUserMemory, bind, pure, Run.bind, Run.pure, emit, tryCatch, htok, fetch, hok,
            saveCalls]
        | error e =>
          simp [getUserMemory, bind, pure, Run.bind, Run.pure, emit, tryCatch, htok, fetch, hok,
            saveCalls]

/-- The function `saveUserMemory` never rejects, whatever the outcome of the write. -/
theorem saveUserMemory_result (w : World) (category content : JsString) :
    (saveUserMemory w category content).result = .ok () := by
  obtain ⟨token, memoryGet, completion, memoryPost⟩ := w
  cases htok : tokenMissing token with
  | true => simp [saveUserMemory, bind, pure, Run.bind, Run.pure, emit, tryCatch, htok]
  | false =>
    cases memoryPost with
    | rejected e =>
      simp [saveUserMemory, bind, pure, Run.bind, Run.pure, emit, tryCatch, htok, fetch]
    | responded status json =>
      simp [saveUserMemory, bind, pure, Run.bind, Run.pure, emit, tryCatch, htok, fetch]

/-- One invocation of `saveUserMemory` is one invocation. -/
theorem saveUserMemory_saveCalls (w : World) (category content : JsString) :
    saveCalls (saveUserMemory w category content).events = [(category, content)] := by
  obtain ⟨token, memoryGet, completion, memoryPost⟩ := w
  cases htok : tokenMissing token with
  | true => simp [saveUserMemory, bind, pure, Run.bind, Run.pure, emit, tryCatch, htok, saveCalls]
  | false =>
    cases memoryPost with
    | rejected e =>
      simp [saveUserMemory, bind, pure, Run.bind, Run.pure, emit, tryCatch, htok, fetch, saveCalls]
    | responded status json =>
      simp [saveUserMemory, bind, pure, Run.bind, Run.pure, emit, tryCatch, htok, fetch, saveCalls]

theorem extractMemory_of_match {w : World} {rc : JsString} {m : RegExpMatch}
    (h : memoryMatch rc = some m) :
    (extractMemory w rc).result = .ok (trim (replaceFirst m.whole [] rc)) ∧
    (extractMemory w rc).events =
      (saveUserMemory w (m.groups.getD 0 []) (m.groups.getD 1 [])).events := by
  have hr := saveUserMemory_result w (m.groups.getD 0 []) (m.groups.getD 1 [])
  simp only [extractMemory, h, Run.bind_eq]
  rw [Run.bind_of_ok _ hr]
  simp [pure, Run.pure]

theorem extractMemory_of_no_match {w : World} {rc : JsString} (h : memoryMatch rc = none) :
    extractMemory w rc = ⟨[], .ok rc⟩ := by
  simp [extractMemory, h, pure, Run.pure]

theorem extractMemory_result (w : World) (rc : JsString) :
    ∃ reply, (extractMemory w rc).result = .ok reply := by
  cases h : memoryMatch rc with
  | none => exact ⟨rc, by rw [extractMemory_of_no_match h]⟩
  | some m => exact ⟨_, (extractMemory_of_match h).1⟩

/-- The turn when the model call resolves: the memory fetch, the completion request, then the
extraction; the reply is the one of the extraction. -/
theorem generateResponse_resolved (SYSTEM_PROMPT : JsString) (w : World) (apiKey : JsOpt)
    (history : List ChatMessage) (newMessage : JsString) (content : JsOpt)
    (hkey : apiKey.truthy = true) (hc : w.completion = .resolved content) :
    (generateResponse SYSTEM_PROMPT w apiKey history newMessage).result =
      (extractMemory w (content.orElse noResponseMessage)).result ∧
    ∃ ms, (getUserMemory w).result = .ok ms ∧
      (generateResponse SYSTEM_PROMPT w apiKey history newMessage).events =
        (getUserMemory w).events ++
          (.completionCreate (requestMessages SYSTEM_PROMPT ms history newMessage) ::
            (extractMemory w (content.orElse noResponseMessage)).events) := by
  obtain ⟨ms, hms⟩ := getUserMemory_result w
  obtain ⟨reply, hreply⟩ := extractMemory_result w (content.orElse noResponseMessage)
  have hcreate : ∀ msgs, completionsCreate w msgs = ⟨[.completionCreate msgs], .ok content⟩ := by
    intro msgs
    simp [completionsCreate, hc]
  have hbody : ∀ msgs, (Run.bind (completionsCreate w msgs) fun c =>
      extractMemory w (c.orElse noResponseMessage)) =
      ⟨.completionCreate msgs :: (extractMemory w (content.orElse noResponseMessage)).events,
        .ok reply⟩ := by
    intro msgs
    rw [Run.bind_of_ok (a := content) _ (by rw [hcreate])]
    simp [hcreate, hreply]
  simp only [generateResponse, hkey, Bool.not_true, Bool.false_eq_true, if_false, Run.bind_eq]
  rw [Run.bind_of_ok _ hms]
  simp only [hbody]
  rw [tryCatch_of_ok (a := reply) _ rfl]
  exact ⟨hreply.symm, ms, hms, rfl⟩

/-- The turn when the model call rejects: the memory fetch, the completion request and one
report; the reply is the connection error message. -/
theorem generateResponse_rejected (SYSTEM_PROMPT : JsString) (w : World) (apiKey : JsOpt)
    (history : List ChatMessage) (newMessage : JsString) (error : JsError)
    (hkey : apiKey.truthy = true) (hc : w.completion = .rejected error) :
    (generateResponse SYSTEM_PROMPT w apiKey history newMessage).result =
      .ok (connectionErrorMessage error) ∧
    ∃ ms, (getUserMemory w).result = .ok ms ∧
      (generateResponse SYSTEM_PROMPT w apiKey history newMessage).events =
        (getUserMemory w).events ++
          [.completionCreate (requestMessages SYSTEM_PROMPT ms history newMessage),
           .consoleError "Groq AI Error:" error] := by
  obtain ⟨ms, hms⟩ := getUserMemory_result w
  have hbody : ∀ msgs, (Run.bind (completionsCreate w msgs) fun c =>
      extractMemory w (c.orElse noResponseMessage)) =
      ⟨[.completionCreate msgs], .error error⟩ := by
    intro msgs
    simp [Run.bind, completionsCreate, hc]
  simp only [generateResponse, hkey, Bool.not_true, Bool.false_eq_true, if_false, Run.bind_eq]
  rw [Run.bind_of_ok _ hms]
  simp only [hbody]
  simp [tryCatch, Run.bind, Run.pure, pure, emit]
  exact ⟨ms, hms, rfl⟩

/-- The turn without an API key: nothing happens. -/
theorem generateResponse_no_key (SYSTEM_PROMPT : JsString) (w : World) (apiKey : JsOpt)
    (history : List ChatMessage) (newMessage : JsString) (hkey : apiKey.truthy = false) :
    generateResponse SYSTEM_PROMPT w apiKey history newMessage = ⟨[], .ok missingKeyMessage⟩ := by
  simp [generateResponse, hkey, pure, Run.pure]

/-- The anatomy of the value of `memoryMatch`: where the match lies in the text, and what the
groups hold. -/
theorem memoryMatch_some {rc : JsString} {m : RegExpMatch} (h : memoryMatch rc = some m) :
    ∃ s w1 cat w2 w3 content,
      rc = m.before ++ (m.whole ++ s) ∧
      m.whole = ['[', 'M', 'E', 'M', 'O', 'R', 'Y', ':'] ++
        (w1 ++ (cat ++ (w2 ++ ('|' :: (w3 ++ (content ++ [']'])))))) ∧
      m.groups = [cat, content] ∧
      (∀ c ∈ w1, isWhiteSpace c = true) ∧ (∀ c ∈ w2, isWhiteSpace c = true) ∧
      (∀ c ∈ w3, isWhiteSpace c = true) ∧
      (∀ c ∈ cat, isLineTerminator c = false) ∧ (∀ c ∈ content, isLineTerminator c = false) ∧
      ']' ∉ content := by
  obtain ⟨r, s, hx, hr, hw, hg, _⟩ := regExpExec_some h
  obtain ⟨w1, cat, w2, w3, content, rest, _, hm, hc, h1, h2, h3, h4, h5, h6⟩ :=
    matchHere_memoryPattern hr
  exact ⟨s, w1, cat, w2, w3, content, hx, hw ▸ hm, hg ▸ hc, h1, h2, h3, h4, h5, h6⟩

theorem orElse_of_ne_nil {r fallback : JsString} (h : r ≠ []) :
    (JsOpt.str r).orElse fallback = r := by
  cases r with
  | nil => exact absurd rfl h
  | cons c cs => rfl

theorem ne_nil_of_memoryMatch {r : JsString} {m : RegExpMatch} (h : memoryMatch r = some m) :
    r ≠ [] := by
  rintro rfl
  have hnone : memoryMatch [] = none := by decide
  rw [hnone] at h
  cases h

/-! ## The claims -/

/-- C1, as stated, fails on the empty output: it holds no directive, and the visible reply is
the fallback text "No response generated." and not the empty output. -/
theorem empty_output_is_replaced :
    memoryMatch [] = none ∧
    (generateResponse [] (World.fine (.str [])) (.str ['k']) [] []).result =
      .ok "No response generated.".toList ∧
    (generateResponse [] (World.fine (.str [])) (.str ['k']) [] []).result ≠ .ok [] := by
  decide

/-- C1, amended: for every non-empty raw model output in which the directive pattern has no
match, `generateResponse` returns the raw output itself. -/
theorem generateResponse_clean_output (SYSTEM_PROMPT : JsString) (w : World) (apiKey : JsOpt)
    (history : List ChatMessage) (newMessage r : JsString)
    (hkey : apiKey.truthy = true) (hc : w.completion = .resolved (.str r)) (hne : r ≠ [])
    (hm : memoryMatch r = none) :
    (generateResponse SYSTEM_PROMPT w apiKey history newMessage).result = .ok r := by
  rw [(generateResponse_resolved SYSTEM_PROMPT w apiKey history newMessage _ hkey hc).1,
    orElse_of_ne_nil hne, extractMemory_of_no_match hm]

/-- C1, amended, at the output "Hello.". -/
theorem generateResponse_clean_output_witness :
    (JsOpt.str ['k']).truthy = true ∧ "Hello.".toList ≠ [] ∧
    memoryMatch "Hello.".toList = none ∧
    (generateResponse [] (World.fine (.str "Hello.".toList)) (.str ['k']) [] []).result =
      .ok "Hello.".toList :=
  ⟨by decide, by decide, by decide,
    generateResponse_clean_output [] (World.fine (.str "Hello.".toList)) (.str ['k']) [] []
      "Hello.".toList (by decide) rfl (by decide) (by decide)⟩

/-- C2: when the directive pattern matches the raw output `r`, then `r = p ++ m ++ s` with `m` a
word of the pattern at the leftmost position at which a word of the pattern occurs, and the
visible reply is `trim (p ++ s)`: the string replace removes exactly the matched span. -/
theorem generateResponse_removes_match (SYSTEM_PROMPT : JsString) (w : World) (apiKey : JsOpt)
    (history : List ChatMessage) (newMessage r : JsString) (m : RegExpMatch)
    (hkey : apiKey.truthy = true) (hc : w.completion = .resolved (.str r))
    (hm : memoryMatch r = some m) :
    ∃ s, r = m.before ++ (m.whole ++ s) ∧ Lang memoryPattern m.whole ∧
      (∀ p' w' s', r = p' ++ w' ++ s' → Lang memoryPattern w' → m.before.length ≤ p'.length) ∧
      (generateResponse SYSTEM_PROMPT w apiKey history newMessage).result =
        .ok (trim (m.before ++ s)) := by
  obtain ⟨s, hx, hl, hrep⟩ := replaceFirst_regExpExec [] hm
  refine ⟨s, hx, hl, fun p' w' s' hr hw => regExpExec_leftmost hm p' w' s' hr hw, ?_⟩
  rw [(generateResponse_resolved SYSTEM_PROMPT w apiKey history newMessage _ hkey hc).1,
    orElse_of_ne_nil (ne_nil_of_memoryMatch hm), (extractMemory_of_match hm).1, hrep]
  rfl

/-- C2 at the example of the specification: the reply is "Noted.  Let me know more.", with
both interior blanks kept. -/
theorem generateResponse_removes_match_witness :
    memoryMatch berlinOutput = some berlinMatch ∧
    (∃ s, berlinOutput = berlinMatch.before ++ (berlinMatch.whole ++ s) ∧
      Lang memoryPattern berlinMatch.whole ∧
      (∀ p' w' s', berlinOutput = p' ++ w' ++ s' → Lang memoryPattern w' →
        berlinMatch.before.length ≤ p'.length) ∧
      (generateResponse [] (World.fine (.str berlinOutput)) (.str ['k']) [] []).result =
        .ok (trim (berlinMatch.before ++ s))) ∧
    (generateResponse [] (World.fine (.str berlinOutput)) (.str ['k']) [] []).result =
      .ok "Noted.  Let me know more.".toList :=
  ⟨by decide,
    generateResponse_removes_match [] (World.fine (.str berlinOutput)) (.str ['k']) [] []
      berlinOutput berlinMatch (by decide) rfl (by decide),
    by decide⟩

/-- C3: in a turn in which the model returns an output, `saveUserMemory` is invoked at most
once: exactly once, with the two captures of the leftmost match, when the directive pattern
matches, and not at all when it does not. -/
theorem saveUserMemory_invoked_once (SYSTEM_PROMPT : JsString) (w : World) (apiKey : JsOpt)
    (history : List ChatMessage) (newMessage : JsString) (content : JsOpt)
    (hkey : apiKey.truthy = true) (hc : w.completion = .resolved content) :
    (saveCalls (generateResponse SYSTEM_PROMPT w apiKey history newMessage).events).length ≤ 1 ∧
    (∀ m, memoryMatch (content.orElse noResponseMessage) = some m →
      ∃ category text, m.groups = [category, text] ∧
        saveCalls (generateResponse SYSTEM_PROMPT w apiKey history newMessage).events =
          [(category, text)]) ∧
    (memoryMatch (content.orElse noResponseMessage) = none →
      saveCalls (generateResponse SYSTEM_PROMPT w apiKey history newMessage).events = []) := by
  obtain ⟨_, ms, _, hev⟩ :=
    generateResponse_resolved SYSTEM_PROMPT w apiKey history newMessage content hkey hc
  have hcalls : saveCalls (generateResponse SYSTEM_PROMPT w apiKey history newMessage).events =
      saveCalls (extractMemory w (content.orElse noResponseMessage)).events := by
    rw [hev, saveCalls_append, getUserMemory_saveCalls]
    rfl
  have hsome : ∀ m, memoryMatch (content.orElse noResponseMessage) = some m →
      ∃ category text, m.groups = [category, text] ∧
        saveCalls (generateResponse SYSTEM_PROMPT w apiKey history newMessage).events =
          [(category, text)] := by
    intro m hm
    obtain ⟨_, _, cat, _, _, text, _, _, hg, _⟩ := memoryMatch_some hm
    refine ⟨cat, text, hg, ?_⟩
    rw [hcalls, (extractMemory_of_match hm).2, saveUserMemory_saveCalls, hg]
    rfl
  have hnone : memoryMatch (content.orElse noResponseMessage) = none →
      saveCalls (generateResponse SYSTEM_PROMPT w apiKey history newMessage).events = [] := by
    intro hm
    rw [hcalls, extractMemory_of_no_match hm]
    rfl
  refine ⟨?_, hsome, hnone⟩
  cases hm : memoryMatch (content.orElse noResponseMessage) with
  | none => simp [hnone hm]
  | some m =>
    obtain ⟨_, _, _, h⟩ := hsome m hm
    simp [h]

/-- C3 at the example of the specification (one invocation, with "Location" and "Moved to
Berlin"), and at an output with two directives (one invocation, with the first). -/
theorem saveUserMemory_invoked_once_witness :
    ((saveCalls (generateResponse [] (World.fine (.str berlinOutput)) (.str ['k']) []
        []).events).length ≤ 1 ∧
      (∀ m, memoryMatch ((JsOpt.str berlinOutput).orElse noResponseMessage) = some m →
        ∃ category text, m.groups = [category, text] ∧
          saveCalls (generateResponse [] (World.fine (.str berlinOutput)) (.str ['k']) []
            []).events = [(category, text)]) ∧
      (memoryMatch ((JsOpt.str berlinOutput).orElse noResponseMessage) = none →
        saveCalls (generateResponse [] (World.fine (.str berlinOutput)) (.str ['k']) []
          []).events = [])) ∧
    saveCalls (generateResponse [] (World.fine (.str berlinOutput)) (.str ['k']) [] []).events =
      [("Location".toList, "Moved to Berlin".toList)] ∧
    saveCalls (generateResponse [] (World.fine (.str "[MEMORY: a | b] [MEMORY: c | d]".toList))
      (.str ['k']) [] []).events = [(['a'], ['b'])] :=
  ⟨saveUserMemory_invoked_once [] (World.fine (.str berlinOutput)) (.str ['k']) [] []
      (.str berlinOutput) (by decide) rfl,
    by decide, by decide⟩

/-- C4, as stated, fails: of two directives only the first is removed, and removing the matched
span can join the text around it into a directive; in both cases the visible reply still holds a
match of the directive pattern. -/
theorem later_directive_stays_visible :
    (generateResponse [] (World.fine (.str "[MEMORY: a | b] [MEMORY: c | d]".toList))
      (.str ['k']) [] []).result = .ok "[MEMORY: c | d]".toList ∧
    memoryMatch "[MEMORY: c | d]".toList =
      some { before := [], whole := "[MEMORY: c | d]".toList, groups := [['c'], ['d']] } ∧
    (generateResponse [] (World.fine (.str "[MEM[MEMORY: a|b]ORY: c|d]".toList))
      (.str ['k']) [] []).result = .ok "[MEMORY: c|d]".toList ∧
    memoryMatch "[MEMORY: c|d]".toList =
      some { before := [], whole := "[MEMORY: c|d]".toList, groups := [['c'], ['d']] } := by
  decide

/-- C4, amended: the visible reply to an output without a match of the directive pattern has
no match; the visible reply to an output `p ++ m ++ s` with leftmost match `m` is
`trim (p ++ s)`, and it is free of the directive pattern exactly when `p ++ s` is. -/
theorem visible_reply_directive_free_iff (SYSTEM_PROMPT : JsString) (w : World) (apiKey : JsOpt)
    (history : List ChatMessage) (newMessage : JsString) (content : JsOpt)
    (hkey : apiKey.truthy = true) (hc : w.completion = .resolved content) :
    ∃ reply, (generateResponse SYSTEM_PROMPT w apiKey history newMessage).result = .ok reply ∧
      (memoryMatch (content.orElse noResponseMessage) = none → memoryMatch reply = none) ∧
      (∀ m, memoryMatch (content.orElse noResponseMessage) = some m →
        ∃ s, content.orElse noResponseMessage = m.before ++ (m.whole ++ s) ∧
          reply = trim (m.before ++ s) ∧
          (memoryMatch reply = none ↔ memoryMatch (m.before ++ s) = none)) := by
  have hres := (generateResponse_resolved SYSTEM_PROMPT w apiKey history newMessage content
    hkey hc).1
  cases hm : memoryMatch (content.orElse noResponseMessage) with
  | none =>
    refine ⟨content.orElse noResponseMessage, ?_, fun _ => hm, ?_⟩
    · rw [hres, extractMemory_of_no_match hm]
    · intro m h
      cases h
  | some m =>
    obtain ⟨s, hx, _, hrep⟩ := replaceFirst_regExpExec [] hm
    refine ⟨trim (m.before ++ s), ?_, ?_, ?_⟩
    · rw [hres, (extractMemory_of_match hm).1, hrep]
      rfl
    · intro h
      cases h
    · intro m' h
      have hmm : m' = m := by
        cases h
        rfl
      subst hmm
      refine ⟨s, hx, rfl, ?_⟩
      unfold memoryMatch
      rw [regExpExec_eq_none_iff, regExpExec_eq_none_iff, hasMatch_trim]

/-- C4, amended, at the example of the specification, whose reply holds no directive. -/
theorem visible_reply_directive_free_iff_witness :
    (∃ reply, (generateResponse [] (World.fine (.str berlinOutput)) (.str ['k']) []
        []).result = .ok reply ∧
      (memoryMatch ((JsOpt.str berlinOutput).orElse noResponseMessage) = none →
        memoryMatch reply = none) ∧
      (∀ m, memoryMatch ((JsOpt.str berlinOutput).orElse noResponseMessage) = some m →
        ∃ s, (JsOpt.str berlinOutput).orElse noResponseMessage = m.before ++ (m.whole ++ s) ∧
          reply = trim (m.before ++ s) ∧
          (memoryMatch reply = none ↔ memoryMatch (m.before ++ s) = none))) ∧
    memoryMatch "Noted.  Let me know more.".toList = none :=
  ⟨visible_reply_directive_free_iff [] (World.fine (.str berlinOutput)) (.str ['k']) [] []
      (.str berlinOutput) (by decide) rfl,
    by decide⟩

/-- C5, as stated, fails: the captured category can hold `]` and `|`, and the captured content
can hold `|`. -/
theorem captures_hold_bracket_and_bar :
    memoryMatch "[MEMORY: a] | b|c]".toList =
      some { before := [], whole := "[MEMORY: a] | b|c]".toList,
             groups := ["a]".toList, "b|c".toList] } ∧
    ']' ∈ "a]".toList ∧ '|' ∈ "b|c".toList ∧
    memoryMatch "[MEMORY: a|b\n|d]".toList =
      some { before := [], whole := "[MEMORY: a|b\n|d]".toList,
             groups := ["a|b".toList, "d".toList] } ∧
    '|' ∈ "a|b".toList := by
  decide

/-- C5, amended: for every raw output in which the directive pattern matches, the captured
content does not contain the character `]`. -/
theorem captured_content_has_no_bracket (r : JsString) (m : RegExpMatch)
    (hm : memoryMatch r = some m) :
    ∃ category text, m.groups = [category, text] ∧ ']' ∉ text := by
  obtain ⟨_, _, cat, _, _, text, _, _, hg, _, _, _, _, _, hb⟩ := memoryMatch_some hm
  exact ⟨cat, text, hg, hb⟩

/-- C5, amended, at the example of the specification. -/
theorem captured_content_has_no_bracket_witness :
    memoryMatch berlinOutput = some berlinMatch ∧
    ∃ category text, berlinMatch.groups = [category, text] ∧ ']' ∉ text :=
  ⟨by decide, captured_content_has_no_bracket berlinOutput berlinMatch (by decide)⟩

/-- C6, as stated, fails: a directive spread over four lines is extracted, and its matched span
holds line terminators. -/
theorem multi_line_directive_is_extracted :
    memoryMatch "[MEMORY:\nLocation\n|\nBerlin]".toList =
      some { before := [], whole := "[MEMORY:\nLocation\n|\nBerlin]".toList,
             groups := ["Location".toList, "Berlin".toList] } ∧
    isLineTerminator '\n' = true ∧ '\n' ∈ "[MEMORY:\nLocation\n|\nBerlin]".toList := by
  decide

/-- C6, amended: for every raw output in which the directive pattern matches, the matched span
is the keyword, a white space run, the category, a white space run, the separator, a white
space run, the content and the closing bracket, and neither the captured category nor the
captured content contains a line terminator (the white space runs may). -/
theorem captures_are_single_line (r : JsString) (m : RegExpMatch)
    (hm : memoryMatch r = some m) :
    ∃ w1 category w2 w3 text,
      m.whole = ['[', 'M', 'E', 'M', 'O', 'R', 'Y', ':'] ++
        (w1 ++ (category ++ (w2 ++ ('|' :: (w3 ++ (text ++ [']'])))))) ∧
      m.groups = [category, text] ∧
      (∀ c ∈ w1, isWhiteSpace c = true) ∧ (∀ c ∈ w2, isWhiteSpace c = true) ∧
      (∀ c ∈ w3, isWhiteSpace c = true) ∧
      (∀ c ∈ category, isLineTerminator c = false) ∧ (∀ c ∈ text, isLineTerminator c = false) := by
  obtain ⟨_, w1, cat, w2, w3, text, _, hw, hg, h1, h2, h3, h4, h5, _⟩ := memoryMatch_some hm
  exact ⟨w1, cat, w2, w3, text, hw, hg, h1, h2, h3, h4, h5⟩

/-- C6, amended, at the example of the specification. -/
theorem captures_are_single_line_witness :
    memoryMatch berlinOutput = some berlinMatch ∧
    ∃ w1 category w2 w3 text,
      berlinMatch.whole = ['[', 'M', 'E', 'M', 'O', 'R', 'Y', ':'] ++
        (w1 ++ (category ++ (w2 ++ ('|' :: (w3 ++ (text ++ [']'])))))) ∧
      berlinMatch.groups = [category, text] ∧
      (∀ c ∈ w1, isWhiteSpace c = true) ∧ (∀ c ∈ w2, isWhiteSpace c = true) ∧
      (∀ c ∈ w3, isWhiteSpace c = true) ∧
      (∀ c ∈ category, isLineTerminator c = false) ∧ (∀ c ∈ text, isLineTerminator c = false) :=
  ⟨by decide, captures_are_single_line berlinOutput berlinMatch (by decide)⟩

/-- C7: when the raw output holds a directive, there is one visible reply that
`generateResponse` returns, without throwing, whatever token `localStorage` holds and whatever
the outcome of the Memory Store write is (success, an error status, a rejection). -/
theorem generateResponse_survives_write_failure (SYSTEM_PROMPT : JsString) (w : World)
    (apiKey : JsOpt) (history : List ChatMessage) (newMessage r : JsString) (m : RegExpMatch)
    (hkey : apiKey.truthy = true) (hc : w.completion = .resolved (.str r))
    (hm : memoryMatch r = some m) :
    ∃ reply, ∀ (token : Option JsString) (post : FetchOutcome Unit),
      (generateResponse SYSTEM_PROMPT { w with token := token, memoryPost := post } apiKey history
        newMessage).result = .ok reply := by
  refine ⟨trim (replaceFirst m.whole [] r), fun token post => ?_⟩
  rw [(generateResponse_resolved SYSTEM_PROMPT { w with token := token, memoryPost := post }
    apiKey history newMessage (.str r) hkey hc).1,
    orElse_of_ne_nil (ne_nil_of_memoryMatch hm), (extractMemory_of_match hm).1]

/-- C7 at the example of the specification: the reply is "Noted.  Let me know more." when the
write is rejected, when the server answers 500, and when there is no token. -/
theorem generateResponse_survives_write_failure_witness :
    (∃ reply, ∀ (token : Option JsString) (post : FetchOutcome Unit),
      (generateResponse [] { World.fine (.str berlinOutput) with token := token, memoryPost := post }
        (.str ['k']) [] []).result = .ok reply) ∧
    (generateResponse [] { World.fine (.str berlinOutput) with
        memoryPost := .rejected ⟨.str "Failed to fetch".toList⟩ } (.str ['k']) [] []).result =
      .ok "Noted.  Let me know more.".toList ∧
    (generateResponse [] { World.fine (.str berlinOutput) with
        memoryPost := .responded 500 (.ok ()) } (.str ['k']) [] []).result =
      .ok "Noted.  Let me know more.".toList ∧
    (generateResponse [] { World.fine (.str berlinOutput) with token := none }
        (.str ['k']) [] []).result =
      .ok "Noted.  Let me know more.".toList ∧
    (generateResponse [] (World.fine (.str berlinOutput)) (.str ['k']) [] []).result =
      .ok "Noted.  Let me know more.".toList :=
  ⟨generateResponse_survives_write_failure [] (World.fine (.str berlinOutput)) (.str ['k']) [] []
      berlinOutput berlinMatch (by decide) rfl (by decide),
    by decide, by decide, by decide, by decide⟩

/-- C8 fails on the code for an error status: with a session token, when the server answers the
write with any status (500, 401 and 403 included), `saveUserMemory` performs the request and
reports nothing to `console.error`; only a rejected request is reported. -/
theorem saveUserMemory_error_status_unreported (w : World) (t : Char)
    (ts category content : JsString) (status : Nat) (json : Except JsError Unit)
    (error : JsError) :
    (saveUserMemory { w with token := some (t :: ts), memoryPost := .responded status json }
        category content).events =
      [.saveUserMemory category content,
       .fetch "POST" "/api/memory" (some ("Bearer ".toList ++ (t :: ts)))
         (some (category, content))] ∧
    errorReports (saveUserMemory
      { w with token := some (t :: ts), memoryPost := .responded status json }
        category content).events = [] ∧
    errorReports (saveUserMemory
      { w with token := some (t :: ts), memoryPost := .rejected error }
        category content).events = ["Failed to save memory:"] ∧
    responseOk 500 = false ∧ responseOk 401 = false ∧ responseOk 403 = false := by
  refine ⟨?_, ?_, ?_, by decide, by decide, by decide⟩
  · simp [saveUserMemory, bind, pure, Run.bind, Run.pure, emit, tryCatch, tokenMissing, fetch]
  · simp [saveUserMemory, bind, pure, Run.bind, Run.pure, emit, tryCatch, tokenMissing, fetch,
      errorReports]
  · simp [saveUserMemory, bind, pure, Run.bind, Run.pure, emit, tryCatch, tokenMissing, fetch,
      errorReports]

theorem renderFact_eq (m : MemoryFact) :
    renderFact m = '-' :: ' ' :: '[' :: (m.category ++ (']' :: ' ' :: m.content)) := by
  have h1 : "- [".toList = ['-', ' ', '['] := by decide
  have h2 : "] ".toList = [']', ' '] := by decide
  simp [renderFact, h1, h2]

theorem memoryContext_cons (f : MemoryFact) (fs : List MemoryFact) :
    ∃ t, memoryContext (f :: fs) = '-' :: t := by
  cases fs with
  | nil => exact ⟨_, by simp [memoryContext, join, List.intercalate, renderFact_eq]; rfl⟩
  | cons g gs => exact ⟨_, by simp [memoryContext, join, List.intercalate, renderFact_eq]; rfl⟩

/-- C9, as stated, fails on the count of lines: a fact whose content holds a newline is
rendered on two lines. -/
theorem fact_with_newline_spans_two_lines :
    memorySection [{ category := "Note".toList, content := "a\nb".toList }] =
      "- [Note] a\nb".toList ∧
    lines (memorySection [{ category := "Note".toList, content := "a\nb".toList }]) =
      ["- [Note] a".toList, "b".toList] := by
  decide

/-- C9, amended: the memory section is the placeholder "No prior context available." when the
list of facts is empty, and otherwise the facts in list order, each rendered as
"- [category] content", joined by newlines; it is the placeholder if and only if the list is
empty, it is never the empty string, and it has exactly one line per fact when no category and
no content holds a newline. -/
theorem memorySection_spec (facts : List MemoryFact) :
    (facts = [] → memorySection facts = "No prior context available.".toList) ∧
    (facts ≠ [] → memorySection facts = ['\n'].intercalate
      (facts.map fun m => "- [".toList ++ m.category ++ "] ".toList ++ m.content)) ∧
    (memorySection facts = "No prior context available.".toList ↔ facts = []) ∧
    memorySection facts ≠ [] ∧
    (facts ≠ [] → (∀ m ∈ facts, '\n' ∉ m.category ∧ '\n' ∉ m.content) →
      lines (memorySection facts) =
        facts.map fun m => "- [".toList ++ m.category ++ "] ".toList ++ m.content) := by
  have hplace : "No prior context available.".toList ≠ [] := by decide
  have hhead : ∀ t : JsString, '-' :: t ≠ "No prior context available.".toList := by
    intro t h
    have h0 := congrArg List.head? h
    have hN : "No prior context available.".toList.head? = some 'N' := by decide
    rw [hN] at h0
    simp at h0
  cases facts with
  | nil =>
    refine ⟨fun _ => rfl, fun h => absurd rfl h, ⟨fun _ => rfl, fun _ => rfl⟩, hplace,
      fun h => absurd rfl h⟩
  | cons f fs =>
    obtain ⟨t, ht⟩ := memoryContext_cons f fs
    have hsec : memorySection (f :: fs) = memoryContext (f :: fs) := by
      simp [memorySection, ht, JsOpt.orElse]
    refine ⟨fun h => absurd h (List.cons_ne_nil _ _), fun _ => hsec,
      ⟨?_, fun h => absurd h (List.cons_ne_nil _ _)⟩, ?_, ?_⟩
    · intro h
      rw [hsec, ht] at h
      exact absurd h (hhead t)
    · rw [hsec, ht]
      simp
    · intro _ hno
      rw [hsec]
      have hx : ∀ l ∈ (f :: fs).map renderFact, '\n' ∉ l := by
        intro l hl
        obtain ⟨m, hm, rfl⟩ := List.mem_map.1 hl
        obtain ⟨h1, h2⟩ := hno m hm
        rw [renderFact_eq]
        simp only [List.mem_cons, List.mem_append, not_or]
        exact ⟨by decide, by decide, by decide, h1, by decide, by decide, h2⟩
      exact List.splitOn_intercalate _ '\n' hx (List.cons_ne_nil _ _)

/-- C9, amended, at a list of two facts. -/
theorem memorySection_spec_witness :
    ((([{ category := "Location".toList, content := "Moved to Berlin".toList },
        { category := "Income".toList, content := "Salary 5000".toList }] : List MemoryFact) = [] →
      memorySection [{ category := "Location".toList, content := "Moved to Berlin".toList },
        { category := "Income".toList, content := "Salary 5000".toList }] =
        "No prior context available.".toList) ∧
    (([{ category := "Location".toList, content := "Moved to Berlin".toList },
        { category := "Income".toList, content := "Salary 5000".toList }] : List MemoryFact) ≠ [] →
      memorySection [{ category := "Location".toList, content := "Moved to Berlin".toList },
        { category := "Income".toList, content := "Salary 5000".toList }] = ['\n'].intercalate
        (([{ category := "Location".toList, content := "Moved to Berlin".toList },
          { category := "Income".toList, content := "Salary 5000".toList }] : List MemoryFact).map
          fun m => "- [".toList ++ m.category ++ "] ".toList ++ m.content)) ∧
    (memorySection [{ category := "Location".toList, content := "Moved to Berlin".toList },
        { category := "Income".toList, content := "Salary 5000".toList }] =
        "No prior context available.".toList ↔
      ([{ category := "Location".toList, content := "Moved to Berlin".toList },
        { category := "Income".toList, content := "Salary 5000".toList }] : List MemoryFact) = []) ∧
    memorySection [{ category := "Location".toList, content := "Moved to Berlin".toList },
        { category := "Income".toList, content := "Salary 5000".toList }] ≠ [] ∧
    (([{ category := "Location".toList, content := "Moved to Berlin".toList },
        { category := "Income".toList, content := "Salary 5000".toList }] : List MemoryFact) ≠ [] →
      (∀ m ∈ ([{ category := "Location".toList, content := "Moved to Berlin".toList },
        { category := "Income".toList, content := "Salary 5000".toList }] : List MemoryFact),
        '\n' ∉ m.category ∧ '\n' ∉ m.content) →
      lines (memorySection [{ category := "Location".toList, content := "Moved to Berlin".toList },
        { category := "Income".toList, content := "Salary 5000".toList }]) =
        ([{ category := "Location".toList, content := "Moved to Berlin".toList },
          { category := "Income".toList, content := "Salary 5000".toList }] : List MemoryFact).map
          fun m => "- [".toList ++ m.category ++ "] ".toList ++ m.content)) ∧
    memorySection [{ category := "Location".toList, content := "Moved to Berlin".toList },
        { category := "Income".toList, content := "Salary 5000".toList }] =
      "- [Location] Moved to Berlin\n- [Income] Salary 5000".toList ∧
    lines (memorySection [{ category := "Location".toList, content := "Moved to Berlin".toList },
        { category := "Income".toList, content := "Salary 5000".toList }]) =
      ["- [Location] Moved to Berlin".toList, "- [Income] Salary 5000".toList] ∧
    memorySection [] = "No prior context available.".toList :=
  ⟨memorySection_spec [{ category := "Location".toList, content := "Moved to Berlin".toList },
      { category := "Income".toList, content := "Salary 5000".toList }],
    by decide, by decide, by decide⟩

/-- C10: when the API key is absent (`undefined`, `null` or the empty string),
`generateResponse` returns the fixed configuration message and nothing else happens: no memory
fetch, no model call, no Memory Store write. -/
theorem generateResponse_without_key (SYSTEM_PROMPT : JsString) (w : World) (apiKey : JsOpt)
    (history : List ChatMessage) (newMessage : JsString) (hkey : apiKey.truthy = false) :
    generateResponse SYSTEM_PROMPT w apiKey history newMessage =
      ⟨[], .ok "Please set your Groq API Key in the settings (Gear icon) to start chatting.".toList⟩ :=
  generateResponse_no_key SYSTEM_PROMPT w apiKey history newMessage hkey

/-- C10 for `undefined`, for `null` and for the empty string, in a world in which every request
would succeed. -/
theorem generateResponse_without_key_witness :
    JsOpt.undefined.truthy = false ∧ JsOpt.null.truthy = false ∧ (JsOpt.str []).truthy = false ∧
    generateResponse [] (World.fine (.str berlinOutput)) .undefined [] "hi".toList =
      ⟨[], .ok "Please set your Groq API Key in the settings (Gear icon) to start chatting.".toList⟩ ∧
    generateResponse [] (World.fine (.str berlinOutput)) .null [] "hi".toList =
      ⟨[], .ok "Please set your Groq API Key in the settings (Gear icon) to start chatting.".toList⟩ ∧
    generateResponse [] (World.fine (.str berlinOutput)) (.str []) [] "hi".toList =
      ⟨[], .ok "Please set your Groq API Key in the settings (Gear icon) to start chatting.".toList⟩ :=
  ⟨by decide, by decide, by decide,
    generateResponse_without_key [] (World.fine (.str berlinOutput)) .undefined [] "hi".toList
      (by decide),
    generateResponse_without_key [] (World.fine (.str berlinOutput)) .null [] "hi".toList
      (by decide),
    generateResponse_without_key [] (World.fine (.str berlinOutput)) (.str []) [] "hi".toList
      (by decide)⟩

/-- C11: when the completion request rejects, `generateResponse` does not reject: it returns
the message that begins with "**Connection Error**" and embeds the message of the error, or
"Unknown error" when the error has no message. -/
theorem generateResponse_model_failure (SYSTEM_PROMPT : JsString) (w : World) (apiKey : JsOpt)
    (history : List ChatMessage) (newMessage : JsString) (error : JsError)
    (hkey : apiKey.truthy = true) (hc : w.completion = .rejected error) :
    ∃ reply, (generateResponse SYSTEM_PROMPT w apiKey history newMessage).result = .ok reply ∧
      reply = "**Connection Error**: Unable to connect to Groq. \n\nDetails: ".toList ++
        error.message.orElse "Unknown error".toList ++
        ". \n\nPlease verify your API Key.".toList ∧
      (∃ t, reply = "**Connection Error**".toList ++ t) ∧
      (∀ c cs, error.message = .str (c :: cs) → ∃ a b, reply = a ++ (c :: cs) ++ b) ∧
      (error.message = .undefined ∨ error.message = .null ∨ error.message = .str [] →
        ∃ a b, reply = a ++ "Unknown error".toList ++ b) := by
  refine ⟨_, (generateResponse_rejected SYSTEM_PROMPT w apiKey history newMessage error hkey
    hc).1, rfl, ⟨_, rfl⟩, ?_, ?_⟩
  · intro c cs h
    exact ⟨_, _, by rw [connectionErrorMessage, h]; rfl⟩
  · intro h
    rcases h with h | h | h <;> exact ⟨_, _, by rw [connectionErrorMessage, h]; rfl⟩

/-- C11 at a rejection with the message "Network down" (and, for comparison, at a rejection
without a message). -/
theorem generateResponse_model_failure_witness :
    (∃ reply, (generateResponse [] { World.fine .null with
          completion := .rejected ⟨.str "Network down".toList⟩ } (.str ['k']) []
          "hi".toList).result = .ok reply ∧
      reply = "**Connection Error**: Unable to connect to Groq. \n\nDetails: ".toList ++
        (JsError.mk (.str "Network down".toList)).message.orElse "Unknown error".toList ++
        ". \n\nPlease verify your API Key.".toList ∧
      (∃ t, reply = "**Connection Error**".toList ++ t) ∧
      (∀ c cs, (JsError.mk (.str "Network down".toList)).message = .str (c :: cs) →
        ∃ a b, reply = a ++ (c :: cs) ++ b) ∧
      ((JsError.mk (.str "Network down".toList)).message = .undefined ∨
        (JsError.mk (.str "Network down".toList)).message = .null ∨
        (JsError.mk (.str "Network down".toList)).message = .str [] →
        ∃ a b, reply = a ++ "Unknown error".toList ++ b)) ∧
    (generateResponse [] { World.fine .null with
        completion := .rejected ⟨.str "Network down".toList⟩ } (.str ['k']) []
        "hi".toList).result =
      .ok ("**Connection Error**: Unable to connect to Groq. \n\nDetails: Network down. " ++
        "\n\nPlease verify your API Key.").toList ∧
    (generateResponse [] { World.fine .null with completion := .rejected ⟨.undefined⟩ }
        (.str ['k']) [] "hi".toList).result =
      .ok ("**Connection Error**: Unable to connect to Groq. \n\nDetails: Unknown error. " ++
        "\n\nPlease verify your API Key.").toList :=
  ⟨generateResponse_model_failure [] { World.fine .null with
      completion := .rejected ⟨.str "Network down".toList⟩ } (.str ['k']) [] "hi".toList
      ⟨.str "Network down".toList⟩ (by decide) rfl,
    by decide, by decide⟩

/-! ## The bound on the nesting of `JSON.parse` -/

theorem skipJsonSpace_length (s : JsString) : (skipJsonSpace s).length ≤ s.length := by
  unfold skipJsonSpace
  exact (List.dropWhile_suffix isJsonSpace).length_le

theorem tail_length_of_head {l : JsString} {c : Char} (h : l.head? = some c) :
    l.tail.length + 1 = l.length := by
  cases l with
  | nil => simp at h
  | cons a t => simp

theorem skip_tail_length {r : JsString} {c : Char} (h : (skipJsonSpace r).head? = some c) :
    (skipJsonSpace r).tail.length + 1 ≤ r.length := by
  have h1 := tail_length_of_head h
  have h2 := skipJsonSpace_length r
  omega

theorem parseStringBody_length : ∀ (n : Nat) (s : JsString), s.length ≤ n →
    ∀ {t rest : JsString}, parseStringBody s = some (t, rest) → rest.length < s.length := by
  intro n
  induction n with
  | zero =>
    intro s hs t rest h
    have : s = [] := List.length_eq_zero.1 (Nat.le_zero.1 hs)
    subst this
    simp [parseStringBody] at h
  | succ n ih =>
    intro s hs t rest h
    unfold parseStringBody at h
    split at h
    · simp at h
    · simp at h
      obtain ⟨_, rfl⟩ := h
      simp
    · split at h
      · obtain ⟨p, hp, hpe⟩ := Option.map_eq_some'.1 h
        obtain ⟨t0, r0⟩ := p
        simp at hpe
        obtain ⟨_, rfl⟩ := hpe
        have := ih _ (by simp at hs ⊢; omega) hp
        simp
        omega
      · simp at h
    · simp only at h
      split at h
      · obtain ⟨p, hp, hpe⟩ := Option.map_eq_some'.1 h
        obtain ⟨t0, r0⟩ := p
        simp at hpe
        obtain ⟨_, rfl⟩ := hpe
        have := ih _ (by simp at hs ⊢; omega) hp
        simp
        omega
      · simp at h
    · split at h
      · simp at h
      · obtain ⟨p, hp, hpe⟩ := Option.map_eq_some'.1 h
        obtain ⟨t0, r0⟩ := p
        simp at hpe
        obtain ⟨_, rfl⟩ := hpe
        have := ih _ (by simp at hs ⊢; omega) hp
        simp
        omega

theorem dropWhile_length_le (p : Char → Bool) (s : JsString) :
    (s.dropWhile p).length ≤ s.length :=
  (List.dropWhile_suffix p).length_le

theorem parseFraction_length {s lit rest : JsString} (h : parseFraction s = some (lit, rest)) :
    rest.length ≤ s.length := by
  unfold parseFraction at h
  split at h
  · split at h
    · simp at h
    · simp at h
      obtain ⟨_, rfl⟩ := h
      have := dropWhile_length_le isDigit ‹_›
      simp
      omega
  · simp at h
    obtain ⟨_, rfl⟩ := h
    exact Nat.le_refl _

theorem parseExponentDigits_length {mark t lit rest : JsString}
    (h : parseExponentDigits mark t = some (lit, rest)) : rest.length ≤ t.length := by
  unfold parseExponentDigits at h
  split at h
  · simp at h
  · simp at h
    obtain ⟨_, rfl⟩ := h
    exact dropWhile_length_le isDigit t

theorem parseExponent_length {s lit rest : JsString} (h : parseExponent s = some (lit, rest)) :
    rest.length ≤ s.length := by
  unfold parseExponent at h
  split at h
  all_goals first
    | exact Nat.le_trans (parseExponentDigits_length h) (by simp only [List.length_cons]; omega)
    | (simp at h; obtain ⟨_, rfl⟩ := h; exact Nat.le_refl _)

theorem parseInteger_length {s lit rest : JsString} (h : parseInteger s = some (lit, rest)) :
    rest.length < s.length := by
  unfold parseInteger at h
  split at h
  · simp at h
    obtain ⟨_, rfl⟩ := h
    simp
  · split at h
    · simp at h
      obtain ⟨_, rfl⟩ := h
      have := dropWhile_length_le isDigit ‹_›
      simp
      omega
    · simp at h
  · simp at h

theorem parseUnsigned_length {s lit rest : JsString} (h : parseUnsigned s = some (lit, rest)) :
    rest.length < s.length := by
  unfold parseUnsigned at h
  cases h1 : parseInteger s with
  | none => simp [h1] at h
  | some p1 =>
    obtain ⟨i, r1⟩ := p1
    simp only [h1] at h
    cases h2 : parseFraction r1 with
    | none => simp [h2] at h
    | some p2 =>
      obtain ⟨f, r2⟩ := p2
      simp only [h2] at h
      cases h3 : parseExponent r2 with
      | none => simp [h3] at h
      | some p3 =>
        obtain ⟨e, r3⟩ := p3
        simp only [h3] at h
        simp at h
        obtain ⟨_, rfl⟩ := h
        have := parseInteger_length h1
        have := parseFraction_length h2
        have := parseExponent_length h3
        omega

theorem parseNumber_length {s lit rest : JsString} (h : parseNumber s = some (lit, rest)) :
    rest.length < s.length := by
  unfold parseNumber at h
  split at h
  · obtain ⟨p, hp, hpe⟩ := Option.map_eq_some'.1 h
    simp at hpe
    obtain ⟨_, rfl⟩ := hpe
    have := @parseUnsigned_length _ p.1 p.2 hp
    simp
    omega
  · exact parseUnsigned_length h

theorem parseName_length {name : JsString} {v v' : Json} {s rest : JsString}
    (hname : name ≠ []) (h : parseName name v s = some (v', rest)) : rest.length < s.length := by
  unfold parseName at h
  split at h
  · rename_i hp
    simp at h
    obtain ⟨_, rfl⟩ := h
    have hle := (List.isPrefixOf_iff_prefix.1 hp).length_le
    have hpos : 0 < name.length := List.length_pos.2 hname
    simp
    omega
  · simp at h

theorem parseScalar_length {s : JsString} {v : Json} {rest : JsString}
    (h : parseScalar s = some (v, rest)) : rest.length < s.length := by
  unfold parseScalar at h
  split at h
  · simp at h
  · split at h
    · obtain ⟨p, hp, hpe⟩ := Option.map_eq_some'.1 h
      simp at hpe
      obtain ⟨_, rfl⟩ := hpe
      have := @parseStringBody_length _ _ (Nat.le_refl _) p.1 p.2 hp
      simp
      omega
    · split at h
      · exact parseName_length (by decide) h
      · split at h
        · exact parseName_length (by decide) h
        · split at h
          · exact parseName_length (by decide) h
          · obtain ⟨p, hp, hpe⟩ := Option.map_eq_some'.1 h
            simp at hpe
            obtain ⟨_, rfl⟩ := hpe
            exact @parseNumber_length _ p.1 p.2 hp

theorem fuelInvariant_value {m : Nat} (ih : FuelInvariant m) (s : JsString) (v : Json)
    (rest : JsString) (h : parseValue (m + 1) s = some (v, rest)) :
    rest.length < s.length ∧
    ∀ n, 2 * (s.length - rest.length) ≤ n → parseValue n s = some (v, rest) := by
  obtain ⟨_, ihE, ihM⟩ := ih
  rw [parseValue] at h
  cases hs : skipJsonSpace s with
  | nil => simp [hs] at h
  | cons c r =>
    have hlen : r.length + 1 ≤ s.length := by
      have := skipJsonSpace_length s
      rw [hs] at this
      simpa using this
    simp only [hs] at h
    by_cases hc : c = '['
    · simp only [hc, if_true] at h
      by_cases hclose : (skipJsonSpace r).head? = some ']'
      · simp only [hclose, if_true] at h
        simp at h
        obtain ⟨rfl, rfl⟩ := h
        have ht := skip_tail_length hclose
        refine ⟨by omega, ?_⟩
        intro n hn
        obtain ⟨n', rfl⟩ : ∃ n', n = n' + 1 := ⟨n - 1, by omega⟩
        rw [parseValue]
        simp [hs, hc, hclose]
      · simp only [hclose, if_false] at h
        obtain ⟨p, hp, hpe⟩ := Option.map_eq_some'.1 h
        obtain ⟨vs, r0⟩ := p
        simp at hpe
        obtain ⟨rfl, rfl⟩ := hpe
        obtain ⟨hlt, hall⟩ := ihE r vs r0 hp
        refine ⟨by omega, ?_⟩
        intro n hn
        obtain ⟨n', rfl⟩ : ∃ n', n = n' + 1 := ⟨n - 1, by omega⟩
        rw [parseValue]
        simp [hs, hc, hclose, hall n' (by omega)]
    · simp only [hc, if_false] at h
      by_cases hc2 : c = '{'
      · simp only [hc2, if_true] at h
        by_cases hclose : (skipJsonSpace r).head? = some '}'
        · simp only [hclose, if_true] at h
          simp at h
          obtain ⟨rfl, rfl⟩ := h
          have ht := skip_tail_length hclose
          refine ⟨by omega, ?_⟩
          intro n hn
          obtain ⟨n', rfl⟩ : ∃ n', n = n' + 1 := ⟨n - 1, by omega⟩
          rw [parseValue]
          simp [hs, hc2, hclose]
        · simp only [hclose, if_false] at h
          obtain ⟨p, hp, hpe⟩ := Option.map_eq_some'.1 h
          obtain ⟨ms, r0⟩ := p
          simp at hpe
          obtain ⟨rfl, rfl⟩ := hpe
          obtain ⟨hlt, hall⟩ := ihM r ms r0 hp
          refine ⟨by omega, ?_⟩
          intro n hn
          obtain ⟨n', rfl⟩ : ∃ n', n = n' + 1 := ⟨n - 1, by omega⟩
          rw [parseValue]
          simp [hs, hc2, hclose, hall n' (by omega)]
      · simp only [hc2, if_false] at h
        have hsc := parseScalar_length h
        simp only [List.length_cons] at hsc
        refine ⟨by omega, ?_⟩
        intro n hn
        obtain ⟨n', rfl⟩ : ∃ n', n = n' + 1 := ⟨n - 1, by omega⟩
        rw [parseValue]
        simp [hs, hc, hc2, h]

theorem fuelInvariant_elements {m : Nat} (ih : FuelInvariant m) (s : JsString)
    (vs : List Json) (rest : JsString) (h : parseElements (m + 1) s = some (vs, rest)) :
    rest.length < s.length ∧
    ∀ n, 2 * (s.length - rest.length) ≤ n + 1 → parseElements n s = some (vs, rest) := by
  obtain ⟨ihV, ihE, _⟩ := ih
  rw [parseElements] at h
  cases hv : parseValue m s with
  | none => simp [hv] at h
  | some p =>
    obtain ⟨v, r1⟩ := p
    simp only [hv] at h
    obtain ⟨hlt1, hall1⟩ := ihV s v r1 hv
    by_cases hcomma : (skipJsonSpace r1).head? = some ','
    · simp only [hcomma, if_true] at h
      obtain ⟨q, hq, hqe⟩ := Option.map_eq_some'.1 h
      obtain ⟨vs', r0⟩ := q
      simp at hqe
      obtain ⟨rfl, rfl⟩ := hqe
      obtain ⟨hlt2, hall2⟩ := ihE _ vs' r0 hq
      have ht := skip_tail_length hcomma
      refine ⟨by omega, ?_⟩
      intro n hn
      obtain ⟨n', rfl⟩ : ∃ n', n = n' + 1 := ⟨n - 1, by omega⟩
      rw [parseElements]
      simp [hall1 n' (by omega), hcomma, hall2 n' (by omega)]
    · simp only [hcomma, if_false] at h
      by_cases hclose : (skipJsonSpace r1).head? = some ']'
      · simp only [hclose, if_true] at h
        simp at h
        obtain ⟨rfl, rfl⟩ := h
        have ht := skip_tail_length hclose
        refine ⟨by omega, ?_⟩
        intro n hn
        obtain ⟨n', rfl⟩ : ∃ n', n = n' + 1 := ⟨n - 1, by omega⟩
        rw [parseElements]
        simp [hall1 n' (by omega), hcomma, hclose]
      · simp [hclose] at h

theorem fuelInvariant_members {m : Nat} (ih : FuelInvariant m) (s : JsString)
    (ms : List (JsString × Json)) (rest : JsString)
    (h : parseMembers (m + 1) s = some (ms, rest)) :
    rest.length < s.length ∧
    ∀ n, 2 * (s.length - rest.length) ≤ n + 1 → parseMembers n s = some (ms, rest) := by
  obtain ⟨ihV, _, ihM⟩ := ih
  rw [parseMembers] at h
  by_cases hquote : (skipJsonSpace s).head? = some '"'
  · simp only [hquote, if_true] at h
    have ht0 := skip_tail_length hquote
    cases hk : parseStringBody (skipJsonSpace s).tail with
    | none => simp [hk] at h
    | some pk =>
      obtain ⟨key, r1⟩ := pk
      simp only [hk] at h
      have hk1 := parseStringBody_length _ _ (Nat.le_refl _) hk
      by_cases hcolon : (skipJsonSpace r1).head? = some ':'
      · simp only [hcolon, if_true] at h
        have ht1 := skip_tail_length hcolon
        cases hv : parseValue m (skipJsonSpace r1).tail with
        | none => simp [hv] at h
        | some p =>
          obtain ⟨v, r3⟩ := p
          simp only [hv] at h
          obtain ⟨hlt1, hall1⟩ := ihV _ v r3 hv
          by_cases hcomma : (skipJsonSpace r3).head? = some ','
          · simp only [hcomma, if_true] at h
            obtain ⟨q, hq, hqe⟩ := Option.map_eq_some'.1 h
            obtain ⟨ms', r0⟩ := q
            simp at hqe
            obtain ⟨rfl, rfl⟩ := hqe
            obtain ⟨hlt2, hall2⟩ := ihM _ ms' r0 hq
            have ht := skip_tail_length hcomma
            refine ⟨by omega, ?_⟩
            intro n hn
            obtain ⟨n', rfl⟩ : ∃ n', n = n' + 1 := ⟨n - 1, by omega⟩
            rw [parseMembers]
            simp [hquote, hk, hcolon, hall1 n' (by omega), hcomma, hall2 n' (by omega)]
          · simp only [hcomma, if_false] at h
            by_cases hclose : (skipJsonSpace r3).head? = some '}'
            · simp only [hclose, if_true] at h
              simp at h
              obtain ⟨rfl, rfl⟩ := h
              have ht := skip_tail_length hclose
              refine ⟨by omega, ?_⟩
              intro n hn
              obtain ⟨n', rfl⟩ : ∃ n', n = n' + 1 := ⟨n - 1, by omega⟩
              rw [parseMembers]
              simp [hquote, hk, hcolon, hall1 n' (by omega), hcomma, hclose]
            · simp [hclose] at h
      · simp [hcolon] at h
  · simp [hquote] at h

theorem fuelInvariant : ∀ m, FuelInvariant m := by
  intro m
  induction m with
  | zero =>
    refine ⟨?_, ?_, ?_⟩
    · intro s v rest h
      simp [parseValue] at h
    · intro s vs rest h
      simp [parseElements] at h
    · intro s ms rest h
      simp [parseMembers] at h
  | succ m ih =>
    exact ⟨fuelInvariant_value ih, fuelInvariant_elements ih, fuelInvariant_members ih⟩

/-- The fuel of `jsonParse` is enough: a parse that succeeds with some fuel succeeds, with the
same result, with the fuel that `jsonParse` gives. -/
theorem parseValue_enough_fuel {m : Nat} {s : JsString} {v : Json} {rest : JsString}
    (h : parseValue m s = some (v, rest)) :
    parseValue (2 * s.length + 2) s = some (v, rest) :=
  ((fuelInvariant m).1 s v rest h).2 _ (by omega)

/-- The function `jsonParse` accepts a text exactly when some fuel parses it whole. -/
theorem jsonParse_eq_some_iff (s : JsString) (v : Json) :
    jsonParse s = some v ↔
      ∃ m rest, parseValue m s = some (v, rest) ∧ skipJsonSpace rest = [] := by
  constructor
  · intro h
    unfold jsonParse at h
    cases hp : parseValue (2 * s.length + 2) s with
    | none => simp [hp] at h
    | some p =>
      obtain ⟨v', rest⟩ := p
      simp only [hp] at h
      by_cases he : (skipJsonSpace rest).isEmpty = true
      · simp [he] at h
        subst h
        exact ⟨_, rest, hp, List.isEmpty_iff.1 he⟩
      · simp [he] at h
  · rintro ⟨m, rest, hp, he⟩
    unfold jsonParse
    simp [parseValue_enough_fuel hp, he]

/-! ## The structured generators -/

/-- The result of a structured generator, case by case: without a key, when the model call
rejects, when the content is not well-formed JSON, and when it is. -/
theorem generator_result (g : Generator) (u : Upstream) (apiKey : JsOpt) :
    (apiKey.truthy = false →
      (g.run u apiKey).result = .error ⟨.str "API Key missing".toList⟩) ∧
    (apiKey.truthy = true → ∀ e, u.completion = .rejected e →
      (g.run u apiKey).result = .error ⟨.str (g.failure.toList ++ jsToString e.message)⟩) ∧
    (apiKey.truthy = true → ∀ content, u.completion = .resolved content →
      jsonParse (jsToString content) = none →
      (g.run u apiKey).result = .error ⟨.str (g.failure.toList ++
        jsToString (u.syntaxError (jsToString content)).message)⟩) ∧
    (apiKey.truthy = true → ∀ content, u.completion = .resolved content →
      ∀ v, jsonParse (jsToString content) = some v → (g.run u apiKey).result = .ok v) := by
  refine ⟨?_, ?_, ?_, ?_⟩
  · intro hkey
    cases g <;>
      simp [Generator.run, analyzeExpenses, generateBudgetPlan, generateGoalStrategy,
        explainInvestmentConcept, requireKey, hkey]
  · intro hkey e hc
    cases g <;>
      simp [Generator.run, analyzeExpenses, generateBudgetPlan, generateGoalStrategy,
        explainInvestmentConcept, requireKey, hkey, tryCatch, bind, pure, Run.bind, Run.pure,
        jsonCompletionsCreate, hc, emit, throwNewError, Generator.failure]
  · intro hkey content hc hbad
    cases g <;>
      simp [Generator.run, analyzeExpenses, generateBudgetPlan, generateGoalStrategy,
        explainInvestmentConcept, requireKey, hkey, tryCatch, bind, pure, Run.bind, Run.pure,
        jsonCompletionsCreate, hc, JSON_parse, hbad, emit, throwNewError, Generator.failure]
  · intro hkey content hc v hv
    cases g <;>
      simp [Generator.run, analyzeExpenses, generateBudgetPlan, generateGoalStrategy,
        explainInvestmentConcept, requireKey, hkey, tryCatch, bind, pure, Run.bind, Run.pure,
        jsonCompletionsCreate, hc, JSON_parse, hv]

/-- C12: for each structured generator and every raw completion content that is not well-formed
JSON, the generator raises an error, whose message is the "Failed to ..." text of the feature
followed by the message of the `SyntaxError`; it returns no result. -/
theorem generator_rejects_malformed_output (g : Generator) (u : Upstream) (apiKey : JsOpt)
    (content : JsOpt) (hkey : apiKey.truthy = true) (hc : u.completion = .resolved content)
    (hbad : jsonParse (jsToString content) = none) :
    (g.run u apiKey).result = .error ⟨.str (g.failure.toList ++
      jsToString (u.syntaxError (jsToString content)).message)⟩ ∧
    (∀ v, (g.run u apiKey).result ≠ .ok v) ∧
    (∃ t, g.failure.toList = "Failed to ".toList ++ t) := by
  have h := (generator_result g u apiKey).2.2.1 hkey content hc hbad
  refine ⟨h, ?_, ?_⟩
  · intro v hv
    rw [h] at hv
    cases hv
  · cases g <;> exact ⟨_, rfl⟩

/-- C12 at the content "not json", for the four generators. -/
theorem generator_rejects_malformed_output_witness :
    jsonParse (jsToString (.str "not json".toList)) = none ∧
    ((Generator.run (.budget "50000".toList "20000".toList "Buy a house".toList)
        (Upstream.answering (.str "not json".toList)) (.str ['k'])).result =
      .error ⟨.str ((Generator.failure (.budget "50000".toList "20000".toList
        "Buy a house".toList)).toList ++
        jsToString ((Upstream.answering (.str "not json".toList)).syntaxError
          (jsToString (.str "not json".toList))).message)⟩ ∧
      (∀ v, (Generator.run (.budget "50000".toList "20000".toList "Buy a house".toList)
        (Upstream.answering (.str "not json".toList)) (.str ['k'])).result ≠ .ok v) ∧
      (∃ t, (Generator.failure (.budget "50000".toList "20000".toList
        "Buy a house".toList)).toList = "Failed to ".toList ++ t)) ∧
    (analyzeExpenses (Upstream.answering (.str "not json".toList)) (.str ['k'])
        "date,amount".toList).result =
      .error ⟨.str "Failed to analyze expenses. Unexpected token".toList⟩ ∧
    (generateBudgetPlan (Upstream.answering (.str "not json".toList)) (.str ['k'])
        "50000".toList "20000".toList "Buy a house".toList).result =
      .error ⟨.str "Failed to generate budget plan. Unexpected token".toList⟩ ∧
    (generateGoalStrategy (Upstream.answering (.str "not json".toList)) (.str ['k'])
        "Car".toList "500000".toList "5".toList "Medium".toList).result =
      .error ⟨.str "Failed to generate goal strategy. Unexpected token".toList⟩ ∧
    (explainInvestmentConcept (Upstream.answering (.str "not json".toList)) (.str ['k'])
        "SIP".toList).result =
      .error ⟨.str "Failed to explain concept. Unexpected token".toList⟩ :=
  ⟨rfl,
    generator_rejects_malformed_output
      (.budget "50000".toList "20000".toList "Buy a house".toList)
      (Upstream.answering (.str "not json".toList)) (.str ['k']) (.str "not json".toList)
      rfl rfl rfl,
    rfl, rfl, rfl, rfl⟩

/-- C13, as stated, fails: on the content "{}" a generator returns the empty object, which
carries no field of the schema; on a `null` content it returns `null`, and on the scalar "42" it
returns the number. -/
theorem generator_returns_unchecked_value :
    (analyzeExpenses (Upstream.answering (.str "\x7b\x7d".toList)) (.str ['k'])
      "date,amount".toList).result = .ok (.object []) ∧
    (Json.object []).hasFields (Generator.schema (.expenses "date,amount".toList)) = false ∧
    (Json.object []).hasField "categories".toList = false ∧
    (generateBudgetPlan (Upstream.answering .null) (.str ['k']) "50000".toList "20000".toList
      "Buy a house".toList).result = .ok .null ∧
    (generateGoalStrategy (Upstream.answering (.str "42".toList)) (.str ['k']) "Car".toList
      "500000".toList "5".toList "Medium".toList).result = .ok (.number ['4', '2']) ∧
    (explainInvestmentConcept (Upstream.answering (.str "\x7b\"term\": \"SIP\"\x7d".toList))
      (.str ['k']) "SIP".toList).result =
      .ok (.object [("term".toList, .string "SIP".toList)]) ∧
    (Json.object [("term".toList, .string "SIP".toList)]).hasFields
      (Generator.schema (.concept "SIP".toList)) = false :=
  ⟨rfl, by decide, by decide, rfl, rfl, rfl, by decide⟩

/-- C13, amended: a structured generator returns a value exactly when there is an API key, the
model call resolves and the content, converted to a string, is well-formed JSON; the value is
the one that `JSON.parse` builds from the content, with no check against the schema of the
feature; in every other case the generator raises. -/
theorem generator_returns_parsed_content (g : Generator) (u : Upstream) (apiKey : JsOpt)
    (v : Json) :
    ((g.run u apiKey).result = .ok v ↔
      apiKey.truthy = true ∧
        ∃ content, u.completion = .resolved content ∧ jsonParse (jsToString content) = some v) ∧
    ((∀ v', (g.run u apiKey).result ≠ .ok v') → ∃ e, (g.run u apiKey).result = .error e) := by
  obtain ⟨h1, h2, h3, h4⟩ := generator_result g u apiKey
  refine ⟨⟨?_, ?_⟩, ?_⟩
  · intro h
    cases hkey : apiKey.truthy with
    | false =>
      rw [h1 hkey] at h
      cases h
    | true =>
      refine ⟨rfl, ?_⟩
      cases hc : u.completion with
      | rejected e =>
        rw [h2 hkey e hc] at h
        cases h
      | resolved content =>
        refine ⟨content, rfl, ?_⟩
        cases hp : jsonParse (jsToString content) with
        | none =>
          rw [h3 hkey content hc hp] at h
          cases h
        | some v' =>
          rw [h4 hkey content hc v' hp] at h
          cases h
          rfl
  · rintro ⟨hkey, content, hc, hp⟩
    exact h4 hkey content hc v hp
  · intro hno
    cases hr : (g.run u apiKey).result with
    | error e => exact ⟨e, rfl⟩
    | ok v' => exact absurd hr (hno v')

/-- C13, amended, at a content that carries the three fields of the budget schema. -/
theorem generator_returns_parsed_content_witness :
    ((Generator.run (.budget "50000".toList "20000".toList "Buy a house".toList)
        (Upstream.answering (.str
          "\x7b\"allocations\": [], \"analysis\": \"ok\", \"action_plan\": []\x7d".toList))
        (.str ['k'])).result =
        .ok (.object [("allocations".toList, .array []), ("analysis".toList, .string "ok".toList),
          ("action_plan".toList, .array [])]) ↔
      (JsOpt.str ['k']).truthy = true ∧
        ∃ content, (Upstream.answering (.str
          "\x7b\"allocations\": [], \"analysis\": \"ok\", \"action_plan\": []\x7d".toList)).completion =
            .resolved content ∧
          jsonParse (jsToString content) =
            some (.object [("allocations".toList, .array []),
              ("analysis".toList, .string "ok".toList), ("action_plan".toList, .array [])])) ∧
    (Generator.run (.budget "50000".toList "20000".toList "Buy a house".toList)
        (Upstream.answering (.str
          "\x7b\"allocations\": [], \"analysis\": \"ok\", \"action_plan\": []\x7d".toList))
        (.str ['k'])).result =
      .ok (.object [("allocations".toList, .array []), ("analysis".toList, .string "ok".toList),
        ("action_plan".toList, .array [])]) :=
  ⟨(generator_returns_parsed_content
      (.budget "50000".toList "20000".toList "Buy a house".toList)
      (Upstream.answering (.str
        "\x7b\"allocations\": [], \"analysis\": \"ok\", \"action_plan\": []\x7d".toList))
      (.str ['k'])
      (.object [("allocations".toList, .array []), ("analysis".toList, .string "ok".toList),
        ("action_plan".toList, .array [])])).1,
    rfl⟩

/-! ## The backend -/

theorem handle_guarded_missing (env : ServerEnv) (db : Db) (authorization : Option JsString)
    (r : ProtectedRoute) (h : tokenMissing authorization = true) :
    handle env db ⟨authorization, .guarded r⟩ =
      { response := ⟨403, .error "No token provided"⟩, db := db, events := [] } := by
  simp [handle, verifyToken, h]

theorem handle_guarded_refused (env : ServerEnv) (db : Db) (authorization : Option JsString)
    (r : ProtectedRoute) (h : tokenMissing authorization = false) (e : JsError)
    (hv : jwtVerify env ((authorization.getD []).splitOn ' ')[1]? = .error e) :
    handle env db ⟨authorization, .guarded r⟩ =
      { response := ⟨401, .error "Unauthorized"⟩, db := db,
        events := [.jwtVerify ((authorization.getD []).splitOn ' ')[1]?] } := by
  simp [handle, verifyToken, h, hv]

theorem handle_guarded_valid (env : ServerEnv) (db : Db) (authorization : Option JsString)
    (r : ProtectedRoute) (userId : Nat) (h : ValidSession env authorization userId) :
    handle env db ⟨authorization, .guarded r⟩ =
      { runProtected r env db userId with
        events := .jwtVerify ((authorization.getD []).splitOn ' ')[1]? ::
          (runProtected r env db userId).events } := by
  simp [handle, verifyToken, h.1, h.2]

/-- C14: the session gate fails closed on every protected route.  Without a header (or with an
empty one) the response is 403, and neither the verification nor a query happens; with a header
whose token does not verify (no second segment, not three parts, refused signature or expiry)
the response is 401 after the verification, and no query happens; the database is unchanged in
both cases; when the token verifies, the outcome is the one of the handler run with the id of
the token. -/
theorem verifyToken_fails_closed (env : ServerEnv) (db : Db) (authorization : Option JsString)
    (r : ProtectedRoute) :
    (tokenMissing authorization = true →
      handle env db ⟨authorization, .guarded r⟩ =
        { response := ⟨403, .error "No token provided"⟩, db := db, events := [] }) ∧
    (tokenMissing authorization = false →
      ∀ e, jwtVerify env ((authorization.getD []).splitOn ' ')[1]? = .error e →
        handle env db ⟨authorization, .guarded r⟩ =
          { response := ⟨401, .error "Unauthorized"⟩, db := db,
            events := [.jwtVerify ((authorization.getD []).splitOn ' ')[1]?] }) ∧
    (tokenMissing authorization = false →
      ∀ id, jwtVerify env ((authorization.getD []).splitOn ' ')[1]? = .ok id →
        handle env db ⟨authorization, .guarded r⟩ =
          { runProtected r env db id with
            events := .jwtVerify ((authorization.getD []).splitOn ' ')[1]? ::
              (runProtected r env db id).events }) ∧
    (∃ e, jwtVerify env none = .error e) ∧
    (∀ t, (t.splitOn '.').length ≠ 3 → ∃ e, jwtVerify env (some t) = .error e) ∧
    (∀ t e, env.jwtCheck t = .error e → ∃ e', jwtVerify env (some t) = .error e') := by
  refine ⟨handle_guarded_missing env db authorization r,
    fun h e hv => handle_guarded_refused env db authorization r h e hv,
    fun h id hv => handle_guarded_valid env db authorization r id ⟨h, hv⟩,
    ⟨_, rfl⟩, ?_, ?_⟩
  · intro t ht
    cases t with
    | nil => exact ⟨_, rfl⟩
    | cons c cs => exact ⟨⟨.str "jwt malformed".toList⟩, by simp [jwtVerify, ht]⟩
  · intro t e he
    cases t with
    | nil => exact ⟨_, rfl⟩
    | cons c cs =>
      by_cases h3 : ((c :: cs).splitOn '.').length = 3
      · exact ⟨e, by simp [jwtVerify, h3, he]⟩
      · exact ⟨⟨.str "jwt malformed".toList⟩, by simp [jwtVerify, h3]⟩

/-- C14 on the sample database: no header, a header without a second segment, a token of two
parts, a token that the library refuses, and the token of Ann. -/
theorem verifyToken_fails_closed_witness :
    handle (ServerEnv.sample 30) Db.sample ⟨none, .guarded .memoryClear⟩ =
      { response := ⟨403, .error "No token provided"⟩, db := Db.sample, events := [] } ∧
    handle (ServerEnv.sample 30) Db.sample ⟨some "Bearer".toList, .guarded .memoryClear⟩ =
      { response := ⟨401, .error "Unauthorized"⟩, db := Db.sample,
        events := [.jwtVerify none] } ∧
    handle (ServerEnv.sample 30) Db.sample ⟨some "Bearer a.b".toList, .guarded .memoryClear⟩ =
      { response := ⟨401, .error "Unauthorized"⟩, db := Db.sample,
        events := [.jwtVerify (some "a.b".toList)] } ∧
    handle (ServerEnv.sample 30) Db.sample ⟨some "Bearer h.x.s".toList, .guarded .memoryClear⟩ =
      { response := ⟨401, .error "Unauthorized"⟩, db := Db.sample,
        events := [.jwtVerify (some "h.x.s".toList)] } ∧
    handle (ServerEnv.sample 30) Db.sample ⟨some "Bearer h.t.s".toList, .guarded .memoryClear⟩ =
      { runProtected .memoryClear (ServerEnv.sample 30) Db.sample 1 with
        events := .jwtVerify (some "h.t.s".toList) ::
          (runProtected .memoryClear (ServerEnv.sample 30) Db.sample 1).events } :=
  ⟨(verifyToken_fails_closed (ServerEnv.sample 30) Db.sample none .memoryClear).1 (by decide),
    by decide, by decide, by decide, by decide⟩

/-- C16: the list of the Memory Store holds exactly the facts whose owner is the session user,
by creation time, newest first; the database is unchanged. -/
theorem memory_list_owner_newest_first (env : ServerEnv) (db : Db)
    (authorization : Option JsString) (u : Nat) (hs : ValidSession env authorization u) :
    ∃ rows, (handle env db ⟨authorization, .guarded .memoryList⟩).response =
        ⟨200, .memoryRows rows⟩ ∧
      (handle env db ⟨authorization, .guarded .memoryList⟩).db = db ∧
      rows.Perm (db.user_memory.filter fun r => r.user_id == u) ∧
      (∀ r, r ∈ rows ↔ r ∈ db.user_memory ∧ r.user_id = u) ∧
      rows.Sorted (fun a b => b.created_at ≤ a.created_at) := by
  rw [handle_guarded_valid env db authorization .memoryList u hs]
  have hperm : (selectMemory db u).Perm (db.user_memory.filter fun r => r.user_id == u) :=
    List.perm_insertionSort _ _
  refine ⟨selectMemory db u, rfl, rfl, hperm, ?_, ?_⟩
  · intro r
    rw [hperm.mem_iff]
    simp
  · haveI : IsTotal MemoryRow (fun a b => b.created_at ≤ a.created_at) :=
      ⟨fun a b => Nat.le_total _ _⟩
    haveI : IsTrans MemoryRow (fun a b => b.created_at ≤ a.created_at) :=
      ⟨fun a b c hab hbc => Nat.le_trans hbc hab⟩
    exact List.sorted_insertionSort _ _

/-- C16 on the sample database: Ann lists her two facts, the newer first, and not the fact of
Bob. -/
theorem memory_list_owner_newest_first_witness :
    ValidSession (ServerEnv.sample 30) (some "Bearer h.t.s".toList) 1 ∧
    (∃ rows, (handle (ServerEnv.sample 30) Db.sample
          ⟨some "Bearer h.t.s".toList, .guarded .memoryList⟩).response =
        ⟨200, .memoryRows rows⟩ ∧
      (handle (ServerEnv.sample 30) Db.sample
          ⟨some "Bearer h.t.s".toList, .guarded .memoryList⟩).db = Db.sample ∧
      rows.Perm (Db.sample.user_memory.filter fun r => r.user_id == 1) ∧
      (∀ r, r ∈ rows ↔ r ∈ Db.sample.user_memory ∧ r.user_id = 1) ∧
      rows.Sorted (fun a b => b.created_at ≤ a.created_at)) ∧
    (handle (ServerEnv.sample 30) Db.sample
        ⟨some "Bearer h.t.s".toList, .guarded .memoryList⟩).response =
      ⟨200, .memoryRows
        [{ id := 3, user_id := 1, category := "Goal".toList, content := "Buy a house".toList,
           created_at := 12 },
         { id := 1, user_id := 1, category := "Location".toList,
           content := "Moved to Berlin".toList, created_at := 10 }]⟩ :=
  ⟨⟨by decide, by decide⟩,
    memory_list_owner_newest_first (ServerEnv.sample 30) Db.sample (some "Bearer h.t.s".toList) 1
      ⟨by decide, by decide⟩,
    by decide⟩

theorem users_any_id {db : Db} {u : Nat} (hu : ∃ r ∈ db.users, r.id = u) :
    db.users.any (fun r => r.id == u) = true := by
  obtain ⟨r, hr, hid⟩ := hu
  exact List.any_eq_true.2 ⟨r, hr, by simp [hid]⟩

/-- A text without U+0000 is bound as it is. -/
theorem textParam_clean {p : Option JsString} (h : ∀ s, p = some s → hasNul s = false) :
    textParam p = .ok p := by
  cases p with
  | none => rfl
  | some s => simp [textParam, h s rfl]

/-- A text with U+0000 is refused. -/
theorem textParam_nul {s : JsString} (h : hasNul s = true) :
    textParam (some s) = .error .invalidByteSequence := by
  simp [textParam, h]

/-- A sequence that is not exhausted gives its next value. -/
theorem nextval_ok {seq : Nat} (h : seq < int4Max) : nextval seq = .ok (seq + 1) := by
  simp [nextval, h]

/-- A request whose body is within the limit reaches the routes. -/
theorem app_of_le (env : ServerEnv) (db : Db) (n : Nat) (req : Request) (h : n ≤ bodyLimit) :
    app env db ⟨n, req⟩ = handle env db req := by
  simp [app, Nat.not_lt.2 h]

/-- A request whose body is above the limit is answered with 413 and changes nothing. -/
theorem app_of_gt (env : ServerEnv) (db : Db) (n : Nat) (req : Request) (h : bodyLimit < n) :
    app env db ⟨n, req⟩ =
      { response := ⟨413, .errorPage "request entity too large"⟩, db := db, events := [] } := by
  simp [app, h]

/-- A successful insert into `user_memory`. -/
theorem insertMemory_ok (now : Nat) (db : Db) (u : Nat) (category text : JsString)
    (hfit : category.length ≤ 50) (hcat : hasNul category = false)
    (htext : hasNul text = false) (hseq : db.user_memory_id_seq < int4Max)
    (hu : ∃ r ∈ db.users, r.id = u) :
    insertMemory now db u category (some text) =
      (.ok { id := db.user_memory_id_seq + 1, user_id := u, category := category,
             content := text, created_at := now },
       { db with
         user_memory_id_seq := db.user_memory_id_seq + 1,
         user_memory := db.user_memory ++
           [{ id := db.user_memory_id_seq + 1, user_id := u, category := category,
              content := text, created_at := now }] }) := by
  simp [insertMemory, textParam, hcat, htext, varchar, hfit, nextval, hseq, notNull,
    users_any_id hu, bind, Except.bind, pure, Except.pure]

/-- What a successful insert into `user_memory` did. -/
theorem insertMemory_inv {now : Nat} {db db' : Db} {u : Nat} {category : JsString}
    {content : Option JsString} {row : MemoryRow}
    (h : insertMemory now db u category content = (.ok row, db')) :
    row.id = db.user_memory_id_seq + 1 ∧ row.user_id = u ∧ row.created_at = now ∧
    varchar 50 category = .ok row.category ∧ content = some row.content ∧
    db'.user_memory = db.user_memory ++ [row] ∧ db'.users = db.users ∧
    db'.messages = db.messages ∧ db.user_memory_id_seq < int4Max ∧
    hasNul category = false ∧ hasNul row.content = false := by
  unfold insertMemory at h
  cases hc : hasNul category with
  | true => simp [textParam, hc, bind, Except.bind] at h
  | false =>
    cases content with
    | none =>
      cases hv : varchar 50 category with
      | error e => simp [textParam, hc, hv, bind, Except.bind, pure, Except.pure] at h
      | ok c =>
        by_cases hseq : db.user_memory_id_seq < int4Max
        · simp [textParam, hc, hv, nextval, hseq, notNull, bind, Except.bind, pure,
            Except.pure] at h
        · simp [textParam, hc, hv, nextval, hseq, bind, Except.bind, pure, Except.pure] at h
    | some t =>
      cases ht : hasNul t with
      | true => simp [textParam, hc, ht, bind, Except.bind, pure, Except.pure] at h
      | false =>
        cases hv : varchar 50 category with
        | error e => simp [textParam, hc, ht, hv, bind, Except.bind, pure, Except.pure] at h
        | ok c =>
          by_cases hseq : db.user_memory_id_seq < int4Max
          · cases hany : db.users.any (fun r => r.id == u) with
            | false =>
              simp [textParam, hc, ht, hv, nextval, hseq, notNull, hany, bind, Except.bind,
                pure, Except.pure, throw, throwThe, MonadExceptOf.throw] at h
            | true =>
              simp [textParam, hc, ht, hv, nextval, hseq, notNull, hany, bind, Except.bind,
                pure, Except.pure] at h
              obtain ⟨h1, h2⟩ := h
              subst h1 h2
              simp [hseq, ht]
          · simp [textParam, hc, ht, hv, nextval, hseq, bind, Except.bind, pure,
              Except.pure] at h

/-- In a well-formed database a row of `user_memory` is known by its id. -/
theorem memory_row_of_id {db : Db} (hwf : db.WellFormed) {r row : MemoryRow}
    (hr : r ∈ db.user_memory) (hrow : row ∈ db.user_memory) (hid : r.id = row.id) : r = row :=
  List.inj_on_of_nodup_map hwf.2.2.2.2.1 hr hrow hid

/-- A delete that matches no row answers 404 and leaves the database as it is. -/
theorem memoryRemove_no_match (db : Db) (a id : Nat) (hid : id ≤ int4Max)
    (h : ∀ r ∈ db.user_memory, ¬(r.id = id ∧ r.user_id = a)) :
    memoryRemove db a id =
      { response := ⟨404, .error "Memory not found or unauthorized"⟩, db := db,
        events := [.query "DELETE FROM user_memory WHERE id = $1 AND user_id = $2"] } := by
  have h0 : (db.user_memory.filter fun r => r.id == id && r.user_id == a) = [] := by
    rw [List.filter_eq_nil_iff]
    intro r hr
    simpa using h r hr
  have h1 : (db.user_memory.filter fun r => !(r.id == id && r.user_id == a)) =
      db.user_memory := by
    rw [List.filter_eq_self]
    intro r hr
    have := h r hr
    by_cases hid : r.id = id
    · have hua : r.user_id ≠ a := fun hua => this ⟨hid, hua⟩
      simp [hid, hua]
    · simp [hid]
  have hparam : int4Param id = .ok id := by simp [int4Param, Nat.not_lt.2 hid]
  unfold memoryRemove deleteMemory
  simp only [hparam, h0, h1]
  rfl

/-- A delete of an id above the range of `INTEGER` answers 500 and leaves the database as it
is. -/
theorem memoryRemove_out_of_range (db : Db) (a id : Nat) (hid : int4Max < id) :
    memoryRemove db a id =
      { response := ⟨500, .failure (.db .numericValueOutOfRange)⟩, db := db,
        events := [.query "DELETE FROM user_memory WHERE id = $1 AND user_id = $2"] } := by
  simp [memoryRemove, int4Param, hid]

/-- C15, as stated, fails for clear: a clear issued by the session of Ann is answered with 200
and the message "All memories cleared", not with 404 (it deletes her two facts and leaves the
fact of Bob); and a remove of an id above the range of `INTEGER`, which no fact has, is answered
with 500 and not with 404. -/
theorem clear_by_other_user_succeeds :
    (handle (ServerEnv.sample 30) Db.sample
        ⟨some "Bearer h.t.s".toList, .guarded .memoryClear⟩).response =
      ⟨200, .message "All memories cleared"⟩ ∧
    (handle (ServerEnv.sample 30) Db.sample
        ⟨some "Bearer h.t.s".toList, .guarded .memoryClear⟩).response.status ≠ 404 ∧
    (handle (ServerEnv.sample 30) Db.sample
        ⟨some "Bearer h.t.s".toList, .guarded .memoryClear⟩).db.user_memory =
      [{ id := 2, user_id := 2, category := "Income".toList, content := "Salary 5000".toList,
         created_at := 11 }] ∧
    (app (ServerEnv.sample 30) Db.sample
        ⟨0, ⟨some "Bearer h.t.s".toList, .guarded (.memoryRemove 2147483648)⟩⟩).response =
      ⟨500, .failure (.db .numericValueOutOfRange)⟩ := by
  decide

/-- C15, amended: for distinct users A and B and a fact owned by B, in a store whose ids are
within the range of `INTEGER` and for a request within the body limit: remove issued by the
session of A is answered with 404, as for an id within the range of `INTEGER` that does not
exist (an id above the range is answered with 500), and leaves the database as it is; clear
issued by the session of A is answered with 200 and deletes the rows of A only; neither deletes
or changes a row owned by B. -/
theorem memory_remove_clear_isolated (env : ServerEnv) (db : Db)
    (authorization : Option JsString) (a b : Nat) (row : MemoryRow) (n : Nat)
    (hwf : db.WellFormed) (hrange : db.InRange)
    (hs : ValidSession env authorization a) (hab : a ≠ b) (hrow : row ∈ db.user_memory)
    (hown : row.user_id = b) (hbody : n ≤ bodyLimit) :
    (app env db ⟨n, ⟨authorization, .guarded (.memoryRemove row.id)⟩⟩).response =
      ⟨404, .error "Memory not found or unauthorized"⟩ ∧
    (app env db ⟨n, ⟨authorization, .guarded (.memoryRemove row.id)⟩⟩).db = db ∧
    (∀ id, id ≤ int4Max → (∀ r ∈ db.user_memory, r.id ≠ id) →
      (app env db ⟨n, ⟨authorization, .guarded (.memoryRemove id)⟩⟩).response =
        ⟨404, .error "Memory not found or unauthorized"⟩) ∧
    (∀ id, int4Max < id →
      (app env db ⟨n, ⟨authorization, .guarded (.memoryRemove id)⟩⟩).response =
        ⟨500, .failure (.db .numericValueOutOfRange)⟩ ∧
      (app env db ⟨n, ⟨authorization, .guarded (.memoryRemove id)⟩⟩).db = db) ∧
    (app env db ⟨n, ⟨authorization, .guarded .memoryClear⟩⟩).response =
      ⟨200, .message "All memories cleared"⟩ ∧
    (app env db ⟨n, ⟨authorization, .guarded .memoryClear⟩⟩).db.user_memory =
      db.user_memory.filter (fun r => !(r.user_id == a)) ∧
    ((app env db ⟨n, ⟨authorization, .guarded .memoryClear⟩⟩).db.user_memory.filter
        fun r => r.user_id == b) =
      db.user_memory.filter fun r => r.user_id == b := by
  have hid : row.id ≤ int4Max := Nat.le_trans (hwf.2.2.2.1 row hrow) hrange.2.1
  have hremove : memoryRemove db a row.id =
      { response := ⟨404, .error "Memory not found or unauthorized"⟩, db := db,
        events := [.query "DELETE FROM user_memory WHERE id = $1 AND user_id = $2"] } := by
    apply memoryRemove_no_match db a row.id hid
    rintro r hr ⟨hid', hua⟩
    have := memory_row_of_id hwf hr hrow hid'
    subst this
    exact hab (hua.symm.trans hown)
  simp only [app_of_le env db n _ hbody]
  refine ⟨?_, ?_, ?_, ?_, ?_, ?_, ?_⟩
  · rw [handle_guarded_valid env db authorization _ a hs]
    simp [runProtected, hremove]
  · rw [handle_guarded_valid env db authorization _ a hs]
    simp [runProtected, hremove]
  · intro id hle hid'
    rw [handle_guarded_valid env db authorization _ a hs]
    have := memoryRemove_no_match db a id hle (fun r hr h => hid' r hr h.1)
    simp [runProtected, this]
  · intro id hgt
    rw [handle_guarded_valid env db authorization _ a hs]
    have := memoryRemove_out_of_range db a id hgt
    simp [runProtected, this]
  · rw [handle_guarded_valid env db authorization _ a hs]
    rfl
  · rw [handle_guarded_valid env db authorization _ a hs]
    rfl
  · rw [handle_guarded_valid env db authorization _ a hs]
    simp only [runProtected, memoryClear, clearMemory, List.filter_filter]
    apply List.filter_congr
    intro r _
    by_cases h : r.user_id = b
    · have : r.user_id ≠ a := fun h' => hab (h'.symm.trans h)
      simp [h, this]
      exact fun h' => hab h'.symm
    · simp [h]

/-- The sample database is well-formed. -/
theorem wellFormed_sample : Db.sample.WellFormed := by
  refine ⟨by decide, by decide, by decide, by decide, by decide, by decide, by decide⟩

/-- The sequences of the sample database are within the range of `INTEGER`. -/
theorem inRange_sample : Db.sample.InRange := by
  refine ⟨by decide, by decide, by decide⟩

/-- C15, amended, on the sample database: Ann against the fact of Bob, and against an id above
the range of `INTEGER`. -/
theorem memory_remove_clear_isolated_witness :
    Db.sample.WellFormed ∧ Db.sample.InRange ∧
    ValidSession (ServerEnv.sample 30) (some "Bearer h.t.s".toList) 1 ∧
    (app (ServerEnv.sample 30) Db.sample
        ⟨0, ⟨some "Bearer h.t.s".toList, .guarded (.memoryRemove 2)⟩⟩).response =
      ⟨404, .error "Memory not found or unauthorized"⟩ ∧
    (app (ServerEnv.sample 30) Db.sample
        ⟨0, ⟨some "Bearer h.t.s".toList, .guarded (.memoryRemove 2)⟩⟩).db = Db.sample ∧
    (app (ServerEnv.sample 30) Db.sample
        ⟨0, ⟨some "Bearer h.t.s".toList, .guarded (.memoryRemove 4294967296)⟩⟩).response =
      ⟨500, .failure (.db .numericValueOutOfRange)⟩ :=
  have h := memory_remove_clear_isolated (ServerEnv.sample 30) Db.sample
    (some "Bearer h.t.s".toList) 1 2
    { id := 2, user_id := 2, category := "Income".toList, content := "Salary 5000".toList,
      created_at := 11 } 0 wellFormed_sample inRange_sample ⟨by decide, by decide⟩ (by decide)
    (by decide) rfl (by decide)
  ⟨wellFormed_sample, inRange_sample, ⟨by decide, by decide⟩, h.1, h.2.1,
    (h.2.2.2.1 4294967296 (by decide)).1⟩

/-- C17, as stated, fails: an add request whose category has 51 characters is answered with
500 and stores nothing, and so are an add request without content, an add request whose content
holds U+0000 and an add request once the sequence of the ids is exhausted; an add request whose
body is above 100 kB is answered with 413 and stores nothing. -/
theorem memory_add_refused :
    (handle (ServerEnv.sample 30) Db.sample ⟨some "Bearer h.t.s".toList,
        .guarded (.memoryAdd (.str (List.replicate 51 'x')) (.str "Moved".toList))⟩).response =
      ⟨500, .failure (.db (.stringTooLong 50))⟩ ∧
    (handle (ServerEnv.sample 30) Db.sample ⟨some "Bearer h.t.s".toList,
        .guarded (.memoryAdd (.str (List.replicate 51 'x')) (.str "Moved".toList))⟩).db.user_memory =
      Db.sample.user_memory ∧
    (handle (ServerEnv.sample 30) Db.sample ⟨some "Bearer h.t.s".toList,
        .guarded (.memoryAdd (.str "Location".toList) .undefined)⟩).response =
      ⟨500, .failure (.db (.notNull "content"))⟩ ∧
    (handle (ServerEnv.sample 30) Db.sample ⟨some "Bearer h.t.s".toList,
        .guarded (.memoryAdd (.str "Location".toList) .undefined)⟩).db.user_memory =
      Db.sample.user_memory ∧
    (app (ServerEnv.sample 30) Db.sample ⟨60, ⟨some "Bearer h.t.s".toList,
        .guarded (.memoryAdd (.str "Location".toList) (.str ['a', Char.ofNat 0, 'b']))⟩⟩).response =
      ⟨500, .failure (.db .invalidByteSequence)⟩ ∧
    (app (ServerEnv.sample 30) Db.sample ⟨60, ⟨some "Bearer h.t.s".toList,
        .guarded (.memoryAdd (.str "Location".toList) (.str ['a', Char.ofNat 0, 'b']))⟩⟩).db =
      Db.sample ∧
    (app (ServerEnv.sample 30) Db.sample ⟨102401, ⟨some "Bearer h.t.s".toList,
        .guarded (.memoryAdd (.str "Location".toList) (.str "Moved".toList))⟩⟩).response =
      ⟨413, .errorPage "request entity too large"⟩ ∧
    (app (ServerEnv.sample 30) Db.sample ⟨102401, ⟨some "Bearer h.t.s".toList,
        .guarded (.memoryAdd (.str "Location".toList) (.str "Moved".toList))⟩⟩).db = Db.sample ∧
    (app (ServerEnv.sample 30) { Db.sample with user_memory_id_seq := 2147483647 }
        ⟨60, ⟨some "Bearer h.t.s".toList,
          .guarded (.memoryAdd (.str "Location".toList) (.str "Moved".toList))⟩⟩).response =
      ⟨500, .failure (.db .sequenceExhausted)⟩ := by
  decide

/-- C17, amended: for every add request within the body limit by a session user `u` of the
store, with a content and with a category of at most 50 characters (after the default), neither
holding U+0000, while the sequence of the ids is not exhausted, the fact is stored and returned:
its owner is `u`, its content is the content of the request, its category is "General" when
the category of the request is absent or empty and the category of the request otherwise. -/
theorem memory_add_stores_fact (env : ServerEnv) (db : Db) (authorization : Option JsString)
    (u : Nat) (category : JsOpt) (text : JsString) (n : Nat)
    (hs : ValidSession env authorization u)
    (hu : ∃ r ∈ db.users, r.id = u) (hfit : (category.orElse "General".toList).length ≤ 50)
    (hbody : n ≤ bodyLimit) (hcat : hasNul (category.orElse "General".toList) = false)
    (htext : hasNul text = false) (hseq : db.user_memory_id_seq < int4Max) :
    ∃ row,
      (app env db ⟨n, ⟨authorization, .guarded (.memoryAdd category (.str text))⟩⟩).response =
        ⟨200, .memoryRow row⟩ ∧
      (app env db ⟨n, ⟨authorization,
          .guarded (.memoryAdd category (.str text))⟩⟩).db.user_memory =
        db.user_memory ++ [row] ∧
      row.user_id = u ∧ row.content = text ∧
      row.category = category.orElse "General".toList ∧
      (category.truthy = false → row.category = "General".toList) ∧
      (∀ c cs, category = .str (c :: cs) → row.category = c :: cs) := by
  rw [app_of_le env db n _ hbody, handle_guarded_valid env db authorization _ u hs]
  refine ⟨{ id := db.user_memory_id_seq + 1, user_id := u,
            category := category.orElse "General".toList, content := text,
            created_at := env.now }, ?_, ?_, rfl, rfl, rfl, ?_, ?_⟩
  · simp only [runProtected, memoryAdd, sqlParam]
    rw [insertMemory_ok env.now db u _ text hfit hcat htext hseq hu]
  · simp only [runProtected, memoryAdd, sqlParam]
    rw [insertMemory_ok env.now db u _ text hfit hcat htext hseq hu]
  · intro h
    cases category with
    | undefined => rfl
    | null => rfl
    | str s =>
      cases s with
      | nil => rfl
      | cons c cs => simp [JsOpt.truthy] at h
  · rintro c cs rfl
    rfl

/-- C17, amended, on the sample database: Ann adds a fact without a category. -/
theorem memory_add_stores_fact_witness :
    ValidSession (ServerEnv.sample 30) (some "Bearer h.t.s".toList) 1 ∧
    (∃ r ∈ Db.sample.users, r.id = 1) ∧
    ((JsOpt.undefined).orElse "General".toList).length ≤ 50 ∧
    (∃ row, (app (ServerEnv.sample 30) Db.sample ⟨40, ⟨some "Bearer h.t.s".toList,
          .guarded (.memoryAdd .undefined (.str "Salary 5000".toList))⟩⟩).response =
        ⟨200, .memoryRow row⟩ ∧
      (app (ServerEnv.sample 30) Db.sample ⟨40, ⟨some "Bearer h.t.s".toList,
          .guarded (.memoryAdd .undefined (.str "Salary 5000".toList))⟩⟩).db.user_memory =
        Db.sample.user_memory ++ [row] ∧
      row.user_id = 1 ∧ row.content = "Salary 5000".toList ∧
      row.category = (JsOpt.undefined).orElse "General".toList ∧
      ((JsOpt.undefined).truthy = false → row.category = "General".toList) ∧
      (∀ c cs, JsOpt.undefined = .str (c :: cs) → row.category = c :: cs)) ∧
    (app (ServerEnv.sample 30) Db.sample ⟨40, ⟨some "Bearer h.t.s".toList,
        .guarded (.memoryAdd .undefined (.str "Salary 5000".toList))⟩⟩).response =
      ⟨200, .memoryRow
        { id := 4, user_id := 1, category := "General".toList,
          content := "Salary 5000".toList, created_at := 30 }⟩ :=
  ⟨⟨by decide, by decide⟩, by decide, by decide,
    memory_add_stores_fact (ServerEnv.sample 30) Db.sample (some "Bearer h.t.s".toList) 1
      .undefined "Salary 5000".toList 40 ⟨by decide, by decide⟩ (by decide) (by decide)
      (by decide) (by decide) (by decide) (by decide),
    by decide⟩

/-- C19, as stated, fails: the response of clear is a fixed message and carries no count.  On
the sample database the clear of Ann removes two facts and the clear of Bob removes one, and
the two responses are the same; likewise for the messages. -/
theorem clear_response_has_no_count :
    (handle (ServerEnv.sample 30) Db.sample
        ⟨some "Bearer h.t.s".toList, .guarded .memoryClear⟩).response =
      ⟨200, .message "All memories cleared"⟩ ∧
    (handle (ServerEnv.sample 30) Db.sample
        ⟨some "Bearer h.tt.s".toList, .guarded .memoryClear⟩).response =
      ⟨200, .message "All memories cleared"⟩ ∧
    (clearMemory Db.sample 1).1 = 2 ∧ (clearMemory Db.sample 2).1 = 1 ∧
    (handle (ServerEnv.sample 30) Db.sample
        ⟨some "Bearer h.t.s".toList, .guarded .chatClear⟩).response =
      ⟨200, .message "Chat history cleared"⟩ ∧
    (handle (ServerEnv.sample 30) Db.sample
        ⟨some "Bearer h.tt.s".toList, .guarded .chatClear⟩).response =
      ⟨200, .message "Chat history cleared"⟩ ∧
    (clearMessages Db.sample 1).1 = 2 ∧ (clearMessages Db.sample 2).1 = 0 := by
  decide

/-- C19, amended: the clear of the Memory Store and the clear of the Conversation Log delete
the rows of the session user and no other row, so that the number of rows removed is the number
of facts (of messages) of that user; the response is the fixed message "All memories cleared"
("Chat history cleared") and does not carry that number. -/
theorem clear_deletes_rows_of_user (env : ServerEnv) (db : Db) (authorization : Option JsString)
    (u : Nat) (hs : ValidSession env authorization u) :
    (handle env db ⟨authorization, .guarded .memoryClear⟩).response =
      ⟨200, .message "All memories cleared"⟩ ∧
    (handle env db ⟨authorization, .guarded .memoryClear⟩).db.user_memory =
      db.user_memory.filter (fun r => !(r.user_id == u)) ∧
    db.user_memory.length =
      (db.user_memory.filter fun r => r.user_id == u).length +
        (handle env db ⟨authorization, .guarded .memoryClear⟩).db.user_memory.length ∧
    (handle env db ⟨authorization, .guarded .chatClear⟩).response =
      ⟨200, .message "Chat history cleared"⟩ ∧
    (handle env db ⟨authorization, .guarded .chatClear⟩).db.messages =
      db.messages.filter (fun r => !(r.user_id == u)) ∧
    db.messages.length =
      (db.messages.filter fun r => r.user_id == u).length +
        (handle env db ⟨authorization, .guarded .chatClear⟩).db.messages.length := by
  rw [handle_guarded_valid env db authorization _ u hs,
    handle_guarded_valid env db authorization _ u hs]
  exact ⟨rfl, rfl, List.length_eq_length_filter_add _, rfl, rfl,
    List.length_eq_length_filter_add _⟩

/-- C19, amended, on the sample database: the clear of Ann. -/
theorem clear_deletes_rows_of_user_witness :
    ValidSession (ServerEnv.sample 30) (some "Bearer h.t.s".toList) 1 ∧
    (handle (ServerEnv.sample 30) Db.sample
        ⟨some "Bearer h.t.s".toList, .guarded .memoryClear⟩).response =
      ⟨200, .message "All memories cleared"⟩ ∧
    (handle (ServerEnv.sample 30) Db.sample
        ⟨some "Bearer h.t.s".toList, .guarded .memoryClear⟩).db.user_memory =
      Db.sample.user_memory.filter (fun r => !(r.user_id == 1)) :=
  have h := clear_deletes_rows_of_user (ServerEnv.sample 30) Db.sample
    (some "Bearer h.t.s".toList) 1 ⟨by decide, by decide⟩
  ⟨⟨by decide, by decide⟩, h.1, h.2.1⟩

/-- C18: in a well-formed store and with a valid session, after a successful add the list of
the user contains the added fact exactly once; the remove of its id by the same user succeeds,
and after it the list no longer contains the fact, while every other fact of the user is still
listed. -/
theorem memory_add_list_remove (env1 env2 env3 env4 : ServerEnv) (db db1 db2 : Db)
    (authorization : Option JsString) (u : Nat) (category content : JsOpt) (row : MemoryRow)
    (hwf : db.WellFormed)
    (hs1 : ValidSession env1 authorization u) (hs2 : ValidSession env2 authorization u)
    (hs3 : ValidSession env3 authorization u) (hs4 : ValidSession env4 authorization u)
    (hadd : (handle env1 db ⟨authorization, .guarded (.memoryAdd category content)⟩).response =
      ⟨200, .memoryRow row⟩)
    (hdb1 : db1 = (handle env1 db ⟨authorization, .guarded (.memoryAdd category content)⟩).db)
    (hdb2 : db2 = (handle env3 db1 ⟨authorization, .guarded (.memoryRemove row.id)⟩).db) :
    ∃ rows1 rows2,
      (handle env2 db1 ⟨authorization, .guarded .memoryList⟩).response =
        ⟨200, .memoryRows rows1⟩ ∧
      rows1.count row = 1 ∧
      (handle env3 db1 ⟨authorization, .guarded (.memoryRemove row.id)⟩).response =
        ⟨200, .message "Memory deleted"⟩ ∧
      (handle env4 db2 ⟨authorization, .guarded .memoryList⟩).response =
        ⟨200, .memoryRows rows2⟩ ∧
      row ∉ rows2 ∧ ∀ r ∈ rows1, r ≠ row → r ∈ rows2 := by
  rw [handle_guarded_valid env1 db authorization _ u hs1] at hadd hdb1
  rw [handle_guarded_valid env3 db1 authorization _ u hs3] at hdb2
  rw [handle_guarded_valid env2 db1 authorization _ u hs2,
    handle_guarded_valid env3 db1 authorization _ u hs3,
    handle_guarded_valid env4 db2 authorization _ u hs4]
  simp only [runProtected, memoryAdd] at hadd hdb1
  -- the insert succeeded
  have hins : insertMemory env1.now db u (category.orElse "General".toList) (sqlParam content) =
      (.ok row, db1) := by
    cases hres : insertMemory env1.now db u (category.orElse "General".toList)
      (sqlParam content) with
    | mk res db' =>
      rw [hres] at hadd hdb1
      cases res with
      | error e => simp at hadd
      | ok row' =>
        simp at hadd hdb1
        rw [hadd, hdb1]
  obtain ⟨hid, huser, _, _, _, hum, _, _, hseq, _, _⟩ := insertMemory_inv hins
  have hparam : int4Param row.id = .ok row.id := by
    have : ¬ int4Max < row.id := by omega
    simp [int4Param, this]
  have hfresh : ∀ r ∈ db.user_memory, r.id ≠ row.id := by
    intro r hr h
    have := hwf.2.2.2.1 r hr
    omega
  have hnotin : row ∉ db.user_memory := fun h => hfresh row h rfl
  have hperm1 : (selectMemory db1 u).Perm (db1.user_memory.filter fun r => r.user_id == u) :=
    List.perm_insertionSort _ _
  have hperm2 : (selectMemory db2 u).Perm (db2.user_memory.filter fun r => r.user_id == u) :=
    List.perm_insertionSort _ _
  have hmatch : row ∈ db1.user_memory.filter fun r => r.id == row.id && r.user_id == u := by
    rw [hum]
    simp [huser]
  have hcount : ¬((db1.user_memory.filter fun r => r.id == row.id && r.user_id == u).length =
      0) :=
    fun h => List.ne_nil_of_mem hmatch (List.length_eq_zero.1 h)
  have hdb2um : db2.user_memory =
      db1.user_memory.filter fun r => !(r.id == row.id && r.user_id == u) := by
    rw [hdb2]
    simp only [runProtected, memoryRemove, hparam, deleteMemory, hcount, if_false]
  refine ⟨selectMemory db1 u, selectMemory db2 u, rfl, ?_, ?_, rfl, ?_, ?_⟩
  · rw [hperm1.count_eq, hum, List.filter_append, List.count_append]
    have h0 : List.count row (db.user_memory.filter fun r => r.user_id == u) = 0 :=
      List.count_eq_zero_of_not_mem fun h => hnotin (List.mem_of_mem_filter h)
    simp [h0, huser]
  · simp only [runProtected, memoryRemove, hparam, deleteMemory, hcount, if_false]
  · intro h
    have h1 := (hperm2.mem_iff).1 h
    rw [hdb2um] at h1
    simp [huser] at h1
  · intro r hr hne
    have h1 := (hperm1.mem_iff).1 hr
    rw [hum] at h1
    simp only [List.filter_append, List.mem_append, List.mem_filter, List.mem_singleton] at h1
    rcases h1 with ⟨hmem, hu'⟩ | ⟨hrow, _⟩
    · apply (hperm2.mem_iff).2
      rw [hdb2um, hum]
      have := hfresh r hmem
      simp [hmem, hu', this]
    · exact absurd hrow hne

/-- C18 on the sample database: Ann adds a fact, lists, removes it and lists again. -/
theorem memory_add_list_remove_witness :
    ∃ rows1 rows2,
      (handle (ServerEnv.sample 31)
        (handle (ServerEnv.sample 30) Db.sample ⟨some "Bearer h.t.s".toList,
          .guarded (.memoryAdd (.str "Goal".toList) (.str "Retire at 50".toList))⟩).db
        ⟨some "Bearer h.t.s".toList, .guarded .memoryList⟩).response =
        ⟨200, .memoryRows rows1⟩ ∧
      rows1.count retireFact = 1 ∧
      (handle (ServerEnv.sample 32)
        (handle (ServerEnv.sample 30) Db.sample ⟨some "Bearer h.t.s".toList,
          .guarded (.memoryAdd (.str "Goal".toList) (.str "Retire at 50".toList))⟩).db
        ⟨some "Bearer h.t.s".toList, .guarded (.memoryRemove retireFact.id)⟩).response =
        ⟨200, .message "Memory deleted"⟩ ∧
      (handle (ServerEnv.sample 33)
        (handle (ServerEnv.sample 32)
          (handle (ServerEnv.sample 30) Db.sample ⟨some "Bearer h.t.s".toList,
            .guarded (.memoryAdd (.str "Goal".toList) (.str "Retire at 50".toList))⟩).db
          ⟨some "Bearer h.t.s".toList, .guarded (.memoryRemove retireFact.id)⟩).db
        ⟨some "Bearer h.t.s".toList, .guarded .memoryList⟩).response =
        ⟨200, .memoryRows rows2⟩ ∧
      retireFact ∉ rows2 ∧ ∀ r ∈ rows1, r ≠ retireFact → r ∈ rows2 :=
  memory_add_list_remove (ServerEnv.sample 30) (ServerEnv.sample 31) (ServerEnv.sample 32)
    (ServerEnv.sample 33) Db.sample _ _ (some "Bearer h.t.s".toList) 1 (.str "Goal".toList)
    (.str "Retire at 50".toList) retireFact
    (by refine ⟨by decide, by decide, by decide, by decide, by decide, by decide, by decide⟩)
    ⟨by decide, by decide⟩ ⟨by decide, by decide⟩ ⟨by decide, by decide⟩
    ⟨by decide, by decide⟩ (by decide) rfl rfl

theorem varcharNullable_fit {limit : Nat} {name : Option JsString}
    (h : ∀ n, name = some n → n.length ≤ limit) : varcharNullable limit name = .ok name := by
  cases name with
  | none => rfl
  | some n => simp [varcharNullable, varchar, h n rfl, Except.map]

/-- An insert into `users` with a new email. -/
theorem insertUser_ok (now : Nat) (db : Db) (name : Option JsString) (e hash : JsString)
    (hname : ∀ n, name = some n → n.length ≤ 100) (hemail : e.length ≤ 255)
    (hnameNul : ∀ n, name = some n → hasNul n = false) (hemailNul : hasNul e = false)
    (hseq : db.users_id_seq < int4Max) (hnew : ∀ r ∈ db.users, r.email ≠ e) :
    insertUser now db name (some e) hash =
      (.ok { id := db.users_id_seq + 1, name := name, email := e, password_hash := hash,
             created_at := now },
       { db with
         users_id_seq := db.users_id_seq + 1,
         users := db.users ++
           [{ id := db.users_id_seq + 1, name := name, email := e, password_hash := hash,
              created_at := now }] }) := by
  have hany : db.users.any (fun r => r.email == e) = false := by
    rw [List.any_eq_false]
    intro r hr
    simpa using hnew r hr
  have hfe : varcharNullable 255 (some e) = .ok (some e) :=
    varcharNullable_fit (by intro n h; cases h; exact hemail)
  have hte : textParam (some e) = .ok (some e) :=
    textParam_clean (by intro n h; cases h; exact hemailNul)
  simp [insertUser, textParam_clean hnameNul, hte, varcharNullable_fit hname, hfe, nextval, hseq,
    notNull, hany, bind, Except.bind, pure, Except.pure]

/-- An insert into `users` with an email that a user has. -/
theorem insertUser_duplicate (now : Nat) (db : Db) (name : Option JsString) (e hash : JsString)
    (hname : ∀ n, name = some n → n.length ≤ 100) (hemail : e.length ≤ 255)
    (hnameNul : ∀ n, name = some n → hasNul n = false) (hemailNul : hasNul e = false)
    (hseq : db.users_id_seq < int4Max) (hold : ∃ r ∈ db.users, r.email = e) :
    insertUser now db name (some e) hash =
      (.error (.uniqueViolation "users_email_key"),
       { db with users_id_seq := db.users_id_seq + 1 }) := by
  have hany : db.users.any (fun r => r.email == e) = true := by
    obtain ⟨r, hr, he⟩ := hold
    exact List.any_eq_true.2 ⟨r, hr, by simp [he]⟩
  have hfe : varcharNullable 255 (some e) = .ok (some e) :=
    varcharNullable_fit (by intro n h; cases h; exact hemail)
  have hte : textParam (some e) = .ok (some e) :=
    textParam_clean (by intro n h; cases h; exact hemailNul)
  simp [insertUser, textParam_clean hnameNul, hte, varcharNullable_fit hname, hfe, nextval, hseq,
    notNull, hany, bind, Except.bind, pure, Except.pure, throw, throwThe, MonadExceptOf.throw]

/-- The parameter of a field of the body that holds no U+0000 and fits a column. -/
theorem sqlParam_facts {name : JsOpt} {limit : Nat}
    (hname : ∀ n, name = .str n → n.length ≤ limit)
    (hnul : ∀ n, name = .str n → hasNul n = false) :
    (∀ n, sqlParam name = some n → n.length ≤ limit) ∧
    (∀ n, sqlParam name = some n → hasNul n = false) := by
  cases name with
  | undefined => exact ⟨fun n hn => Option.noConfusion hn, fun n hn => Option.noConfusion hn⟩
  | null => exact ⟨fun n hn => Option.noConfusion hn, fun n hn => Option.noConfusion hn⟩
  | str s =>
    constructor
    · intro n hn
      simp only [sqlParam, Option.some.injEq] at hn
      subst hn
      exact hname s rfl
    · intro n hn
      simp only [sqlParam, Option.some.injEq] at hn
      subst hn
      exact hnul s rfl

/-- C20, as stated, fails: with a name of 101 characters and a new email, register is answered
with 500 and creates no user; with the same name and the email of Ann, it is answered with 500
and not with 400; so it is with a name that holds U+0000; and a request whose body is above
100 kB is answered with 413. -/
theorem signup_long_name_refused :
    (handle (ServerEnv.sample 30) Db.sample ⟨none, .unguarded (.signup
        (.str (List.replicate 101 'x')) (.str "eve@x.io".toList) (.str "pw".toList))⟩).response =
      ⟨500, .failure (.db (.stringTooLong 100))⟩ ∧
    (handle (ServerEnv.sample 30) Db.sample ⟨none, .unguarded (.signup
        (.str (List.replicate 101 'x')) (.str "eve@x.io".toList) (.str "pw".toList))⟩).db.users =
      Db.sample.users ∧
    (∀ r ∈ Db.sample.users, r.email ≠ "eve@x.io".toList) ∧
    (handle (ServerEnv.sample 30) Db.sample ⟨none, .unguarded (.signup
        (.str (List.replicate 101 'x')) (.str "ann@x.io".toList) (.str "pw".toList))⟩).response =
      ⟨500, .failure (.db (.stringTooLong 100))⟩ ∧
    (app (ServerEnv.sample 30) Db.sample ⟨60, ⟨none, .unguarded (.signup
        (.str ['E', Char.ofNat 0]) (.str "ann@x.io".toList) (.str "pw".toList))⟩⟩).response =
      ⟨500, .failure (.db .invalidByteSequence)⟩ ∧
    (app (ServerEnv.sample 30) Db.sample ⟨102401, ⟨none, .unguarded (.signup
        (.str "Eve".toList) (.str "eve@x.io".toList) (.str "pw".toList))⟩⟩).response =
      ⟨413, .errorPage "request entity too large"⟩ ∧
    (app (ServerEnv.sample 30) { Db.sample with users_id_seq := 2147483647 }
      ⟨60, ⟨none, .unguarded (.signup
        (.str "Ann".toList) (.str "ann@x.io".toList) (.str "pw".toList))⟩⟩).response =
      ⟨500, .failure (.db .sequenceExhausted)⟩ := by
  decide

/-- C20, amended: for every request within the body limit, with a name of at most 100
characters (or no name), an email of at most 255 characters, neither holding U+0000, and a
password, while the sequence of the ids is not exhausted: when a user with that email exists,
register is answered with 400 "Email already exists", issues no token and leaves the users
unchanged; when none exists, it creates exactly one user with that email and returns a token
issued for the id of the new user, an id that no other user has. -/
theorem signup_duplicate_or_created (env : ServerEnv) (db : Db)
    (authorization : Option JsString) (name : JsOpt) (e pw : JsString) (n : Nat)
    (hname : ∀ s, name = .str s → s.length ≤ 100) (hemail : e.length ≤ 255)
    (hbody : n ≤ bodyLimit) (hnameNul : ∀ s, name = .str s → hasNul s = false)
    (hemailNul : hasNul e = false) (hseq : db.users_id_seq < int4Max) :
    ((∃ r ∈ db.users, r.email = e) →
      (app env db ⟨n, ⟨authorization,
        .unguarded (.signup name (.str e) (.str pw))⟩⟩).response =
        ⟨400, .error "Email already exists"⟩ ∧
      (app env db ⟨n, ⟨authorization,
        .unguarded (.signup name (.str e) (.str pw))⟩⟩).db.users = db.users ∧
      ∀ id, ServerEvent.jwtSign id ∉
        (app env db ⟨n, ⟨authorization,
          .unguarded (.signup name (.str e) (.str pw))⟩⟩).events) ∧
    ((∀ r ∈ db.users, r.email ≠ e) →
      ∃ row : UserRow,
        (app env db ⟨n, ⟨authorization,
          .unguarded (.signup name (.str e) (.str pw))⟩⟩).response =
          ⟨200, .session (env.jwtSign row.id) row.id row.name e none⟩ ∧
        (app env db ⟨n, ⟨authorization,
          .unguarded (.signup name (.str e) (.str pw))⟩⟩).db.users = db.users ++ [row] ∧
        row.email = e ∧ row.name = sqlParam name ∧ row.password_hash = env.bcryptHash pw ∧
        ((app env db ⟨n, ⟨authorization, .unguarded (.signup name (.str e)
          (.str pw))⟩⟩).db.users.filter fun r => r.email == e) = [row] ∧
        (db.WellFormed → ∀ r ∈ db.users, r.id ≠ row.id)) := by
  obtain ⟨hname', hnameNul'⟩ := sqlParam_facts hname hnameNul
  simp only [app_of_le env db n _ hbody]
  constructor
  · intro hold
    have hins := insertUser_duplicate env.now db (sqlParam name) e (env.bcryptHash pw) hname'
      hemail hnameNul' hemailNul hseq hold
    simp only [handle, runPublic, signup, sqlParam]
    simp only [sqlParam] at hins
    rw [hins]
    simp [DbError.code]
  · intro hnew
    have hins := insertUser_ok env.now db (sqlParam name) e (env.bcryptHash pw) hname' hemail
      hnameNul' hemailNul hseq hnew
    refine ⟨{ id := db.users_id_seq + 1, name := sqlParam name, email := e,
              password_hash := env.bcryptHash pw, created_at := env.now }, ?_, ?_, rfl, rfl, rfl,
      ?_, ?_⟩
    · simp only [handle, runPublic, signup, sqlParam]
      simp only [sqlParam] at hins
      rw [hins]
    · simp only [handle, runPublic, signup, sqlParam]
      simp only [sqlParam] at hins
      rw [hins]
    · simp only [handle, runPublic, signup, sqlParam]
      simp only [sqlParam] at hins
      rw [hins]
      have h0 : (db.users.filter fun r => r.email == e) = [] := by
        rw [List.filter_eq_nil_iff]
        intro r hr
        simpa using hnew r hr
      simp [List.filter_append, h0]
    · intro hwf r hr h
      have := hwf.1 r hr
      simp only at h
      omega

/-- C20, amended, on the sample database: a signup with the email of Ann, and a signup with a
new email. -/
theorem signup_duplicate_or_created_witness :
    (∃ r ∈ Db.sample.users, r.email = "ann@x.io".toList) ∧
    (∀ r ∈ Db.sample.users, r.email ≠ "eve@x.io".toList) ∧
    (app (ServerEnv.sample 30) Db.sample ⟨60, ⟨none, .unguarded (.signup (.str "Ann".toList)
        (.str "ann@x.io".toList) (.str "pw".toList))⟩⟩).response =
      ⟨400, .error "Email already exists"⟩ ∧
    (∃ row : UserRow,
      (app (ServerEnv.sample 30) Db.sample ⟨60, ⟨none, .unguarded (.signup (.str "Eve".toList)
          (.str "eve@x.io".toList) (.str "pw".toList))⟩⟩).response =
        ⟨200, .session ((ServerEnv.sample 30).jwtSign row.id) row.id row.name
          "eve@x.io".toList none⟩ ∧
      (app (ServerEnv.sample 30) Db.sample ⟨60, ⟨none, .unguarded (.signup (.str "Eve".toList)
          (.str "eve@x.io".toList) (.str "pw".toList))⟩⟩).db.users = Db.sample.users ++ [row] ∧
      row.email = "eve@x.io".toList ∧ row.name = sqlParam (.str "Eve".toList) ∧
      row.password_hash = (ServerEnv.sample 30).bcryptHash "pw".toList ∧
      ((app (ServerEnv.sample 30) Db.sample ⟨60, ⟨none, .unguarded (.signup (.str "Eve".toList)
          (.str "eve@x.io".toList) (.str "pw".toList))⟩⟩).db.users.filter
        fun r => r.email == "eve@x.io".toList) = [row] ∧
      (Db.sample.WellFormed → ∀ r ∈ Db.sample.users, r.id ≠ row.id)) ∧
    (app (ServerEnv.sample 30) Db.sample ⟨60, ⟨none, .unguarded (.signup (.str "Eve".toList)
        (.str "eve@x.io".toList) (.str "pw".toList))⟩⟩).response =
      ⟨200, .session "h.ttt.s".toList 3 (some "Eve".toList) "eve@x.io".toList none⟩ :=
  ⟨by decide, by decide,
    ((signup_duplicate_or_created (ServerEnv.sample 30) Db.sample none (.str "Ann".toList)
      "ann@x.io".toList "pw".toList 60 (by intro s h; cases h; decide) (by decide) (by decide)
      (by intro s h; cases h; decide) (by decide) (by decide)).1 (by decide)).1,
    (signup_duplicate_or_created (ServerEnv.sample 30) Db.sample none (.str "Eve".toList)
      "eve@x.io".toList "pw".toList 60 (by intro s h; cases h; decide) (by decide) (by decide)
      (by intro s h; cases h; decide) (by decide) (by decide)).2 (by decide),
    by decide⟩

/-! ## The invariants of the schema -/

/-- The three outcomes of an insert into `users`: a refusal before the sequence is touched, a
refusal after it has advanced, a new row. -/
theorem insertUser_spec (now : Nat) (db : Db) (name email : Option JsString) (hash : JsString) :
    (∃ e, insertUser now db name email hash = (.error e, db)) ∨
    (∃ e, insertUser now db name email hash =
        (.error e, { db with users_id_seq := db.users_id_seq + 1 }) ∧
      db.users_id_seq < int4Max) ∨
    (∃ row, insertUser now db name email hash =
        (.ok row, { db with users_id_seq := db.users_id_seq + 1, users := db.users ++ [row] }) ∧
      row.id = db.users_id_seq + 1 ∧ (∀ r ∈ db.users, r.email ≠ row.email) ∧
      db.users_id_seq < int4Max) := by
  cases h0 : textParam name with
  | error e => exact Or.inl ⟨e, by simp [insertUser, h0, bind, Except.bind]⟩
  | ok n0 =>
    cases h0' : textParam email with
    | error e => exact Or.inl ⟨e, by simp [insertUser, h0, h0', bind, Except.bind]⟩
    | ok e0 =>
      cases h1 : varcharNullable 100 n0 with
      | error e => exact Or.inl ⟨e, by simp [insertUser, h0, h0', h1, bind, Except.bind]⟩
      | ok n =>
        cases h2 : varcharNullable 255 e0 with
        | error e =>
          exact Or.inl ⟨e, by simp [insertUser, h0, h0', h1, h2, bind, Except.bind]⟩
        | ok em =>
          by_cases hseq : db.users_id_seq < int4Max
          · cases em with
            | none =>
              exact Or.inr (Or.inl ⟨.notNull "email", by
                simp [insertUser, h0, h0', h1, h2, nextval, hseq, notNull, bind, Except.bind,
                  pure, Except.pure], hseq⟩)
            | some e =>
              cases h3 : db.users.any (fun r => r.email == e) with
              | true =>
                exact Or.inr (Or.inl ⟨.uniqueViolation "users_email_key", by
                  simp [insertUser, h0, h0', h1, h2, nextval, hseq, h3, notNull, bind,
                    Except.bind, pure, Except.pure, throw, throwThe, MonadExceptOf.throw],
                  hseq⟩)
              | false =>
                refine Or.inr (Or.inr
                  ⟨{ id := db.users_id_seq + 1, name := n, email := e, password_hash := hash,
                     created_at := now }, ?_, rfl, ?_, hseq⟩)
                · simp [insertUser, h0, h0', h1, h2, nextval, hseq, h3, notNull, bind,
                    Except.bind, pure, Except.pure]
                · intro r hr
                  have := List.any_eq_false.1 h3 r hr
                  simpa using this
          · exact Or.inl ⟨.sequenceExhausted, by
              simp [insertUser, h0, h0', h1, h2, nextval, hseq, bind, Except.bind, pure,
                Except.pure]⟩

/-- The three outcomes of an insert into `user_memory`. -/
theorem insertMemory_spec (now : Nat) (db : Db) (u : Nat) (category : JsString)
    (content : Option JsString) :
    (∃ e, insertMemory now db u category content = (.error e, db)) ∨
    (∃ e, insertMemory now db u category content =
        (.error e, { db with user_memory_id_seq := db.user_memory_id_seq + 1 }) ∧
      db.user_memory_id_seq < int4Max) ∨
    (∃ row, insertMemory now db u category content =
        (.ok row, { db with user_memory_id_seq := db.user_memory_id_seq + 1,
                            user_memory := db.user_memory ++ [row] }) ∧
      row.id = db.user_memory_id_seq + 1 ∧ db.user_memory_id_seq < int4Max) := by
  cases h0 : textParam (some category) with
  | error e => exact Or.inl ⟨e, by simp [insertMemory, h0, bind, Except.bind]⟩
  | ok c0 =>
    cases h0' : textParam content with
    | error e => exact Or.inl ⟨e, by simp [insertMemory, h0, h0', bind, Except.bind]⟩
    | ok t0 =>
      cases h1 : varchar 50 category with
      | error e => exact Or.inl ⟨e, by simp [insertMemory, h0, h0', h1, bind, Except.bind]⟩
      | ok c =>
        by_cases hseq : db.user_memory_id_seq < int4Max
        · cases t0 with
          | none =>
            exact Or.inr (Or.inl ⟨.notNull "content", by
              simp [insertMemory, h0, h0', h1, nextval, hseq, notNull, bind, Except.bind, pure,
                Except.pure], hseq⟩)
          | some t =>
            cases h3 : db.users.any (fun r => r.id == u) with
            | false =>
              exact Or.inr (Or.inl ⟨.foreignKeyViolation "user_memory_user_id_fkey", by
                simp [insertMemory, h0, h0', h1, nextval, hseq, h3, notNull, bind, Except.bind,
                  pure, Except.pure, throw, throwThe, MonadExceptOf.throw], hseq⟩)
            | true =>
              exact Or.inr (Or.inr
                ⟨{ id := db.user_memory_id_seq + 1, user_id := u, category := c, content := t,
                   created_at := now },
                  by simp [insertMemory, h0, h0', h1, nextval, hseq, h3, notNull, bind,
                    Except.bind, pure, Except.pure], rfl, hseq⟩)
        · exact Or.inl ⟨.sequenceExhausted, by
            simp [insertMemory, h0, h0', h1, nextval, hseq, bind, Except.bind, pure,
              Except.pure]⟩

/-- The three outcomes of an insert into `messages`. -/
theorem insertMessage_spec (now : Nat) (db : Db) (u : Nat) (role content : Option JsString) :
    (∃ e, insertMessage now db u role content = (.error e, db)) ∨
    (∃ e, insertMessage now db u role content =
        (.error e, { db with messages_id_seq := db.messages_id_seq + 1 }) ∧
      db.messages_id_seq < int4Max) ∨
    (∃ row, insertMessage now db u role content =
        (.ok row, { db with messages_id_seq := db.messages_id_seq + 1,
                            messages := db.messages ++ [row] }) ∧
      row.id = db.messages_id_seq + 1 ∧ db.messages_id_seq < int4Max ∧
      varcharNullable 20 role = .ok (some row.role)) := by
  cases h0 : textParam role with
  | error e => exact Or.inl ⟨e, by simp [insertMessage, h0, bind, Except.bind]⟩
  | ok r0 =>
    have hr0 : r0 = role := by
      cases role with
      | none => simp [textParam] at h0; exact h0.symm
      | some s =>
        simp only [textParam] at h0
        split at h0
        · cases h0
        · simpa using h0.symm
    subst hr0
    cases h0' : textParam content with
    | error e => exact Or.inl ⟨e, by simp [insertMessage, h0, h0', bind, Except.bind]⟩
    | ok t0 =>
      cases h1 : varcharNullable 20 r0 with
      | error e => exact Or.inl ⟨e, by simp [insertMessage, h0, h0', h1, bind, Except.bind]⟩
      | ok ro =>
        by_cases hseq : db.messages_id_seq < int4Max
        · cases ro with
          | none =>
            exact Or.inr (Or.inl ⟨.notNull "role", by
              simp [insertMessage, h0, h0', h1, nextval, hseq, notNull, bind, Except.bind, pure,
                Except.pure], hseq⟩)
          | some ro =>
            cases t0 with
            | none =>
              exact Or.inr (Or.inl ⟨.notNull "content", by
                simp [insertMessage, h0, h0', h1, nextval, hseq, notNull, bind, Except.bind,
                  pure, Except.pure], hseq⟩)
            | some t =>
              cases h3 : db.users.any (fun r => r.id == u) with
              | false =>
                exact Or.inr (Or.inl ⟨.foreignKeyViolation "messages_user_id_fkey", by
                  simp [insertMessage, h0, h0', h1, nextval, hseq, h3, notNull, bind,
                    Except.bind, pure, Except.pure, throw, throwThe, MonadExceptOf.throw],
                  hseq⟩)
              | true =>
                exact Or.inr (Or.inr
                  ⟨{ id := db.messages_id_seq + 1, user_id := u, role := ro, content := t,
                     created_at := now },
                    by simp [insertMessage, h0, h0', h1, nextval, hseq, h3, notNull, bind,
                      Except.bind, pure, Except.pure], rfl, hseq, rfl⟩)
        · exact Or.inl ⟨.sequenceExhausted, by
            simp [insertMessage, h0, h0', h1, nextval, hseq, bind, Except.bind, pure,
              Except.pure]⟩

theorem nodup_map_append_fresh {α : Type} (f : α → Nat) (l : List α) (row : α) (seq : Nat)
    (hb : ∀ r ∈ l, f r ≤ seq) (hn : (l.map f).Nodup) (hrow : f row = seq + 1) :
    (∀ r ∈ l ++ [row], f r ≤ seq + 1) ∧ ((l ++ [row]).map f).Nodup := by
  constructor
  · intro r hr
    rcases List.mem_append.1 hr with h | h
    · exact Nat.le_succ_of_le (hb r h)
    · rw [List.mem_singleton.1 h, hrow]
  · rw [List.map_append, List.nodup_append]
    refine ⟨hn, by simp, ?_⟩
    intro a ha hb'
    simp only [List.map_cons, List.map_nil, List.mem_singleton] at hb'
    obtain ⟨r, hr, rfl⟩ := List.mem_map.1 ha
    have := hb r hr
    omega

theorem nodup_map_filter {α β : Type} (f : α → β) (p : α → Bool) (l : List α)
    (hn : (l.map f).Nodup) : ((l.filter p).map f).Nodup :=
  hn.sublist ((List.filter_sublist l).map f)

theorem wellFormed_insertUser {db : Db} (hwf : db.WellFormed) (now : Nat)
    (name email : Option JsString) (hash : JsString) :
    (insertUser now db name email hash).2.WellFormed := by
  obtain ⟨h1, h2, h3, h4, h5, h6, h7⟩ := hwf
  rcases insertUser_spec now db name email hash with
    ⟨e, he⟩ | ⟨e, he, _⟩ | ⟨row, hrow, hid, hnew, _⟩
  · rw [he]
    exact ⟨h1, h2, h3, h4, h5, h6, h7⟩
  · rw [he]
    exact ⟨fun r hr => Nat.le_succ_of_le (h1 r hr), h2, h3, h4, h5, h6, h7⟩
  · rw [hrow]
    obtain ⟨hb, hn⟩ := nodup_map_append_fresh (fun r : UserRow => r.id) db.users row
      db.users_id_seq h1 h2 hid
    refine ⟨hb, hn, ?_, h4, h5, h6, h7⟩
    show ((db.users ++ [row]).map fun r => r.email).Nodup
    rw [List.map_append, List.nodup_append]
    refine ⟨h3, by simp, ?_⟩
    intro a ha hb'
    simp only [List.map_cons, List.map_nil, List.mem_singleton] at hb'
    obtain ⟨r, hr, rfl⟩ := List.mem_map.1 ha
    exact hnew r hr hb'

theorem wellFormed_insertMemory {db : Db} (hwf : db.WellFormed) (now u : Nat)
    (category : JsString) (content : Option JsString) :
    (insertMemory now db u category content).2.WellFormed := by
  obtain ⟨h1, h2, h3, h4, h5, h6, h7⟩ := hwf
  rcases insertMemory_spec now db u category content with
    ⟨e, he⟩ | ⟨e, he, _⟩ | ⟨row, hrow, hid, _⟩
  · rw [he]
    exact ⟨h1, h2, h3, h4, h5, h6, h7⟩
  · rw [he]
    exact ⟨h1, h2, h3, fun r hr => Nat.le_succ_of_le (h4 r hr), h5, h6, h7⟩
  · rw [hrow]
    obtain ⟨hb, hn⟩ := nodup_map_append_fresh (fun r : MemoryRow => r.id) db.user_memory row
      db.user_memory_id_seq h4 h5 hid
    exact ⟨h1, h2, h3, hb, hn, h6, h7⟩

theorem wellFormed_insertMessage {db : Db} (hwf : db.WellFormed) (now u : Nat)
    (role content : Option JsString) :
    (insertMessage now db u role content).2.WellFormed := by
  obtain ⟨h1, h2, h3, h4, h5, h6, h7⟩ := hwf
  rcases insertMessage_spec now db u role content with
    ⟨e, he⟩ | ⟨e, he, _⟩ | ⟨row, hrow, hid, _, _⟩
  · rw [he]
    exact ⟨h1, h2, h3, h4, h5, h6, h7⟩
  · rw [he]
    exact ⟨h1, h2, h3, h4, h5, fun r hr => Nat.le_succ_of_le (h6 r hr), h7⟩
  · rw [hrow]
    obtain ⟨hb, hn⟩ := nodup_map_append_fresh (fun r : MessageRow => r.id) db.messages row
      db.messages_id_seq h6 h7 hid
    exact ⟨h1, h2, h3, h4, h5, hb, hn⟩

theorem wellFormed_filter_memory {db : Db} (hwf : db.WellFormed) (p : MemoryRow → Bool) :
    Db.WellFormed { db with user_memory := db.user_memory.filter p } := by
  obtain ⟨h1, h2, h3, h4, h5, h6, h7⟩ := hwf
  exact ⟨h1, h2, h3, fun r hr => h4 r (List.mem_of_mem_filter hr),
    nodup_map_filter _ p _ h5, h6, h7⟩

theorem wellFormed_filter_messages {db : Db} (hwf : db.WellFormed) (p : MessageRow → Bool) :
    Db.WellFormed { db with messages := db.messages.filter p } := by
  obtain ⟨h1, h2, h3, h4, h5, h6, h7⟩ := hwf
  exact ⟨h1, h2, h3, h4, h5, fun r hr => h6 r (List.mem_of_mem_filter hr),
    nodup_map_filter _ p _ h7⟩

/-- The database after `initDb` is well-formed. -/
theorem wellFormed_empty : Db.empty.WellFormed := by
  refine ⟨?_, ?_, ?_, ?_, ?_, ?_, ?_⟩ <;> simp [Db.empty]

/-- A protected handler keeps the database well-formed. -/
theorem wellFormed_runProtected {db : Db} (hwf : db.WellFormed) (r : ProtectedRoute)
    (env : ServerEnv) (userId : Nat) : (runProtected r env db userId).db.WellFormed := by
  cases r with
  | memoryList => exact hwf
  | memoryAdd category content =>
    have h := wellFormed_insertMemory hwf env.now userId (category.orElse "General".toList)
      (sqlParam content)
    simp only [runProtected, memoryAdd]
    rcases hres : insertMemory env.now db userId (category.orElse "General".toList)
      (sqlParam content) with ⟨res, db'⟩
    rw [hres] at h
    cases res <;> exact h
  | memoryRemove id =>
    simp only [runProtected, memoryRemove, deleteMemory]
    split
    · exact hwf
    · split <;> exact wellFormed_filter_memory hwf _
  | memoryClear => exact wellFormed_filter_memory hwf _
  | chatList => exact hwf
  | chatAdd role content =>
    have h := wellFormed_insertMessage hwf env.now userId (sqlParam role) (sqlParam content)
    simp only [runProtected, chatAdd]
    rcases hres : insertMessage env.now db userId (sqlParam role) (sqlParam content) with
      ⟨res, db'⟩
    rw [hres] at h
    cases res <;> exact h
  | chatClear => exact wellFormed_filter_messages hwf _

/-- Every request keeps the database well-formed: the invariants hold in every state that the
application reaches from the empty database. -/
theorem wellFormed_handle {db : Db} (hwf : db.WellFormed) (env : ServerEnv) (req : Request) :
    (handle env db req).db.WellFormed := by
  obtain ⟨authorization, route⟩ := req
  cases route with
  | guarded r =>
    simp only [handle, verifyToken]
    split
    · exact hwf
    · split
      · exact hwf
      · exact wellFormed_runProtected hwf r env _
  | unguarded r =>
    cases r with
    | signup name email password =>
      cases password with
      | undefined => exact hwf
      | null => exact hwf
      | str pw =>
        simp only [handle, runPublic, signup]
        have h := wellFormed_insertUser hwf env.now (sqlParam name) (sqlParam email)
          (env.bcryptHash pw)
        rcases hres : insertUser env.now db (sqlParam name) (sqlParam email)
          (env.bcryptHash pw) with ⟨res, db'⟩
        rw [hres] at h
        cases res <;> exact h
    | login email password =>
      simp only [handle, runPublic, login]
      split
      · exact hwf
      · exact hwf
      · split
        · split <;> exact hwf
        · exact hwf
    | google token =>
      simp only [handle, runPublic, googleLogin]
      cases env.googleConfigured with
      | false => exact hwf
      | true =>
        simp only [Bool.not_true, Bool.false_eq_true, if_false]
        cases env.googleVerify token with
        | error e => exact hwf
        | ok payload =>
          dsimp only
          cases selectUserByEmail db (sqlParam payload.email) with
          | error e => exact hwf
          | ok found =>
          cases found with
          | some user => exact hwf
          | none =>
            have h := wellFormed_insertUser hwf env.now (sqlParam payload.name)
              (sqlParam payload.email) (env.bcryptHash env.randomPassword)
            dsimp only
            rcases hres : insertUser env.now db (sqlParam payload.name)
              (sqlParam payload.email) (env.bcryptHash env.randomPassword) with ⟨res, db'⟩
            rw [hres] at h
            cases res <;> exact h

/-! ## The last claims: the sign-in routes, the Conversation Log, the client -/

/-- A greedy star fails only when the rest fails after every run of accepted characters. -/
theorem starGreedy_none {a : CharSet} {k : JsString → Option MatchState} (v : JsString)
    {y : JsString} (h : starGreedy a k (v ++ y) = none) (hv : ∀ c ∈ v, a.test c = true) :
    k y = none := by
  cases hk : k y with
  | none => rfl
  | some r =>
    have := starGreedy_isSome (a := a) (k := k) v hv (by rw [hk]; rfl)
    simp [h] at this

/-- A greedy star takes the longest run after which the rest matches: the rest fails after
every longer run of accepted characters. -/
theorem starGreedy_some_max {a : CharSet} {k : JsString → Option MatchState} :
    ∀ {x : JsString} {r : MatchState}, starGreedy a k x = some r →
    ∃ u y r', x = u ++ y ∧ (∀ c ∈ u, a.test c = true) ∧ k y = some r' ∧
      r.matched = u ++ r'.matched ∧ r.captures = r'.captures ∧
      ∀ v y', v ≠ [] → (∀ c ∈ v, a.test c = true) → y = v ++ y' → k y' = none := by
  intro x
  induction x with
  | nil =>
    intro r h
    refine ⟨[], [], r, rfl, by simp, by simpa [starGreedy] using h, rfl, rfl, ?_⟩
    intro v y' hv _ hy
    exact absurd (List.append_eq_nil.1 hy.symm).1 hv
  | cons c cs ih =>
    intro r h
    simp only [starGreedy] at h
    split at h
    · rename_i ht
      split at h
      · rename_i r0 hr0
        obtain ⟨u, y, r', hx, hu, hk, hm, hc, hmax⟩ := ih hr0
        simp at h
        subst h
        refine ⟨c :: u, y, r', by simp [hx], ?_, hk, by simp [MatchState.push, hm],
          by simp [MatchState.push, hc], hmax⟩
        intro d hd
        rcases List.mem_cons.1 hd with rfl | hd
        · exact ht
        · exact hu d hd
      · rename_i hnone
        refine ⟨[], c :: cs, r, rfl, by simp, h, rfl, rfl, ?_⟩
        intro v y' hv hall hy
        cases v with
        | nil => exact absurd rfl hv
        | cons d v' =>
          simp only [List.cons_append, List.cons.injEq] at hy
          have hcs : starGreedy a k (v' ++ y') = none := by rw [← hy.2]; exact hnone
          exact starGreedy_none v' hcs (fun e he => hall e (List.mem_cons_of_mem _ he))
    · rename_i ht
      refine ⟨[], c :: cs, r, rfl, by simp, h, rfl, rfl, ?_⟩
      intro v y' hv hall hy
      cases v with
      | nil => exact absurd rfl hv
      | cons d v' =>
        simp only [List.cons_append, List.cons.injEq] at hy
        have := hall d (List.mem_cons_self _ _)
        rw [← hy.1] at this
        exact absurd this ht

theorem matchHere_star_max {a : CharSet} {ts : List Term} {x : JsString} {r : MatchState}
    (h : matchHere (.star a :: ts) x = some r) :
    ∃ u y r', x = u ++ y ∧ (∀ c ∈ u, a.test c = true) ∧ matchHere ts y = some r' ∧
      r.matched = u ++ r'.matched ∧ r.captures = r'.captures ∧
      ∀ v y', v ≠ [] → (∀ c ∈ v, a.test c = true) → y = v ++ y' → matchHere ts y' = none := by
  simp only [matchHere] at h
  exact starGreedy_some_max h

/-- A match of a sequence of terms, seen from the input: the input starts with a word of the
pattern. -/
theorem matchHere_lang {pat : List Term} {x : JsString} {r : MatchState}
    (h : matchHere pat x = some r) : ∃ w rest, x = w ++ rest ∧ Lang pat w := by
  obtain ⟨rest, hx, hl⟩ := matchHere_sound pat h
  exact ⟨r.matched, rest, hx, hl⟩

/-- The edges of the captures of the directive pattern at the start of the input: white space
is taken by the runs before the two groups and by the run after the first, never by the
groups themselves at these ends; the second group runs up to the closing bracket. -/
theorem matchHere_memoryPattern_edges {x : JsString} {r : MatchState}
    (h : matchHere memoryPattern x = some r) :
    ∃ cat content front,
      r.captures = [cat, content] ∧ r.matched = front ++ (content ++ [']']) ∧
      (∀ c t, cat = c :: t → isWhiteSpace c = false) ∧
      (∀ t c, cat = t ++ [c] → isWhiteSpace c = false) ∧
      (∀ c t, content = c :: t → isWhiteSpace c = false) ∧
      (∀ c ∈ content, isLineTerminator c = false) := by
  unfold memoryPattern at h
  obtain ⟨c1, y1, r1, rfl, t1, h1, m1, k1⟩ := matchHere_one h
  obtain ⟨c2, y2, r2, rfl, t2, h2, m2, k2⟩ := matchHere_one h1
  obtain ⟨c3, y3, r3, rfl, t3, h3, m3, k3⟩ := matchHere_one h2
  obtain ⟨c4, y4, r4, rfl, t4, h4, m4, k4⟩ := matchHere_one h3
  obtain ⟨c5, y5, r5, rfl, t5, h5, m5, k5⟩ := matchHere_one h4
  obtain ⟨c6, y6, r6, rfl, t6, h6, m6, k6⟩ := matchHere_one h5
  obtain ⟨c7, y7, r7, rfl, t7, h7, m7, k7⟩ := matchHere_one h6
  obtain ⟨c8, y8, r8, rfl, t8, h8, m8, k8⟩ := matchHere_one h7
  obtain ⟨w1, y9, r9, rfl, hw1, h9, m9, k9, hmax1⟩ := matchHere_star_max h8
  obtain ⟨cat, y10, r10, rfl, hcat, h10, m10, k10, hmin1⟩ := matchHere_capLazy h9
  obtain ⟨w2, y11, r11, hy10, hw2, h11, m11, k11⟩ := matchHere_star h10
  obtain ⟨c12, y12, r12, hy11, t12, h12, m12, k12⟩ := matchHere_one h11
  obtain ⟨w3, y13, r13, hy12, hw3, h13, m13, k13, hmax3⟩ := matchHere_star_max h12
  obtain ⟨content, y14, r14, hy13, hcontent, h14, m14, k14, hmin⟩ := matchHere_capLazy h13
  obtain ⟨c15, y15, r15, hy14, t15, h15, m15, k15⟩ := matchHere_one h14
  have e15 := test_lit t15
  subst e15
  have hr15 : r15 = { matched := [], captures := [] } := by
    simpa [matchHere] using h15.symm
  obtain ⟨word, rest, hword, hlang⟩ := matchHere_lang h10
  refine ⟨cat, content,
    c1 :: c2 :: c3 :: c4 :: c5 :: c6 :: c7 :: c8 :: (w1 ++ (cat ++ (w2 ++ (c12 :: w3)))),
    ?_, ?_, ?_, ?_, ?_, ?_⟩
  · rw [k1, k2, k3, k4, k5, k6, k7, k8, k9, k10, k11, k12, k13, k14, k15, hr15]
  · rw [m1, m2, m3, m4, m5, m6, m7, m8, m9, m10, m11, m12, m13, m14, m15, hr15]
    simp
  · intro c t hc
    cases hws' : isWhiteSpace c with
    | false => rfl
    | true =>
      subst hc
      have hnone := hmax1 [c] (t ++ y10) (by simp) (by simpa [CharSet.test] using hws') (by simp)
      have hsome := matchHere_complete
        (.capLazy .dot :: [.star .space, .one (.lit '|'), .star .space, .capLazy .dot,
          .one (.lit ']')]) (w := t ++ word)
        ⟨t, word, rfl, fun d hd => hcat d (List.mem_cons_of_mem _ hd), hlang⟩ rest
      rw [List.append_assoc, ← hword, hnone] at hsome
      cases hsome
  · intro t c hc
    cases hws' : isWhiteSpace c with
    | false => rfl
    | true =>
      have hnone := hmin1 t [c] hc (by simp)
      obtain ⟨u, v, huv, hu, hv⟩ := hlang
      have hsome := matchHere_complete
        [.star .space, .one (.lit '|'), .star .space, .capLazy .dot, .one (.lit ']')]
        (w := c :: word)
        ⟨c :: u, v, by simp [huv], by
          intro d hd
          rcases List.mem_cons.1 hd with rfl | hd
          · simpa [CharSet.test] using hws'
          · exact hu d hd, hv⟩ rest
      rw [List.cons_append, ← hword] at hsome
      simp only [List.singleton_append] at hnone
      rw [hnone] at hsome
      cases hsome
  · intro c t hc
    cases hws' : isWhiteSpace c with
    | false => rfl
    | true =>
      subst hc
      rw [hy14] at hy13
      have hnone := hmax3 [c] (t ++ ']' :: y15) (by simp) (by simpa [CharSet.test] using hws')
        (by simp [hy13])
      have hsome := matchHere_complete [.capLazy .dot, .one (.lit ']')] (w := t ++ [']'])
        ⟨t, [']'], rfl, fun d hd => hcontent d (List.mem_cons_of_mem _ hd),
          ⟨']', [], rfl, by simp [CharSet.test], rfl⟩⟩ y15
      rw [List.append_assoc, List.singleton_append, hnone] at hsome
      cases hsome
  · intro c hc
    simpa [CharSet.test] using hcontent c hc

/-- C28: for every raw model output in which the directive pattern matches, the captured
category neither starts nor ends with white space, the captured content does not start with
white space and holds no line terminator, and the content runs up to the closing bracket of
the match, white space before the bracket included. -/
theorem captures_trimmed_except_content_end (rc : JsString) (m : RegExpMatch)
    (h : memoryMatch rc = some m) :
    ∃ category content front,
      m.groups = [category, content] ∧ m.whole = front ++ (content ++ [']']) ∧
      (∀ c, category.head? = some c → isWhiteSpace c = false) ∧
      (∀ c, category.getLast? = some c → isWhiteSpace c = false) ∧
      (∀ c, content.head? = some c → isWhiteSpace c = false) ∧
      (∀ c ∈ content, isLineTerminator c = false) := by
  obtain ⟨r, s, _, hr, hw, hg, _⟩ := regExpExec_some h
  obtain ⟨cat, content, front, hc, hm, h1, h2, h3, h4⟩ := matchHere_memoryPattern_edges hr
  refine ⟨cat, content, front, hg ▸ hc, hw ▸ hm, ?_, ?_, ?_, h4⟩
  · intro c hhead
    cases cat with
    | nil => cases hhead
    | cons d t =>
      simp only [List.head?_cons, Option.some.injEq] at hhead
      subst hhead
      exact h1 d t rfl
  · intro c hlast
    obtain ⟨t, ht⟩ := List.getLast?_eq_some_iff.1 hlast
    exact h2 t c ht
  · intro c hhead
    cases content with
    | nil => cases hhead
    | cons d t =>
      simp only [List.head?_cons, Option.some.injEq] at hhead
      subst hhead
      exact h3 d t rfl

/-- C28 on the example of the claim: in "[MEMORY: a | b ]" the category is "a" and the content
is "b " with its blank. -/
theorem captures_trimmed_except_content_end_witness :
    memoryMatch "[MEMORY: a | b ]".toList =
      some { before := [], whole := "[MEMORY: a | b ]".toList,
             groups := ["a".toList, "b ".toList] } ∧
    ∃ category content front,
      ["a".toList, "b ".toList] = [category, content] ∧
      "[MEMORY: a | b ]".toList = front ++ (content ++ [']']) ∧
      (∀ c, category.head? = some c → isWhiteSpace c = false) ∧
      (∀ c, category.getLast? = some c → isWhiteSpace c = false) ∧
      (∀ c, content.head? = some c → isWhiteSpace c = false) ∧
      (∀ c ∈ content, isLineTerminator c = false) :=
  ⟨by decide,
    captures_trimmed_except_content_end "[MEMORY: a | b ]".toList
      { before := [], whole := "[MEMORY: a | b ]".toList,
        groups := ["a".toList, "b ".toList] } (by decide)⟩

theorem completionCalls_append (es fs : List Event) :
    completionCalls (es ++ fs) = completionCalls es ++ completionCalls fs := by
  induction es with
  | nil => rfl
  | cons e es ih => cases e <;> simp [completionCalls, ih]

/-- The function `getUserMemory` sends no completion request. -/
theorem getUserMemory_completionCalls (w : World) :
    completionCalls (getUserMemory w).events = [] := by
  obtain ⟨token, memoryGet, completion, memoryPost⟩ := w
  cases htok : tokenMissing token with
  | true =>
    simp [getUserMemory, bind, pure, Run.bind, Run.pure, emit, tryCatch, htok, completionCalls]
  | false =>
    cases memoryGet with
    | rejected e =>
      simp [getUserMemory, bind, pure, Run.bind, Run.pure, emit, tryCatch, htok, fetch,
        completionCalls]
    | responded status json =>
      cases hok : responseOk status with
      | false =>
        simp [getUserMemory, bind, pure, Run.bind, Run.pure, emit, tryCatch, htok, fetch, hok,
          completionCalls]
      | true =>
        cases json with
        | ok rows =>
          simp [getUserMemory, bind, pure, Run.bind, Run.pure, emit, tryCatch, htok, fetch, hok,
            completionCalls]
        | error e =>
          simp [getUserMemory, bind, pure, Run.bind, Run.pure, emit, tryCatch, htok, fetch, hok,
            completionCalls]

/-- The function `saveUserMemory` sends no completion request. -/
theorem saveUserMemory_completionCalls (w : World) (category content : JsString) :
    completionCalls (saveUserMemory w category content).events = [] := by
  obtain ⟨token, memoryGet, completion, memoryPost⟩ := w
  cases htok : tokenMissing token with
  | true =>
    simp [saveUserMemory, bind, pure, Run.bind, Run.pure, emit, tryCatch, htok, completionCalls]
  | false =>
    cases memoryPost with
    | rejected e =>
      simp [saveUserMemory, bind, pure, Run.bind, Run.pure, emit, tryCatch, htok, fetch,
        completionCalls]
    | responded status json =>
      simp [saveUserMemory, bind, pure, Run.bind, Run.pure, emit, tryCatch, htok, fetch,
        completionCalls]

/-- The extraction sends no completion request. -/
theorem extractMemory_completionCalls (w : World) (rc : JsString) :
    completionCalls (extractMemory w rc).events = [] := by
  cases h : memoryMatch rc with
  | none => rw [extractMemory_of_no_match h]; rfl
  | some m => rw [(extractMemory_of_match h).2]; exact saveUserMemory_completionCalls w _ _

/-- A turn with an API key sends one completion request, with the messages of
`requestMessages` for the facts that `getUserMemory` returned. -/
theorem generateResponse_completionCalls (SYSTEM_PROMPT : JsString) (w : World) (apiKey : JsOpt)
    (history : List ChatMessage) (newMessage : JsString) (hkey : apiKey.truthy = true) :
    ∃ ms, (getUserMemory w).result = .ok ms ∧
      completionCalls (generateResponse SYSTEM_PROMPT w apiKey history newMessage).events =
        [requestMessages SYSTEM_PROMPT ms history newMessage] := by
  cases hc : w.completion with
  | resolved content =>
    obtain ⟨_, ms, hms, hev⟩ :=
      generateResponse_resolved SYSTEM_PROMPT w apiKey history newMessage content hkey hc
    refine ⟨ms, hms, ?_⟩
    rw [hev, completionCalls_append, getUserMemory_completionCalls]
    simp [completionCalls, extractMemory_completionCalls]
  | rejected error =>
    obtain ⟨_, ms, hms, hev⟩ :=
      generateResponse_rejected SYSTEM_PROMPT w apiKey history newMessage error hkey hc
    refine ⟨ms, hms, ?_⟩
    rw [hev, completionCalls_append, getUserMemory_completionCalls]
    simp [completionCalls]

/-- The entries of `conversationHistory` have the role `assistant` or `user`. -/
theorem conversationHistory_roles (history : List ChatMessage) :
    ∀ m ∈ conversationHistory history,
      m.role = "assistant".toList ∨ m.role = "user".toList := by
  intro m hm
  simp only [conversationHistory, List.mem_map] at hm
  obtain ⟨msg, _, rfl⟩ := hm
  cases hb : msg.role == "assistant".toList with
  | true => left; simp only [hb, if_true]
  | false => right; simp only [hb, Bool.false_eq_true, if_false]

/-- C26: for every history and new user text, a turn with an API key sends a single completion
request; its messages are one system message first, holding the assembled context, then the
entries of the history whose role is not `system`, in their order, with their content and with
the role `assistant` kept and every other role turned into `user`, then one user message with
the new text; there are 2 plus the number of non-system entries of them, and the first is the
only system message. -/
theorem completion_request_messages (SYSTEM_PROMPT : JsString) (w : World) (apiKey : JsOpt)
    (history : List ChatMessage) (newMessage : JsString) (hkey : apiKey.truthy = true) :
    ∃ ms messages, (getUserMemory w).result = .ok ms ∧
      completionCalls (generateResponse SYSTEM_PROMPT w apiKey history newMessage).events =
        [messages] ∧
      messages.length = 2 + (history.filter fun msg => msg.role != "system".toList).length ∧
      messages.head? =
        some { role := "system".toList, content := enhancedSystemPrompt SYSTEM_PROMPT ms } ∧
      messages.getLast? = some { role := "user".toList, content := newMessage } ∧
      ((messages.drop 1).dropLast.map fun msg => msg.content) =
        ((history.filter fun msg => msg.role != "system".toList).map fun msg => msg.content) ∧
      ((messages.drop 1).dropLast.map fun msg => msg.role) =
        ((history.filter fun msg => msg.role != "system".toList).map fun msg =>
          if msg.role = "assistant".toList then "assistant".toList else "user".toList) ∧
      (messages.filter fun msg => msg.role == "system".toList).length = 1 := by
  obtain ⟨ms, hms, hev⟩ :=
    generateResponse_completionCalls SYSTEM_PROMPT w apiKey history newMessage hkey
  have hmid : ((requestMessages SYSTEM_PROMPT ms history newMessage).drop 1).dropLast =
      conversationHistory history := by
    simp [requestMessages, List.dropLast_concat]
  refine ⟨ms, requestMessages SYSTEM_PROMPT ms history newMessage, hms, hev, ?_, ?_, ?_, ?_, ?_,
    ?_⟩
  · simp [requestMessages, conversationHistory]
    omega
  · simp [requestMessages]
  · unfold requestMessages
    exact List.getLast?_concat _
  · rw [hmid]
    simp [conversationHistory, List.map_map, Function.comp_def]
  · rw [hmid]
    simp [conversationHistory, List.map_map, Function.comp_def]
  · have hnone : (conversationHistory history).filter
        (fun msg => msg.role == "system".toList) = [] := by
      rw [List.filter_eq_nil_iff]
      intro m hm
      rcases conversationHistory_roles history m hm with h | h <;> rw [h] <;> decide
    simp only [requestMessages, List.filter_append, hnone]
    rfl

/-- C26 on an example: a history with a system entry, an assistant entry and an entry of
another role. -/
theorem completion_request_messages_witness :
    (JsOpt.str ['k']).truthy = true ∧
    (∃ ms messages, (getUserMemory (World.fine (.str "ok".toList))).result = .ok ms ∧
      completionCalls (generateResponse "P".toList (World.fine (.str "ok".toList)) (.str ['k'])
        [⟨"system".toList, "s".toList⟩, ⟨"assistant".toList, "a".toList⟩,
         ⟨"tool".toList, "t".toList⟩] "new".toList).events = [messages] ∧
      messages.length = 2 + (([⟨"system".toList, "s".toList⟩, ⟨"assistant".toList, "a".toList⟩,
         ⟨"tool".toList, "t".toList⟩] : List ChatMessage).filter
           fun msg => msg.role != "system".toList).length ∧
      messages.head? =
        some { role := "system".toList, content := enhancedSystemPrompt "P".toList ms } ∧
      messages.getLast? = some { role := "user".toList, content := "new".toList } ∧
      ((messages.drop 1).dropLast.map fun msg => msg.content) =
        ((([⟨"system".toList, "s".toList⟩, ⟨"assistant".toList, "a".toList⟩,
         ⟨"tool".toList, "t".toList⟩] : List ChatMessage).filter
           fun msg => msg.role != "system".toList).map fun msg => msg.content) ∧
      ((messages.drop 1).dropLast.map fun msg => msg.role) =
        ((([⟨"system".toList, "s".toList⟩, ⟨"assistant".toList, "a".toList⟩,
         ⟨"tool".toList, "t".toList⟩] : List ChatMessage).filter
           fun msg => msg.role != "system".toList).map fun msg =>
          if msg.role = "assistant".toList then "assistant".toList else "user".toList) ∧
      (messages.filter fun msg => msg.role == "system".toList).length = 1) ∧
    completionCalls (generateResponse "P".toList (World.fine (.str "ok".toList)) (.str ['k'])
        [⟨"system".toList, "s".toList⟩, ⟨"assistant".toList, "a".toList⟩,
         ⟨"tool".toList, "t".toList⟩] "new".toList).events =
      [[⟨"system".toList, enhancedSystemPrompt "P".toList []⟩, ⟨"assistant".toList, "a".toList⟩,
        ⟨"user".toList, "t".toList⟩, ⟨"user".toList, "new".toList⟩]] :=
  ⟨rfl,
    completion_request_messages "P".toList (World.fine (.str "ok".toList)) (.str ['k'])
      [⟨"system".toList, "s".toList⟩, ⟨"assistant".toList, "a".toList⟩,
       ⟨"tool".toList, "t".toList⟩] "new".toList rfl,
    rfl⟩

/-- C29 fails on an output that is a directive and nothing else: the fact is saved and the
reply that `generateResponse` returns is the empty string; so it is on a directive between
blanks.  The fallback of the code covers the completion without content only. -/
theorem directive_only_output_gives_empty_reply :
    (JsOpt.str ['k']).truthy = true ∧
    (generateResponse [] (World.fine (.str "[MEMORY: Location | Moved to Berlin]".toList))
      (.str ['k']) [] []).result = .ok [] ∧
    saveCalls (generateResponse [] (World.fine (.str "[MEMORY: Location | Moved to Berlin]".toList))
      (.str ['k']) [] []).events = [("Location".toList, "Moved to Berlin".toList)] ∧
    (generateResponse [] (World.fine (.str " [MEMORY:|]\n".toList)) (.str ['k']) [] []).result =
      .ok [] ∧
    (generateResponse [] (World.fine .undefined) (.str ['k']) [] []).result =
      .ok "No response generated.".toList ∧
    (generateResponse [] (World.fine (.str [])) (.str ['k']) [] []).result =
      .ok "No response generated.".toList := by
  decide

/-- The requests of `MemorySettings` carry no `Authorization` header. -/
theorem memorySettings_fetchCalls (page : MemoryPage) (id : Nat)
    (o1 : FetchOutcome MemoryReply) (o2 o3 : FetchOutcome Unit) :
    fetchCalls (fetchMemories page o1).events = [("GET", "/api/memory", none)] ∧
    fetchCalls (handleDelete page id o2).events =
      [("DELETE", "/api/memory/" ++ toString id, none)] ∧
    fetchCalls (handleClearAll page true o3).events = [("DELETE", "/api/memory", none)] := by
  refine ⟨?_, ?_, ?_⟩
  · cases o1 with
    | rejected e =>
      simp [fetchMemories, bind, pure, Run.bind, Run.pure, tryCatch, fetch, fetchCalls]
    | responded status json =>
      cases hok : responseOk status with
      | false =>
        simp [fetchMemories, bind, pure, Run.bind, Run.pure, tryCatch, fetch, fetchCalls, hok]
      | true =>
        cases json with
        | ok data =>
          simp [fetchMemories, bind, pure, Run.bind, Run.pure, tryCatch, fetch, fetchCalls, hok]
        | error e =>
          simp [fetchMemories, bind, pure, Run.bind, Run.pure, tryCatch, fetch, fetchCalls, hok]
  · cases o2 with
    | rejected e =>
      simp [handleDelete, bind, pure, Run.bind, Run.pure, tryCatch, fetch, fetchCalls, emit]
    | responded status json =>
      simp [handleDelete, bind, pure, Run.bind, Run.pure, tryCatch, fetch, fetchCalls, emit]
  · cases o3 with
    | rejected e =>
      simp [handleClearAll, bind, pure, Run.bind, Run.pure, tryCatch, fetch, fetchCalls, emit]
    | responded status json =>
      simp [handleClearAll, bind, pure, Run.bind, Run.pure, tryCatch, fetch, fetchCalls, emit]

/-- The requests of `getUserMemory`, `saveUserMemory`, `fetchHistory` and `saveMessageToDb`
carry the token of the session as a bearer credential. -/
theorem bearer_fetchCalls (c : Char) (cs : JsString) (g : FetchOutcome (List MemoryFact))
    (completion : CompletionOutcome) (p q : FetchOutcome Unit)
    (o : FetchOutcome (List ChatMessage)) (messages : List ChatMessage)
    (category content : JsString) :
    fetchCalls (getUserMemory ⟨some (c :: cs), g, completion, p⟩).events =
      [("GET", "/api/memory", some ("Bearer ".toList ++ c :: cs))] ∧
    fetchCalls (saveUserMemory ⟨some (c :: cs), g, completion, p⟩ category content).events =
      [("POST", "/api/memory", some ("Bearer ".toList ++ c :: cs))] ∧
    fetchCalls (fetchHistory true (some (c :: cs)) messages o).events =
      [("GET", "/api/chat", some ("Bearer ".toList ++ c :: cs))] ∧
    fetchCalls (saveMessageToDb true (some (c :: cs)) category content q).events =
      [("POST", "/api/chat", some ("Bearer ".toList ++ c :: cs))] := by
  refine ⟨?_, ?_, ?_, ?_⟩
  · cases g with
    | rejected e =>
      simp [getUserMemory, bind, pure, Run.bind, Run.pure, emit, tryCatch, tokenMissing, fetch,
        fetchCalls]
    | responded status json =>
      cases hok : responseOk status with
      | false =>
        simp [getUserMemory, bind, pure, Run.bind, Run.pure, emit, tryCatch, tokenMissing, fetch,
          hok, fetchCalls]
      | true =>
        cases json with
        | ok rows =>
          simp [getUserMemory, bind, pure, Run.bind, Run.pure, emit, tryCatch, tokenMissing,
            fetch, hok, fetchCalls]
        | error e =>
          simp [getUserMemory, bind, pure, Run.bind, Run.pure, emit, tryCatch, tokenMissing,
            fetch, hok, fetchCalls]
  · cases p with
    | rejected e =>
      simp [saveUserMemory, bind, pure, Run.bind, Run.pure, emit, tryCatch, tokenMissing, fetch,
        fetchCalls]
    | responded status json =>
      simp [saveUserMemory, bind, pure, Run.bind, Run.pure, emit, tryCatch, tokenMissing, fetch,
        fetchCalls]
  · cases o with
    | rejected e =>
      simp [fetchHistory, bind, pure, Run.bind, Run.pure, emit, tryCatch, tokenMissing, fetch,
        fetchCalls]
    | responded status json =>
      cases hok : responseOk status with
      | false =>
        simp [fetchHistory, bind, pure, Run.bind, Run.pure, emit, tryCatch, tokenMissing, fetch,
          hok, fetchCalls]
      | true =>
        cases json with
        | ok rows =>
          simp [fetchHistory, bind, pure, Run.bind, Run.pure, emit, tryCatch, tokenMissing,
            fetch, hok, fetchCalls]
        | error e =>
          simp [fetchHistory, bind, pure, Run.bind, Run.pure, emit, tryCatch, tokenMissing,
            fetch, hok, fetchCalls]
  · cases q with
    | rejected e =>
      simp [saveMessageToDb, bind, pure, Run.bind, Run.pure, emit, tryCatch, tokenMissing, fetch,
        fetchCalls]
    | responded status json =>
      simp [saveMessageToDb, bind, pure, Run.bind, Run.pure, emit, tryCatch, tokenMissing, fetch,
        fetchCalls]

/-- C27 fails for the page `MemorySettings`: whatever the session, its list, delete-one and
clear-all requests carry no `Authorization` header, and the backend answers a protected request
without the header with 403 and leaves the store as it is; the requests of `getUserMemory`,
`saveUserMemory` and of the chat history carry the bearer credential. -/
theorem memory_page_requests_lack_credential (env : ServerEnv) (db : Db) (page : MemoryPage)
    (id : Nat) (o1 : FetchOutcome MemoryReply) (o2 o3 : FetchOutcome Unit)
    (r : ProtectedRoute) (c : Char) (cs : JsString) (g : FetchOutcome (List MemoryFact))
    (completion : CompletionOutcome) (o : FetchOutcome (List ChatMessage))
    (messages : List ChatMessage) (role content : JsString) :
    (fetchCalls (fetchMemories page o1).events = [("GET", "/api/memory", none)] ∧
     fetchCalls (handleDelete page id o2).events =
       [("DELETE", "/api/memory/" ++ toString id, none)] ∧
     fetchCalls (handleClearAll page true o3).events = [("DELETE", "/api/memory", none)]) ∧
    handle env db ⟨none, .guarded r⟩ =
      { response := ⟨403, .error "No token provided"⟩, db := db, events := [] } ∧
    (fetchCalls (getUserMemory ⟨some (c :: cs), g, completion, o2⟩).events =
       [("GET", "/api/memory", some ("Bearer ".toList ++ c :: cs))] ∧
     fetchCalls (saveUserMemory ⟨some (c :: cs), g, completion, o2⟩ role content).events =
       [("POST", "/api/memory", some ("Bearer ".toList ++ c :: cs))] ∧
     fetchCalls (fetchHistory true (some (c :: cs)) messages o).events =
       [("GET", "/api/chat", some ("Bearer ".toList ++ c :: cs))] ∧
     fetchCalls (saveMessageToDb true (some (c :: cs)) role content o3).events =
       [("POST", "/api/chat", some ("Bearer ".toList ++ c :: cs))]) :=
  ⟨memorySettings_fetchCalls page id o1 o2 o3, handle_guarded_missing env db none r rfl,
    bearer_fetchCalls c cs g completion o2 o3 o messages role content⟩

/-- The page of Ann, signed in, on the sample database: the list request is refused and the page
shows the error of the session gate; the delete request of her fact 1 is refused and the fact
stays in the store, while it leaves the page. -/
theorem memory_page_of_ann_is_refused :
    (handle (ServerEnv.sample 30) Db.sample ⟨none, .guarded .memoryList⟩).response =
      ⟨403, .error "No token provided"⟩ ∧
    (fetchMemories MemoryPage.sample
      (.responded 403 (.ok ⟨[], .str "No token provided".toList⟩))).result =
      .ok { memories := MemoryPage.sample.memories, loading := false,
            error := some "No token provided".toList } ∧
    (handle (ServerEnv.sample 30) Db.sample ⟨none, .guarded (.memoryRemove 1)⟩).db = Db.sample ∧
    ((handleDelete MemoryPage.sample 1 (.responded 403 (.ok ()))).result.toOption.map
      fun page => page.memories.map fun m => m.id) = some [3] ∧
    (handle (ServerEnv.sample 30) Db.sample
      ⟨some "Bearer h.t.s".toList, .guarded .memoryList⟩).response.status = 200 := by
  decide

/-- An insert into `users` keeps the sequences within the range of `INTEGER`. -/
theorem inRange_insertUser {db : Db} (h : db.InRange) (now : Nat) (name email : Option JsString)
    (hash : JsString) : (insertUser now db name email hash).2.InRange := by
  rcases insertUser_spec now db name email hash with
    ⟨e, he⟩ | ⟨e, he, hseq⟩ | ⟨row, hrow, _, _, hseq⟩
  · rw [he]; exact h
  · rw [he]; exact ⟨hseq, h.2.1, h.2.2⟩
  · rw [hrow]; exact ⟨hseq, h.2.1, h.2.2⟩

/-- An insert into `user_memory` keeps the sequences within the range of `INTEGER`. -/
theorem inRange_insertMemory {db : Db} (h : db.InRange) (now u : Nat) (category : JsString)
    (content : Option JsString) : (insertMemory now db u category content).2.InRange := by
  rcases insertMemory_spec now db u category content with
    ⟨e, he⟩ | ⟨e, he, hseq⟩ | ⟨row, hrow, _, hseq⟩
  · rw [he]; exact h
  · rw [he]; exact ⟨h.1, hseq, h.2.2⟩
  · rw [hrow]; exact ⟨h.1, hseq, h.2.2⟩

/-- An insert into `messages` keeps the sequences within the range of `INTEGER`. -/
theorem inRange_insertMessage {db : Db} (h : db.InRange) (now u : Nat)
    (role content : Option JsString) : (insertMessage now db u role content).2.InRange := by
  rcases insertMessage_spec now db u role content with
    ⟨e, he⟩ | ⟨e, he, hseq⟩ | ⟨row, hrow, _, hseq, _⟩
  · rw [he]; exact h
  · rw [he]; exact ⟨h.1, h.2.1, hseq⟩
  · rw [hrow]; exact ⟨h.1, h.2.1, hseq⟩

/-- The database after `initDb` has its sequences within the range of `INTEGER`. -/
theorem inRange_empty : Db.empty.InRange := by
  refine ⟨by decide, by decide, by decide⟩

/-- A protected handler keeps the sequences within the range of `INTEGER`. -/
theorem inRange_runProtected {db : Db} (h : db.InRange) (r : ProtectedRoute) (env : ServerEnv)
    (userId : Nat) : (runProtected r env db userId).db.InRange := by
  cases r with
  | memoryList => exact h
  | memoryAdd category content =>
    have hi := inRange_insertMemory h env.now userId (category.orElse "General".toList)
      (sqlParam content)
    simp only [runProtected, memoryAdd]
    rcases hres : insertMemory env.now db userId (category.orElse "General".toList)
      (sqlParam content) with ⟨res, db'⟩
    rw [hres] at hi
    cases res <;> exact hi
  | memoryRemove id =>
    simp only [runProtected, memoryRemove, deleteMemory]
    split
    · exact h
    · split <;> exact h
  | memoryClear => exact h
  | chatList => exact h
  | chatAdd role content =>
    have hi := inRange_insertMessage h env.now userId (sqlParam role) (sqlParam content)
    simp only [runProtected, chatAdd]
    rcases hres : insertMessage env.now db userId (sqlParam role) (sqlParam content) with
      ⟨res, db'⟩
    rw [hres] at hi
    cases res <;> exact hi
  | chatClear => exact h

/-- Every request keeps the sequences within the range of `INTEGER`: the ids of the rows in
every state that the application reaches from the empty database are within it. -/
theorem inRange_app {db : Db} (h : db.InRange) (env : ServerEnv) (http : HttpRequest) :
    (app env db http).db.InRange := by
  obtain ⟨n, authorization, route⟩ := http
  simp only [app]
  split
  · exact h
  · cases route with
    | guarded r =>
      simp only [handle, verifyToken]
      split
      · exact h
      · split
        · exact h
        · exact inRange_runProtected h r env _
    | unguarded r =>
      cases r with
      | signup name email password =>
        cases password with
        | undefined => exact h
        | null => exact h
        | str pw =>
          simp only [handle, runPublic, signup]
          have hi := inRange_insertUser h env.now (sqlParam name) (sqlParam email)
            (env.bcryptHash pw)
          rcases hres : insertUser env.now db (sqlParam name) (sqlParam email)
            (env.bcryptHash pw) with ⟨res, db'⟩
          rw [hres] at hi
          cases res <;> exact hi
      | login email password =>
        simp only [handle, runPublic, login]
        split
        · exact h
        · exact h
        · split
          · split <;> exact h
          · exact h
      | google token =>
        simp only [handle, runPublic, googleLogin]
        cases env.googleConfigured with
        | false => exact h
        | true =>
          simp only [Bool.not_true, Bool.false_eq_true, if_false]
          cases env.googleVerify token with
          | error e => exact h
          | ok payload =>
            dsimp only
            cases selectUserByEmail db (sqlParam payload.email) with
            | error e => exact h
            | ok found =>
            cases found with
            | some user => exact h
            | none =>
              have hi := inRange_insertUser h env.now (sqlParam payload.name)
                (sqlParam payload.email) (env.bcryptHash env.randomPassword)
              dsimp only
              rcases hres : insertUser env.now db (sqlParam payload.name)
                (sqlParam payload.email) (env.bcryptHash env.randomPassword) with ⟨res, db'⟩
              rw [hres] at hi
              cases res <;> exact hi

/-- The lookup by an email without U+0000 is the search of the table. -/
theorem selectUserByEmail_clean (db : Db) {e : JsString} (h : hasNul e = false) :
    selectUserByEmail db (some e) = .ok (db.users.find? fun r => r.email == e) := by
  simp [selectUserByEmail, textParam, h]

/-- The lookup by an email with U+0000 fails. -/
theorem selectUserByEmail_nul (db : Db) {e : JsString} (h : hasNul e = true) :
    selectUserByEmail db (some e) = .error .invalidByteSequence := by
  simp [selectUserByEmail, textParam, h]

/-- The lookup by email finds a row of the table with that email. -/
theorem selectUserByEmail_some {db : Db} {e : JsString} {user : UserRow}
    (h : selectUserByEmail db (some e) = .ok (some user)) :
    user ∈ db.users ∧ user.email = e ∧ hasNul e = false := by
  cases hn : hasNul e with
  | true =>
    rw [selectUserByEmail_nul db hn] at h
    cases h
  | false =>
    rw [selectUserByEmail_clean db hn] at h
    have h' : db.users.find? (fun r => r.email == e) = some user := by
      simpa using h
    exact ⟨List.mem_of_find?_eq_some h', by simpa using List.find?_some h', rfl⟩

/-- The row that a lookup finds is a row of the table, whatever the parameter. -/
theorem selectUserByEmail_mem {db : Db} {email : Option JsString} {user : UserRow}
    (h : selectUserByEmail db email = .ok (some user)) : user ∈ db.users := by
  cases email with
  | none => simp [selectUserByEmail, textParam] at h
  | some e => exact (selectUserByEmail_some h).1

/-- The lookup by email finds nothing when no row has the email. -/
theorem selectUserByEmail_none {db : Db} {e : JsString} (hnul : hasNul e = false)
    (h : ∀ r ∈ db.users, r.email ≠ e) : selectUserByEmail db (some e) = .ok none := by
  rw [selectUserByEmail_clean db hnul]
  have : db.users.find? (fun r => r.email == e) = none := by
    rw [List.find?_eq_none]
    intro r hr
    simpa using h r hr
  rw [this]

/-- A lookup that finds nothing: no row has the email. -/
theorem selectUserByEmail_eq_none {db : Db} {e : JsString}
    (h : selectUserByEmail db (some e) = .ok none) :
    hasNul e = false ∧ ∀ r ∈ db.users, r.email ≠ e := by
  cases hn : hasNul e with
  | true =>
    rw [selectUserByEmail_nul db hn] at h
    cases h
  | false =>
    rw [selectUserByEmail_clean db hn] at h
    have h' : db.users.find? (fun r => r.email == e) = none := by
      simpa using h
    refine ⟨rfl, fun r hr => ?_⟩
    have := List.find?_eq_none.1 h' r hr
    simpa using this

theorem find_email_of_nodup : ∀ (l : List UserRow) (user : UserRow),
    (l.map fun r => r.email).Nodup → user ∈ l →
    l.find? (fun r => r.email == user.email) = some user := by
  intro l
  induction l with
  | nil => intro user _ hu; cases hu
  | cons a l ih =>
    intro user hn hu
    simp only [List.map_cons, List.nodup_cons] at hn
    rcases List.mem_cons.1 hu with rfl | hu
    · simp
    · have hne : a.email ≠ user.email := by
        intro heq
        exact hn.1 (heq ▸ List.mem_map_of_mem (fun r => r.email) hu)
      have hb : (a.email == user.email) = false := by simpa using hne
      rw [List.find?_cons, hb]
      exact ih user hn.2 hu

/-- With the unique index on `email`, the lookup by the email of a user finds that user. -/
theorem selectUserByEmail_of_mem {db : Db} (hwf : db.WellFormed) {user : UserRow}
    (hu : user ∈ db.users) (hnul : hasNul user.email = false) :
    selectUserByEmail db (some user.email) = .ok (some user) := by
  rw [selectUserByEmail_clean db hnul, find_email_of_nodup db.users user hwf.2.2.1 hu]

/-- The answers of `POST /api/auth/login` to an email and a password that are strings. -/
theorem login_str (env : ServerEnv) (db : Db) (e pw : JsString) :
    (hasNul e = true →
      login env db (.str e) (.str pw) =
        { response := ⟨500, .failure (.db .invalidByteSequence)⟩, db := db,
          events := [.query "SELECT * FROM users WHERE email = $1"] }) ∧
    (selectUserByEmail db (some e) = .ok none →
      login env db (.str e) (.str pw) =
        { response := ⟨404, .error "User not found"⟩, db := db,
          events := [.query "SELECT * FROM users WHERE email = $1"] }) ∧
    (∀ user, selectUserByEmail db (some e) = .ok (some user) →
      (env.bcryptCompare pw user.password_hash = true →
        login env db (.str e) (.str pw) =
          { response := ⟨200, .session (env.jwtSign user.id) user.id user.name user.email none⟩,
            db := db,
            events := [.query "SELECT * FROM users WHERE email = $1",
              .bcryptCompare pw user.password_hash, .jwtSign user.id] }) ∧
      (env.bcryptCompare pw user.password_hash = false →
        login env db (.str e) (.str pw) =
          { response := ⟨401, .noSession⟩, db := db,
            events := [.query "SELECT * FROM users WHERE email = $1",
              .bcryptCompare pw user.password_hash] })) := by
  refine ⟨?_, ?_, ?_⟩
  · intro h
    simp only [login, sqlParam, selectUserByEmail_nul db h]
  · intro h
    simp only [login, sqlParam, h]
  · intro user h
    constructor
    · intro hc
      simp only [login, sqlParam, h, hc, if_true]
    · intro hc
      simp only [login, sqlParam, h, hc, Bool.false_eq_true, if_false]

/-- C21, as stated, fails: for an email that holds U+0000, which no user has, the lookup fails
and authenticate is answered with 500, not with 404; and a request whose body is above 100 kB
(a long password) is answered with 413, whatever the email and the password. -/
theorem login_refused_before_lookup :
    (∀ r ∈ Db.sample.users, r.email ≠ ['a', Char.ofNat 0]) ∧
    (app (ServerEnv.sample 30) Db.sample ⟨60, ⟨none, .unguarded (.login
        (.str ['a', Char.ofNat 0]) (.str "pw1".toList))⟩⟩).response =
      ⟨500, .failure (.db .invalidByteSequence)⟩ ∧
    (app (ServerEnv.sample 30) Db.sample ⟨102401, ⟨none, .unguarded (.login
        (.str "eve@x.io".toList) (.str (List.replicate 102400 'p')))⟩⟩).response =
      ⟨413, .errorPage "request entity too large"⟩ ∧
    (app (ServerEnv.sample 30) Db.sample ⟨102401, ⟨none, .unguarded (.login
        (.str "ann@x.io".toList) (.str "pw1".toList))⟩⟩).response =
      ⟨413, .errorPage "request entity too large"⟩ := by
  refine ⟨by decide, by decide, ?_, ?_⟩
  · exact congrArg Outcome.response (app_of_gt _ _ _ _ (by decide))
  · exact congrArg Outcome.response (app_of_gt _ _ _ _ (by decide))

/-- C21, amended: for every email without U+0000 and every password, sent in a body within the
limit, in a store with unique emails: an unknown email is answered with 404 and a wrong
password with 401 and a body without a token; a password that verifies against the stored hash
of the user with that email is answered with a token signed for the id of that user; a session
is returned if and only if such a user exists and the password verifies against the stored
hash; the store is left as it is. -/
theorem login_session_iff (env : ServerEnv) (db : Db) (authorization : Option JsString)
    (e pw : JsString) (n : Nat) (hwf : db.WellFormed) (hbody : n ≤ bodyLimit)
    (hnul : hasNul e = false) :
    ((∀ r ∈ db.users, r.email ≠ e) →
      (app env db ⟨n, ⟨authorization, .unguarded (.login (.str e) (.str pw))⟩⟩).response =
        ⟨404, .error "User not found"⟩) ∧
    (∀ user ∈ db.users, user.email = e →
      (env.bcryptCompare pw user.password_hash = true →
        (app env db ⟨n, ⟨authorization, .unguarded (.login (.str e) (.str pw))⟩⟩).response =
          ⟨200, .session (env.jwtSign user.id) user.id user.name user.email none⟩) ∧
      (env.bcryptCompare pw user.password_hash = false →
        (app env db ⟨n, ⟨authorization, .unguarded (.login (.str e) (.str pw))⟩⟩).response =
          ⟨401, .noSession⟩ ∧
        ∀ id, ServerEvent.jwtSign id ∉
          (app env db ⟨n, ⟨authorization,
            .unguarded (.login (.str e) (.str pw))⟩⟩).events)) ∧
    ((∃ token id name email picture,
        (app env db ⟨n, ⟨authorization,
          .unguarded (.login (.str e) (.str pw))⟩⟩).response.body =
          .session token id name email picture) ↔
      ∃ user ∈ db.users, user.email = e ∧ env.bcryptCompare pw user.password_hash = true) ∧
    (app env db ⟨n, ⟨authorization, .unguarded (.login (.str e) (.str pw))⟩⟩).db = db := by
  have hh : app env db ⟨n, ⟨authorization, .unguarded (.login (.str e) (.str pw))⟩⟩ =
      login env db (.str e) (.str pw) := app_of_le env db n _ hbody
  rw [hh]
  obtain ⟨_, h404, hfound⟩ := login_str env db e pw
  have hof : ∀ user ∈ db.users, user.email = e →
      selectUserByEmail db (some e) = .ok (some user) := by
    intro user hu he
    subst he
    exact selectUserByEmail_of_mem hwf hu hnul
  have hcases : selectUserByEmail db (some e) = .ok none ∨
      ∃ user, selectUserByEmail db (some e) = .ok (some user) := by
    rw [selectUserByEmail_clean db hnul]
    cases db.users.find? fun r => r.email == e with
    | none => exact Or.inl rfl
    | some user => exact Or.inr ⟨user, rfl⟩
  refine ⟨?_, ?_, ?_, ?_⟩
  · intro hnew
    rw [h404 (selectUserByEmail_none hnul hnew)]
  · intro user hu he
    have hsel := hof user hu he
    constructor
    · intro hc
      rw [(hfound user hsel).1 hc]
    · intro hc
      rw [(hfound user hsel).2 hc]
      exact ⟨rfl, by intro id; simp⟩
  · constructor
    · rintro ⟨token, id, name, email, picture, hbody'⟩
      rcases hcases with hsel | ⟨user, hsel⟩
      · rw [h404 hsel] at hbody'
        cases hbody'
      · obtain ⟨hu, he, _⟩ := selectUserByEmail_some hsel
        cases hc : env.bcryptCompare pw user.password_hash with
        | true => exact ⟨user, hu, he, hc⟩
        | false =>
          rw [(hfound user hsel).2 hc] at hbody'
          cases hbody'
    · rintro ⟨user, hu, he, hc⟩
      rw [(hfound user (hof user hu he)).1 hc]
      exact ⟨_, _, _, _, _, rfl⟩
  · rcases hcases with hsel | ⟨user, hsel⟩
    · rw [h404 hsel]
    · cases hc : env.bcryptCompare pw user.password_hash with
      | true => rw [(hfound user hsel).1 hc]
      | false => rw [(hfound user hsel).2 hc]

/-- C21, amended, on the sample database: an unknown email, the password of Ann and a wrong
password. -/
theorem login_session_iff_witness :
    Db.sample.WellFormed ∧
    (app (ServerEnv.sample 30) Db.sample
      ⟨60, ⟨none, .unguarded (.login (.str "eve@x.io".toList) (.str "pw1".toList))⟩⟩).response =
        ⟨404, .error "User not found"⟩ ∧
    (app (ServerEnv.sample 30) Db.sample
      ⟨60, ⟨none, .unguarded (.login (.str "ann@x.io".toList) (.str "pw1".toList))⟩⟩).response =
        ⟨200, .session "h.t.s".toList 1 (some "Ann".toList) "ann@x.io".toList none⟩ ∧
    (app (ServerEnv.sample 30) Db.sample
      ⟨60, ⟨none, .unguarded (.login (.str "ann@x.io".toList) (.str "pw2".toList))⟩⟩).response =
        ⟨401, .noSession⟩ :=
  ⟨wellFormed_sample,
    (login_session_iff (ServerEnv.sample 30) Db.sample none "eve@x.io".toList "pw1".toList 60
      wellFormed_sample (by decide) (by decide)).1 (by decide),
    ((login_session_iff (ServerEnv.sample 30) Db.sample none "ann@x.io".toList "pw1".toList 60
      wellFormed_sample (by decide) (by decide)).2.1
        { id := 1, name := some "Ann".toList, email := "ann@x.io".toList,
          password_hash := "$pw1".toList, created_at := 1 } (by decide) rfl).1 (by decide),
    (((login_session_iff (ServerEnv.sample 30) Db.sample none "ann@x.io".toList "pw2".toList 60
      wellFormed_sample (by decide) (by decide)).2.1
        { id := 1, name := some "Ann".toList, email := "ann@x.io".toList,
          password_hash := "$pw1".toList, created_at := 1 } (by decide) rfl).2 (by decide)).1⟩

/-- The answer of `POST /api/auth/google` when the asserted email is the one of a user. -/
theorem googleLogin_existing (env : ServerEnv) (db : Db) (token : JsOpt)
    (payload : GooglePayload) (user : UserRow) (hconf : env.googleConfigured = true)
    (hv : env.googleVerify token = .ok payload)
    (hsel : selectUserByEmail db (sqlParam payload.email) = .ok (some user)) :
    googleLogin env db token =
      { response := ⟨200, .session (env.jwtSign user.id) user.id user.name user.email
          (some payload.picture)⟩,
        db := db,
        events := [.googleVerify token, .query "SELECT * FROM users WHERE email = $1",
          .jwtSign user.id] } := by
  simp only [googleLogin, hconf, Bool.not_true, Bool.false_eq_true, if_false, hv, hsel]

/-- The answer of `POST /api/auth/google` when no user has the asserted email, the asserted
name and email fit their columns and hold no U+0000, and the sequence is not exhausted. -/
theorem googleLogin_created (env : ServerEnv) (db : Db) (token : JsOpt) (name picture : JsOpt)
    (e : JsString) (hconf : env.googleConfigured = true)
    (hv : env.googleVerify token = .ok ⟨name, .str e, picture⟩)
    (hname : ∀ n, name = .str n → n.length ≤ 100) (hemail : e.length ≤ 255)
    (hnameNul : ∀ n, name = .str n → hasNul n = false) (hemailNul : hasNul e = false)
    (hseq : db.users_id_seq < int4Max) (hnew : ∀ r ∈ db.users, r.email ≠ e) :
    (googleLogin env db token).response =
      ⟨200, .session (env.jwtSign (db.users_id_seq + 1)) (db.users_id_seq + 1) (sqlParam name) e
        (some picture)⟩ ∧
    (googleLogin env db token).db =
      { db with users_id_seq := db.users_id_seq + 1,
                users := db.users ++ [googleRow env db name e] } := by
  obtain ⟨hname', hnameNul'⟩ := sqlParam_facts hname hnameNul
  have hins := insertUser_ok env.now db (sqlParam name) e (env.bcryptHash env.randomPassword)
    hname' hemail hnameNul' hemailNul hseq hnew
  simp only [googleLogin, hconf, Bool.not_true, Bool.false_eq_true, if_false, hv, sqlParam,
    selectUserByEmail_none hemailNul hnew]
  simp only [sqlParam] at hins
  rw [hins]
  exact ⟨rfl, rfl⟩

/-- The lookup by email after an insert of a row with a new email finds the new row. -/
theorem selectUserByEmail_appended (db : Db) (seq : Nat) (row : UserRow)
    (hnul : hasNul row.email = false) (hnew : ∀ r ∈ db.users, r.email ≠ row.email) :
    selectUserByEmail { db with users_id_seq := seq, users := db.users ++ [row] }
      (some row.email) = .ok (some row) := by
  have hnone : db.users.find? (fun r => r.email == row.email) = none := by
    rw [List.find?_eq_none]
    intro r hr
    simpa using hnew r hr
  rw [selectUserByEmail_clean _ hnul]
  simp [List.find?_append, hnone]

/-- C22, as stated, fails: for a verified assertion with a name of 101 characters and an email
that no user has, the login is answered with 401 and no user is created; so it is for a name
that holds U+0000, and for any new email once the sequence of the ids is exhausted. -/
theorem google_login_long_name_creates_no_user :
    (ServerEnv.google 30 longNamePayload).googleVerify (.str "g".toList) = .ok longNamePayload ∧
    (∀ r ∈ Db.sample.users, r.email ≠ "eve@x.io".toList) ∧
    (handle (ServerEnv.google 30 longNamePayload) Db.sample
      ⟨none, .unguarded (.google (.str "g".toList))⟩).response =
        ⟨401, .error "Invalid Google Token"⟩ ∧
    (handle (ServerEnv.google 30 longNamePayload) Db.sample
      ⟨none, .unguarded (.google (.str "g".toList))⟩).db.users = Db.sample.users ∧
    (handle (ServerEnv.google 30 { evePayload with name := .str ['E', Char.ofNat 0] }) Db.sample
      ⟨none, .unguarded (.google (.str "g".toList))⟩).response =
        ⟨401, .error "Invalid Google Token"⟩ ∧
    (handle (ServerEnv.google 30 evePayload) { Db.sample with users_id_seq := 2147483647 }
      ⟨none, .unguarded (.google (.str "g".toList))⟩).response =
        ⟨401, .error "Invalid Google Token"⟩ := by
  decide

/-- C22, amended: for every verified assertion with an email of at most 255 characters and a
name of at most 100 characters (or no name), neither holding U+0000, in a store with unique
emails whose sequence of user ids is not exhausted: if a user with that email exists, the
session is issued for that user and the store is left as it is; otherwise exactly one user is
created, with that email, and the session is issued for it; in both cases the same login
repeated on the resulting store yields a session for the same user id and leaves the store as
it is. -/
theorem google_login_idempotent (env1 env2 : ServerEnv) (db : Db)
    (authorization : Option JsString) (token name picture : JsOpt) (e : JsString)
    (hwf : db.WellFormed) (hconf1 : env1.googleConfigured = true)
    (hv1 : env1.googleVerify token = .ok ⟨name, .str e, picture⟩)
    (hconf2 : env2.googleConfigured = true)
    (hv2 : env2.googleVerify token = .ok ⟨name, .str e, picture⟩)
    (hname : ∀ n, name = .str n → n.length ≤ 100) (hemail : e.length ≤ 255)
    (hnameNul : ∀ n, name = .str n → hasNul n = false) (hemailNul : hasNul e = false)
    (hseq : db.users_id_seq < int4Max) :
    (∀ user ∈ db.users, user.email = e →
      (handle env1 db ⟨authorization, .unguarded (.google token)⟩).response =
        ⟨200, .session (env1.jwtSign user.id) user.id user.name user.email (some picture)⟩ ∧
      (handle env1 db ⟨authorization, .unguarded (.google token)⟩).db = db) ∧
    ((∀ r ∈ db.users, r.email ≠ e) →
      ∃ row : UserRow,
        (handle env1 db ⟨authorization, .unguarded (.google token)⟩).response =
          ⟨200, .session (env1.jwtSign row.id) row.id row.name e (some picture)⟩ ∧
        (handle env1 db ⟨authorization, .unguarded (.google token)⟩).db.users =
          db.users ++ [row] ∧
        row.email = e ∧ row.name = sqlParam name) ∧
    (∃ user ∈ (handle env1 db ⟨authorization, .unguarded (.google token)⟩).db.users,
      user.email = e ∧
      (handle env1 db ⟨authorization, .unguarded (.google token)⟩).response =
        ⟨200, .session (env1.jwtSign user.id) user.id user.name user.email (some picture)⟩ ∧
      (handle env2 (handle env1 db ⟨authorization, .unguarded (.google token)⟩).db
        ⟨authorization, .unguarded (.google token)⟩).response =
        ⟨200, .session (env2.jwtSign user.id) user.id user.name user.email (some picture)⟩ ∧
      (handle env2 (handle env1 db ⟨authorization, .unguarded (.google token)⟩).db
        ⟨authorization, .unguarded (.google token)⟩).db =
        (handle env1 db ⟨authorization, .unguarded (.google token)⟩).db) := by
  have hh : ∀ env db, handle env db ⟨authorization, .unguarded (.google token)⟩ =
      googleLogin env db token := fun _ _ => rfl
  simp only [hh]
  have hold : ∀ (d : Db) (user : UserRow), selectUserByEmail d (some e) = .ok (some user) →
      googleLogin env1 d token =
        { response := ⟨200, .session (env1.jwtSign user.id) user.id user.name user.email
            (some picture)⟩,
          db := d,
          events := [.googleVerify token, .query "SELECT * FROM users WHERE email = $1",
            .jwtSign user.id] } ∧
      googleLogin env2 d token =
        { response := ⟨200, .session (env2.jwtSign user.id) user.id user.name user.email
            (some picture)⟩,
          db := d,
          events := [.googleVerify token, .query "SELECT * FROM users WHERE email = $1",
            .jwtSign user.id] } := by
    intro d user hsel
    exact ⟨googleLogin_existing env1 d token _ user hconf1 hv1 hsel,
      googleLogin_existing env2 d token _ user hconf2 hv2 hsel⟩
  have hcases : selectUserByEmail db (some e) = .ok none ∨
      ∃ user, selectUserByEmail db (some e) = .ok (some user) := by
    rw [selectUserByEmail_clean db hemailNul]
    cases db.users.find? fun r => r.email == e with
    | none => exact Or.inl rfl
    | some user => exact Or.inr ⟨user, rfl⟩
  refine ⟨?_, ?_, ?_⟩
  · intro user hu he
    have hsel : selectUserByEmail db (some e) = .ok (some user) := by
      subst he
      exact selectUserByEmail_of_mem hwf hu hemailNul
    rw [(hold db user hsel).1]
    exact ⟨rfl, rfl⟩
  · intro hnew
    obtain ⟨hr, hd⟩ := googleLogin_created env1 db token name picture e hconf1 hv1 hname hemail
      hnameNul hemailNul hseq hnew
    refine ⟨googleRow env1 db name e, ?_, ?_, rfl, rfl⟩
    · rw [hr]; rfl
    · rw [hd]
  · rcases hcases with hsel | ⟨user, hsel⟩
    · obtain ⟨_, hnew⟩ := selectUserByEmail_eq_none hsel
      obtain ⟨hr, hd⟩ := googleLogin_created env1 db token name picture e hconf1 hv1 hname
        hemail hnameNul hemailNul hseq hnew
      have hsel2 := selectUserByEmail_appended db (db.users_id_seq + 1)
        (googleRow env1 db name e) hemailNul hnew
      rw [hd, hr]
      refine ⟨googleRow env1 db name e, by simp, rfl, rfl, ?_, ?_⟩
      · rw [(hold _ _ hsel2).2]
      · rw [(hold _ _ hsel2).2]
    · obtain ⟨hu, he, _⟩ := selectUserByEmail_some hsel
      rw [(hold db user hsel).1]
      refine ⟨user, hu, he, rfl, ?_, ?_⟩
      · show (googleLogin env2 db token).response = _
        rw [(hold db user hsel).2]
      · show (googleLogin env2 db token).db = _
        rw [(hold db user hsel).2]

/-- C22, amended, on the sample database: Eve signs in with Google twice, then Ann does. -/
theorem google_login_idempotent_witness :
    Db.sample.WellFormed ∧
    (∃ user ∈ (handle (ServerEnv.google 30 evePayload) Db.sample
        ⟨none, .unguarded (.google (.str "g".toList))⟩).db.users,
      user.email = "eve@x.io".toList ∧
      (handle (ServerEnv.google 30 evePayload) Db.sample
        ⟨none, .unguarded (.google (.str "g".toList))⟩).response =
        ⟨200, .session ((ServerEnv.google 30 evePayload).jwtSign user.id) user.id user.name
          user.email (some (.str "https://x.io/eve.png".toList))⟩ ∧
      (handle (ServerEnv.google 31 evePayload)
        (handle (ServerEnv.google 30 evePayload) Db.sample
          ⟨none, .unguarded (.google (.str "g".toList))⟩).db
        ⟨none, .unguarded (.google (.str "g".toList))⟩).response =
        ⟨200, .session ((ServerEnv.google 31 evePayload).jwtSign user.id) user.id user.name
          user.email (some (.str "https://x.io/eve.png".toList))⟩ ∧
      (handle (ServerEnv.google 31 evePayload)
        (handle (ServerEnv.google 30 evePayload) Db.sample
          ⟨none, .unguarded (.google (.str "g".toList))⟩).db
        ⟨none, .unguarded (.google (.str "g".toList))⟩).db =
        (handle (ServerEnv.google 30 evePayload) Db.sample
          ⟨none, .unguarded (.google (.str "g".toList))⟩).db) ∧
    (handle (ServerEnv.google 30 evePayload) Db.sample
      ⟨none, .unguarded (.google (.str "g".toList))⟩).db.users = Db.sample.users ++ [eveRow] :=
  ⟨wellFormed_sample,
    (google_login_idempotent (ServerEnv.google 30 evePayload) (ServerEnv.google 31 evePayload)
      Db.sample none (.str "g".toList) (.str "Eve".toList) (.str "https://x.io/eve.png".toList)
      "eve@x.io".toList wellFormed_sample rfl rfl rfl rfl (by intro n h; cases h; decide)
      (by decide) (by intro n h; cases h; decide) (by decide) (by decide)).2.2,
    by decide⟩

/-- C23, as stated, fails: the user that a login with Google creates has the hash of a random
password, and that password signs in: after the first login of Eve with Google, the login with
her email and the password drawn is answered with a session.  (A login with Google creates no
user when the asserted email holds U+0000, or once the sequence of the ids is exhausted.) -/
theorem random_password_signs_in :
    (handle (ServerEnv.google 30 evePayload) Db.sample
      ⟨none, .unguarded (.google (.str "g".toList))⟩).db.users = Db.sample.users ++ [eveRow] ∧
    (ServerEnv.google 30 evePayload).randomPassword = "k3x9q1zz".toList ∧
    (handle (ServerEnv.sample 31)
      (handle (ServerEnv.google 30 evePayload) Db.sample
        ⟨none, .unguarded (.google (.str "g".toList))⟩).db
      ⟨none, .unguarded (.login (.str "eve@x.io".toList) (.str "k3x9q1zz".toList))⟩).response =
      ⟨200, .session "h.ttt.s".toList 3 (some "Eve".toList) "eve@x.io".toList none⟩ ∧
    (handle (ServerEnv.google 30 { evePayload with email := .str ['e', Char.ofNat 0] }) Db.sample
      ⟨none, .unguarded (.google (.str "g".toList))⟩).db.users = Db.sample.users ∧
    (handle (ServerEnv.google 30 evePayload) { Db.sample with users_id_seq := 2147483647 }
      ⟨none, .unguarded (.google (.str "g".toList))⟩).db.users = Db.sample.users := by
  decide

/-- C23, amended: a user created by a login with Google (for an assertion whose name and email
fit their columns and hold no U+0000, while the sequence of the ids is not exhausted) has the
hash of the random password drawn at its creation: for every password, a login with the email
of that user fails with 401 and no token when the password does not verify against that hash,
and is answered with a session for that user when it does. -/
theorem google_user_password (env env2 : ServerEnv) (db : Db) (authorization : Option JsString)
    (token name picture : JsOpt) (e p : JsString) (hconf : env.googleConfigured = true)
    (hv : env.googleVerify token = .ok ⟨name, .str e, picture⟩)
    (hname : ∀ n, name = .str n → n.length ≤ 100) (hemail : e.length ≤ 255)
    (hnameNul : ∀ n, name = .str n → hasNul n = false) (hemailNul : hasNul e = false)
    (hseq : db.users_id_seq < int4Max) (hnew : ∀ r ∈ db.users, r.email ≠ e) :
    (handle env db ⟨authorization, .unguarded (.google token)⟩).db.users =
      db.users ++ [googleRow env db name e] ∧
    (env2.bcryptCompare p (env.bcryptHash env.randomPassword) = false →
      (handle env2 (handle env db ⟨authorization, .unguarded (.google token)⟩).db
        ⟨authorization, .unguarded (.login (.str e) (.str p))⟩).response =
        ⟨401, .noSession⟩) ∧
    (env2.bcryptCompare p (env.bcryptHash env.randomPassword) = true →
      (handle env2 (handle env db ⟨authorization, .unguarded (.google token)⟩).db
        ⟨authorization, .unguarded (.login (.str e) (.str p))⟩).response =
        ⟨200, .session (env2.jwtSign (db.users_id_seq + 1)) (db.users_id_seq + 1)
          (sqlParam name) e none⟩) := by
  have hh : handle env db ⟨authorization, .unguarded (.google token)⟩ =
      googleLogin env db token := rfl
  have hl : ∀ d, handle env2 d ⟨authorization, .unguarded (.login (.str e) (.str p))⟩ =
      login env2 d (.str e) (.str p) := fun _ => rfl
  obtain ⟨_, hd⟩ := googleLogin_created env db token name picture e hconf hv hname hemail
    hnameNul hemailNul hseq hnew
  have hsel := selectUserByEmail_appended db (db.users_id_seq + 1) (googleRow env db name e)
    hemailNul hnew
  rw [hh, hl, hd]
  obtain ⟨_, _, hfound⟩ := login_str env2
    { db with users_id_seq := db.users_id_seq + 1,
              users := db.users ++ [googleRow env db name e] } e p
  refine ⟨rfl, ?_, ?_⟩
  · intro hc
    rw [((hfound _ hsel).2 hc)]
  · intro hc
    rw [((hfound _ hsel).1 hc)]
    rfl

/-- C23, amended, on the sample database: after the first login of Eve with Google, a guess is
refused and the password drawn is accepted. -/
theorem google_user_password_witness :
    (handle (ServerEnv.google 30 evePayload) Db.sample
      ⟨none, .unguarded (.google (.str "g".toList))⟩).db.users =
      Db.sample.users ++ [googleRow (ServerEnv.google 30 evePayload) Db.sample
        (.str "Eve".toList) "eve@x.io".toList] ∧
    (handle (ServerEnv.sample 31)
      (handle (ServerEnv.google 30 evePayload) Db.sample
        ⟨none, .unguarded (.google (.str "g".toList))⟩).db
      ⟨none, .unguarded (.login (.str "eve@x.io".toList) (.str "guess".toList))⟩).response =
      ⟨401, .noSession⟩ :=
  ⟨(google_user_password (ServerEnv.google 30 evePayload) (ServerEnv.sample 31) Db.sample none
      (.str "g".toList) (.str "Eve".toList) (.str "https://x.io/eve.png".toList)
      "eve@x.io".toList "guess".toList rfl rfl (by intro n h; cases h; decide) (by decide)
      (by intro n h; cases h; decide) (by decide) (by decide) (by decide)).1,
    (google_user_password (ServerEnv.google 30 evePayload) (ServerEnv.sample 31) Db.sample none
      (.str "g".toList) (.str "Eve".toList) (.str "https://x.io/eve.png".toList)
      "eve@x.io".toList "guess".toList rfl rfl (by intro n h; cases h; decide) (by decide)
      (by intro n h; cases h; decide) (by decide) (by decide) (by decide)).2.1 (by decide)⟩

/-- An insert into `messages` of a role that fits its column, for a user of the table. -/
theorem insertMessage_ok (now : Nat) (db : Db) (u : Nat) (role content : JsString)
    (hfit : role.length ≤ 20) (hrole : hasNul role = false) (hcontent : hasNul content = false)
    (hseq : db.messages_id_seq < int4Max) (hu : ∃ r ∈ db.users, r.id = u) :
    insertMessage now db u (some role) (some content) =
      (.ok { id := db.messages_id_seq + 1, user_id := u, role := role, content := content,
             created_at := now },
       { db with
         messages_id_seq := db.messages_id_seq + 1,
         messages := db.messages ++
           [{ id := db.messages_id_seq + 1, user_id := u, role := role, content := content,
              created_at := now }] }) := by
  simp [insertMessage, textParam, hrole, hcontent, varcharNullable, varchar, hfit, nextval, hseq,
    notNull, users_any_id hu, bind, Except.bind, pure, Except.pure, Except.map]

/-- The store after `POST /api/chat`, in a valid session and within the body limit, with a role
that fits, a role and a content without U+0000, while the sequence is not exhausted. -/
theorem chatAdd_db (env : ServerEnv) (db : Db) (authorization : Option JsString) (u n : Nat)
    (role content : JsString) (hs : ValidSession env authorization u)
    (hbody : n ≤ bodyLimit) (hfit : role.length ≤ 20) (hrole : hasNul role = false)
    (hcontent : hasNul content = false) (hseq : db.messages_id_seq < int4Max)
    (hu : ∃ r ∈ db.users, r.id = u) :
    (app env db ⟨n, ⟨authorization, .guarded (.chatAdd (.str role) (.str content))⟩⟩).db =
      { db with
        messages_id_seq := db.messages_id_seq + 1,
        messages := db.messages ++
          [{ id := db.messages_id_seq + 1, user_id := u, role := role, content := content,
             created_at := env.now }] } ∧
    (app env db ⟨n, ⟨authorization,
        .guarded (.chatAdd (.str role) (.str content))⟩⟩).response =
      ⟨200, .messageRow { id := db.messages_id_seq + 1, user_id := u, role := role,
                          content := content, created_at := env.now }⟩ := by
  rw [app_of_le env db n _ hbody, handle_guarded_valid env db authorization _ u hs]
  simp only [runProtected, chatAdd, sqlParam]
  rw [insertMessage_ok env.now db u role content hfit hrole hcontent hseq hu]
  exact ⟨rfl, rfl⟩

/-- The rows of a user after a run of appends: the rows before, then one row for each append,
in the order of the appends, with the time, the role and the content of the append. -/
theorem appendAll_rows (authorization : Option JsString) (u : Nat) :
    ∀ (sends : List Send) (db : Db),
    (∃ r ∈ db.users, r.id = u) →
    (∀ s ∈ sends, ValidSession s.env authorization u ∧ s.contentLength ≤ bodyLimit ∧
      s.role.length ≤ 20 ∧ hasNul s.role = false ∧ hasNul s.content = false) →
    db.messages_id_seq + sends.length ≤ int4Max →
    (((appendAll authorization db sends).messages.filter fun r => r.user_id == u).map
        fun r => (r.created_at, r.role, r.content)) =
      ((db.messages.filter fun r => r.user_id == u).map
        fun r => (r.created_at, r.role, r.content)) ++
        sends.map (fun s => (s.env.now, s.role, s.content)) ∧
    (appendAll authorization db sends).messages.length = db.messages.length + sends.length := by
  intro sends
  induction sends with
  | nil => intro db _ _ _; simp [appendAll]
  | cons send rest ih =>
    intro db hu hs hseq
    obtain ⟨hvalid, hbody, hfit, hrole, hcontent⟩ := hs send (List.mem_cons_self _ _)
    have hseq1 : db.messages_id_seq < int4Max := by
      simp only [List.length_cons] at hseq
      omega
    have hdb := (chatAdd_db send.env db authorization u send.contentLength send.role
      send.content hvalid hbody hfit hrole hcontent hseq1 hu).1
    have hrest := ih
      { db with
        messages_id_seq := db.messages_id_seq + 1,
        messages := db.messages ++
          [{ id := db.messages_id_seq + 1, user_id := u, role := send.role,
             content := send.content, created_at := send.env.now }] }
      hu (fun s hsm => hs s (List.mem_cons_of_mem _ hsm))
      (by simp only [List.length_cons] at hseq; simp only; omega)
    simp only [appendAll, hdb]
    refine ⟨?_, ?_⟩
    · rw [hrest.1]
      simp [List.filter_append]
    · rw [hrest.2]
      simp
      omega

/-- The list of `GET /api/chat` when the rows of the user lie in the table in the order of
their creation times: the rows in the order of the table. -/
theorem selectMessages_of_sorted (db : Db) (u : Nat)
    (h : ((db.messages.filter fun r => r.user_id == u).map fun r => r.created_at).Pairwise
      (fun a b => a ≤ b)) :
    selectMessages db u =
      (db.messages.filter fun r => r.user_id == u).map fun r => (r.role, r.content) := by
  unfold selectMessages
  rw [List.Sorted.insertionSort_eq]
  exact List.pairwise_map.1 h

/-- C24, as stated, fails: the list is ordered by the creation time alone; Bob appends "first"
at time 30 and then "second" at a moment stamped 20, both appends are stored, and the list
returns "second" before "first".  And not every append is stored: a message whose content holds
U+0000 is answered with 500, and one whose body is above 100 kB with 413; neither is listed. -/
theorem list_follows_creation_time_not_append_order :
    (app (ServerEnv.sample 30) Db.sample ⟨40, ⟨some "Bearer h.tt.s".toList,
      .guarded (.chatAdd (.str "user".toList) (.str "first".toList))⟩⟩).response =
      ⟨200, .messageRow ⟨3, 2, "user".toList, "first".toList, 30⟩⟩ ∧
    (app (ServerEnv.sample 20)
      (app (ServerEnv.sample 30) Db.sample ⟨40, ⟨some "Bearer h.tt.s".toList,
        .guarded (.chatAdd (.str "user".toList) (.str "first".toList))⟩⟩).db
      ⟨40, ⟨some "Bearer h.tt.s".toList,
        .guarded (.chatAdd (.str "assistant".toList) (.str "second".toList))⟩⟩).response =
      ⟨200, .messageRow ⟨4, 2, "assistant".toList, "second".toList, 20⟩⟩ ∧
    (app (ServerEnv.sample 40)
      (appendAll (some "Bearer h.tt.s".toList) Db.sample
        [Send.sample 30 "user" "first", Send.sample 20 "assistant" "second"])
      ⟨0, ⟨some "Bearer h.tt.s".toList, .guarded .chatList⟩⟩).response =
      ⟨200, .messageRows [("assistant".toList, "second".toList),
                          ("user".toList, "first".toList)]⟩ ∧
    (app (ServerEnv.sample 30) Db.sample ⟨40, ⟨some "Bearer h.tt.s".toList,
      .guarded (.chatAdd (.str "user".toList) (.str ['a', Char.ofNat 0]))⟩⟩).response =
      ⟨500, .failure (.db .invalidByteSequence)⟩ ∧
    (app (ServerEnv.sample 40)
      (appendAll (some "Bearer h.tt.s".toList) Db.sample
        [{ env := ServerEnv.sample 30, contentLength := 40, role := "user".toList,
           content := ['a', Char.ofNat 0] },
         { env := ServerEnv.sample 31, contentLength := 102401, role := "user".toList,
           content := "long".toList }])
      ⟨0, ⟨some "Bearer h.tt.s".toList, .guarded .chatList⟩⟩).response =
      ⟨200, .messageRows []⟩ := by
  decide

/-- C24, amended: for every N and every sequence of N messages, each within the body limit,
with a role of at most 20 characters and with role and content free of U+0000, appended in one
valid session of a user whose log holds no message, at strictly increasing creation times and
while the sequence of the ids lasts: every append is stored, and the list of the log returns
exactly those messages, role and content unchanged, in the order of the appends, oldest
first. -/
theorem chat_round_trip (env : ServerEnv) (db : Db) (authorization : Option JsString)
    (u n : Nat) (sends : List Send) (hu : ∃ r ∈ db.users, r.id = u)
    (hempty : ∀ r ∈ db.messages, r.user_id ≠ u)
    (hs : ∀ s ∈ sends, ValidSession s.env authorization u ∧ s.contentLength ≤ bodyLimit ∧
      s.role.length ≤ 20 ∧ hasNul s.role = false ∧ hasNul s.content = false)
    (hseq : db.messages_id_seq + sends.length ≤ int4Max)
    (htime : (sends.map fun s => s.env.now).Pairwise (fun a b => a < b))
    (hlist : ValidSession env authorization u) (hbody : n ≤ bodyLimit) :
    (app env (appendAll authorization db sends)
      ⟨n, ⟨authorization, .guarded .chatList⟩⟩).response =
      ⟨200, .messageRows (sends.map fun s => (s.role, s.content))⟩ ∧
    (appendAll authorization db sends).messages.length = db.messages.length + sends.length := by
  obtain ⟨hrows, hlen⟩ := appendAll_rows authorization u sends db hu hs hseq
  have hnone : (db.messages.filter fun r => r.user_id == u) = [] := by
    rw [List.filter_eq_nil_iff]
    intro r hr
    simpa using hempty r hr
  rw [hnone, List.map_nil, List.nil_append] at hrows
  have htimes : (((appendAll authorization db sends).messages.filter
      fun r => r.user_id == u).map fun r => r.created_at) = sends.map fun s => s.env.now := by
    have := congrArg (List.map fun t : Nat × JsString × JsString => t.1) hrows
    simpa [List.map_map, Function.comp_def] using this
  have hpairs : (((appendAll authorization db sends).messages.filter
      fun r => r.user_id == u).map fun r => (r.role, r.content)) =
      sends.map fun s => (s.role, s.content) := by
    have := congrArg (List.map fun t : Nat × JsString × JsString => t.2) hrows
    simpa [List.map_map, Function.comp_def] using this
  refine ⟨?_, hlen⟩
  rw [app_of_le env _ n _ hbody, handle_guarded_valid env _ authorization _ u hlist]
  simp only [runProtected, chatList]
  rw [selectMessages_of_sorted _ u (by rw [htimes]; exact htime.imp Nat.le_of_lt), hpairs]

/-- C24, amended, on the sample database: Bob appends two messages at the times 30 and 31. -/
theorem chat_round_trip_witness :
    (∃ r ∈ Db.sample.users, r.id = 2) ∧ (∀ r ∈ Db.sample.messages, r.user_id ≠ 2) ∧
    (app (ServerEnv.sample 40)
      (appendAll (some "Bearer h.tt.s".toList) Db.sample
        [Send.sample 30 "user" "first", Send.sample 31 "assistant" "second"])
      ⟨0, ⟨some "Bearer h.tt.s".toList, .guarded .chatList⟩⟩).response =
      ⟨200, .messageRows [("user".toList, "first".toList),
                          ("assistant".toList, "second".toList)]⟩ :=
  ⟨by decide, by decide,
    (chat_round_trip (ServerEnv.sample 40) Db.sample (some "Bearer h.tt.s".toList) 2 0
      [Send.sample 30 "user" "first", Send.sample 31 "assistant" "second"]
      (by decide) (by decide)
      (by
        intro s hsm
        simp only [List.mem_cons, List.mem_singleton, List.not_mem_nil, or_false] at hsm
        rcases hsm with rfl | rfl <;>
          exact ⟨⟨by decide, by decide⟩, by decide, by decide, by decide, by decide⟩)
      (by decide) (by decide) ⟨by decide, by decide⟩ (by decide)).1⟩

/-- The messages after an insert into `messages` of a role that fits its column: the messages
before, and at most one more, which has that role. -/
theorem insertMessage_role (now : Nat) (db : Db) (u : Nat) (role : JsString)
    (content : Option JsString) (hfit : role.length ≤ 20) :
    (insertMessage now db u (some role) content).2.messages = db.messages ∨
    ∃ row : MessageRow, row.role = role ∧
      (insertMessage now db u (some role) content).2.messages = db.messages ++ [row] := by
  rcases insertMessage_spec now db u (some role) content with
    ⟨e, he⟩ | ⟨e, he, _⟩ | ⟨row, hrow, _, _, hv⟩
  · left; rw [he]
  · left; rw [he]
  · right
    refine ⟨row, ?_, by rw [hrow]⟩
    simp [varcharNullable, varchar, hfit, Except.map] at hv
    exact hv.symm

theorem rolesValid_of_messages {db db' : Db} (h : RolesValid db)
    (hm : db'.messages = db.messages) : RolesValid db' := by
  intro r hr
  rw [hm] at hr
  exact h r hr

/-- An insert into `users` leaves the messages as they are. -/
theorem insertUser_messages (now : Nat) (db : Db) (name email : Option JsString)
    (hash : JsString) : (insertUser now db name email hash).2.messages = db.messages := by
  rcases insertUser_spec now db name email hash with
    ⟨e, he⟩ | ⟨e, he, _⟩ | ⟨row, hrow, _, _, _⟩
  · rw [he]
  · rw [he]
  · rw [hrow]

/-- An insert into `user_memory` leaves the messages as they are. -/
theorem insertMemory_messages (now : Nat) (db : Db) (u : Nat) (category : JsString)
    (content : Option JsString) :
    (insertMemory now db u category content).2.messages = db.messages := by
  rcases insertMemory_spec now db u category content with
    ⟨e, he⟩ | ⟨e, he, _⟩ | ⟨row, hrow, _, _⟩
  · rw [he]
  · rw [he]
  · rw [hrow]

/-- A protected handler keeps the roles of the log within `user` and `assistant`, unless it is
an append with another role. -/
theorem rolesValid_runProtected {db : Db} (h : RolesValid db) (r : ProtectedRoute)
    (env : ServerEnv) (userId : Nat)
    (hr : ∀ role content, r = .chatAdd role content →
      role = .str "user".toList ∨ role = .str "assistant".toList) :
    RolesValid (runProtected r env db userId).db := by
  cases r with
  | memoryList => exact h
  | memoryAdd category content =>
    have hm := insertMemory_messages env.now db userId (category.orElse "General".toList)
      (sqlParam content)
    simp only [runProtected, memoryAdd]
    rcases hres : insertMemory env.now db userId (category.orElse "General".toList)
      (sqlParam content) with ⟨res, db'⟩
    rw [hres] at hm
    cases res <;> exact rolesValid_of_messages h hm
  | memoryRemove id =>
    simp only [runProtected, memoryRemove, deleteMemory]
    split
    · exact h
    · split <;> exact rolesValid_of_messages h rfl
  | memoryClear => exact rolesValid_of_messages h rfl
  | chatList => exact h
  | chatAdd role content =>
    have hvalid : ∃ ro : JsString, role = .str ro ∧ ro.length ≤ 20 ∧
        (ro = "user".toList ∨ ro = "assistant".toList) := by
      rcases hr role content rfl with rfl | rfl
      · exact ⟨_, rfl, by decide, Or.inl rfl⟩
      · exact ⟨_, rfl, by decide, Or.inr rfl⟩
    obtain ⟨ro, rfl, hfit, hro⟩ := hvalid
    have hm : (insertMessage env.now db userId (sqlParam (.str ro))
          (sqlParam content)).2.messages = db.messages ∨
        ∃ row : MessageRow, row.role = ro ∧
          (insertMessage env.now db userId (sqlParam (.str ro))
            (sqlParam content)).2.messages = db.messages ++ [row] :=
      insertMessage_role env.now db userId ro (sqlParam content) hfit
    simp only [runProtected, chatAdd]
    rcases hres : insertMessage env.now db userId (sqlParam (.str ro)) (sqlParam content) with
      ⟨res, db'⟩
    rw [hres] at hm
    have hdb' : RolesValid db' := by
      rcases hm with hm | ⟨row, hrow, hm⟩
      · exact rolesValid_of_messages h hm
      · intro r hr'
        rw [hm] at hr'
        rcases List.mem_append.1 hr' with hr' | hr'
        · exact h r hr'
        · rw [List.mem_singleton.1 hr', hrow]
          exact hro
    cases res <;> exact hdb'
  | chatClear =>
    intro r hr'
    exact h r (List.mem_of_mem_filter hr')

/-- C25, as stated, fails: an append with the role `system` is stored, and the log then holds a
message whose role is neither `user` nor `assistant`.  Not every role is stored: an append whose
role holds U+0000 is answered with 500 and leaves the log as it is. -/
theorem system_role_is_stored :
    RolesValid Db.sample ∧
    (handle (ServerEnv.sample 30) Db.sample ⟨some "Bearer h.t.s".toList,
      .guarded (.chatAdd (.str "system".toList) (.str "x".toList))⟩).response =
      ⟨200, .messageRow ⟨3, 1, "system".toList, "x".toList, 30⟩⟩ ∧
    ¬ RolesValid (handle (ServerEnv.sample 30) Db.sample ⟨some "Bearer h.t.s".toList,
      .guarded (.chatAdd (.str "system".toList) (.str "x".toList))⟩).db ∧
    (app (ServerEnv.sample 30) Db.sample ⟨40, ⟨some "Bearer h.t.s".toList,
      .guarded (.chatAdd (.str ['s', Char.ofNat 0]) (.str "x".toList))⟩⟩).response =
      ⟨500, .failure (.db .invalidByteSequence)⟩ ∧
    (app (ServerEnv.sample 30) Db.sample ⟨40, ⟨some "Bearer h.t.s".toList,
      .guarded (.chatAdd (.str ['s', Char.ofNat 0]) (.str "x".toList))⟩⟩).db = Db.sample := by
  refine ⟨by unfold RolesValid; decide, by decide, by unfold RolesValid; decide, by decide,
    by decide⟩

/-- C25, amended: the log stores the role that the append request carries: every request other
than an append with a role different from `user` and `assistant` keeps the invariant that every
message of the log has the role `user` or `assistant`; an append within the body limit, in a
valid session of a user of the store, with any role of at most 20 characters, role and content
free of U+0000, is stored with that role while the sequence of the ids is not exhausted. -/
theorem log_roles_follow_requests (env : ServerEnv) (db : Db) (http : HttpRequest)
    (h : RolesValid db) :
    ((∀ role content, http.request.route = .guarded (.chatAdd role content) →
        role = .str "user".toList ∨ role = .str "assistant".toList) →
      RolesValid (app env db http).db) ∧
    (∀ (u : Nat) (role content : JsString), ValidSession env http.request.authorization u →
      (∃ r ∈ db.users, r.id = u) → http.contentLength ≤ bodyLimit → role.length ≤ 20 →
      hasNul role = false → hasNul content = false → db.messages_id_seq < int4Max →
      (app env db ⟨http.contentLength, ⟨http.request.authorization,
        .guarded (.chatAdd (.str role) (.str content))⟩⟩).db.messages =
        db.messages ++ [{ id := db.messages_id_seq + 1, user_id := u, role := role,
                          content := content, created_at := env.now }]) := by
  constructor
  · intro hreq
    obtain ⟨n, authorization, route⟩ := http
    simp only [app]
    split
    · exact h
    · cases route with
      | guarded r =>
        simp only [handle, verifyToken]
        split
        · exact h
        · split
          · exact h
          · exact rolesValid_runProtected h r env _
              (fun role content hrc => hreq role content (by rw [hrc]))
      | unguarded r =>
        cases r with
        | signup name email password =>
          cases password with
          | undefined => exact h
          | null => exact h
          | str pw =>
            simp only [handle, runPublic, signup]
            have hm := insertUser_messages env.now db (sqlParam name) (sqlParam email)
              (env.bcryptHash pw)
            rcases hres : insertUser env.now db (sqlParam name) (sqlParam email)
              (env.bcryptHash pw) with ⟨res, db'⟩
            rw [hres] at hm
            cases res <;> exact rolesValid_of_messages h hm
        | login email password =>
          simp only [handle, runPublic, login]
          split
          · exact h
          · exact h
          · split
            · split <;> exact h
            · exact h
        | google token =>
          simp only [handle, runPublic, googleLogin]
          cases env.googleConfigured with
          | false => exact h
          | true =>
            simp only [Bool.not_true, Bool.false_eq_true, if_false]
            cases env.googleVerify token with
            | error e => exact h
            | ok payload =>
              dsimp only
              cases selectUserByEmail db (sqlParam payload.email) with
              | error e => exact h
              | ok found =>
              cases found with
              | some user => exact h
              | none =>
                have hm := insertUser_messages env.now db (sqlParam payload.name)
                  (sqlParam payload.email) (env.bcryptHash env.randomPassword)
                dsimp only
                rcases hres : insertUser env.now db (sqlParam payload.name)
                  (sqlParam payload.email) (env.bcryptHash env.randomPassword) with ⟨res, db'⟩
                rw [hres] at hm
                cases res <;> exact rolesValid_of_messages h hm
  · intro u role content hs hu hbody hfit hrole hcontent hseq
    rw [(chatAdd_db env db http.request.authorization u http.contentLength role content hs
      hbody hfit hrole hcontent hseq hu).1]

/-- C25, amended, on the sample database: an append with the role `assistant` keeps the
invariant, and so does the clearing of the log. -/
theorem log_roles_follow_requests_witness :
    RolesValid Db.sample ∧
    RolesValid (app (ServerEnv.sample 30) Db.sample ⟨40, ⟨some "Bearer h.t.s".toList,
      .guarded (.chatAdd (.str "assistant".toList) (.str "x".toList))⟩⟩).db ∧
    RolesValid (app (ServerEnv.sample 30) Db.sample
      ⟨0, ⟨some "Bearer h.t.s".toList, .guarded .chatClear⟩⟩).db :=
  ⟨by unfold RolesValid; decide,
    (log_roles_follow_requests (ServerEnv.sample 30) Db.sample ⟨40, ⟨some "Bearer h.t.s".toList,
      .guarded (.chatAdd (.str "assistant".toList) (.str "x".toList))⟩⟩
      (by unfold RolesValid; decide)).1
      (by
        intro role content hrc
        simp only [Route.guarded.injEq, ProtectedRoute.chatAdd.injEq] at hrc
        exact Or.inr hrc.1.symm),
    (log_roles_follow_requests (ServerEnv.sample 30) Db.sample
      ⟨0, ⟨some "Bearer h.t.s".toList, .guarded .chatClear⟩⟩ (by unfold RolesValid; decide)).1
      (by intro role content hrc; cases hrc)⟩

/-- Replacing the hashes by themselves changes nothing. -/
theorem rehash_self (db : Db) : rehash (fun r => r.password_hash) db = db := by
  cases db
  simp [rehash]

/-- The lookup by email does not look at the hashes. -/
theorem selectUserByEmail_rehash (f : UserRow → JsString) (db : Db) (email : Option JsString) :
    selectUserByEmail (rehash f db) email =
      (selectUserByEmail db email).map (Option.map fun r => { r with password_hash := f r }) := by
  cases email with
  | none => rfl
  | some e =>
    cases hn : hasNul e with
    | true => rw [selectUserByEmail_nul _ hn, selectUserByEmail_nul _ hn]; rfl
    | false =>
      rw [selectUserByEmail_clean _ hn, selectUserByEmail_clean _ hn]
      simp only [rehash, List.find?_map, Except.map]
      rfl

/-- An insert into `users` succeeds or fails whatever the hashes, the stored ones and the new
one, and the new row has the same id, name and email whatever they are. -/
theorem insertUser_uniform (now : Nat) (db : Db) (name email : Option JsString) :
    (∃ err, ∀ (f : UserRow → JsString) (hash : JsString),
      (insertUser now (rehash f db) name email hash).1 = .error err) ∨
    (∃ id n e, ∀ (f : UserRow → JsString) (hash : JsString),
      (insertUser now (rehash f db) name email hash).1 =
        .ok { id := id, name := n, email := e, password_hash := hash, created_at := now }) := by
  have hany : ∀ (f : UserRow → JsString) (e : JsString),
      (rehash f db).users.any (fun r => r.email == e) = db.users.any (fun r => r.email == e) := by
    intro f e
    simp only [rehash, List.any_map]
    rfl
  have hsame : ∀ f : UserRow → JsString, (rehash f db).users_id_seq = db.users_id_seq :=
    fun _ => rfl
  cases h0 : textParam name with
  | error err =>
    exact Or.inl ⟨err, fun f hash => by simp [insertUser, h0, bind, Except.bind]⟩
  | ok n0 =>
  cases h0' : textParam email with
  | error err =>
    exact Or.inl ⟨err, fun f hash => by simp [insertUser, h0, h0', bind, Except.bind]⟩
  | ok e0 =>
  cases h1 : varcharNullable 100 n0 with
  | error err =>
    exact Or.inl ⟨err, fun f hash => by simp [insertUser, h0, h0', h1, bind, Except.bind]⟩
  | ok n =>
    cases h2 : varcharNullable 255 e0 with
    | error err =>
      exact Or.inl ⟨err, fun f hash => by
        simp [insertUser, h0, h0', h1, h2, bind, Except.bind]⟩
    | ok em =>
      by_cases hseq : db.users_id_seq < int4Max
      · cases em with
        | none =>
          exact Or.inl ⟨.notNull "email", fun f hash => by
            simp [insertUser, h0, h0', h1, h2, hsame, nextval, hseq, notNull, bind, Except.bind,
              pure, Except.pure]⟩
        | some e =>
          cases h3 : db.users.any (fun r => r.email == e) with
          | true =>
            refine Or.inl ⟨.uniqueViolation "users_email_key", fun f hash => ?_⟩
            have h3' := (hany f e).trans h3
            simp [insertUser, h0, h0', h1, h2, h3', hsame, nextval, hseq, notNull, bind,
              Except.bind, pure, Except.pure, throw, throwThe, MonadExceptOf.throw]
          | false =>
            refine Or.inr ⟨db.users_id_seq + 1, n, e, fun f hash => ?_⟩
            have h3' := (hany f e).trans h3
            simp [insertUser, h0, h0', h1, h2, h3', hsame, nextval, hseq, notNull, bind,
              Except.bind, pure, Except.pure]
      · exact Or.inl ⟨.sequenceExhausted, fun f hash => by
          simp [insertUser, h0, h0', h1, h2, hsame, nextval, hseq, bind, Except.bind, pure,
            Except.pure]⟩

/-- The response of `POST /api/auth/signup` to a password that is a string, from the outcome of
the insert. -/
theorem signup_response (env : ServerEnv) (db : Db) (name email : JsOpt) (pw : JsString) :
    (signup env db name email (.str pw)).response =
      match (insertUser env.now db (sqlParam name) (sqlParam email) (env.bcryptHash pw)).1 with
      | .ok user => ⟨200, .session (env.jwtSign user.id) user.id user.name user.email none⟩
      | .error e =>
        if e.code = "23505" then ⟨400, .error "Email already exists"⟩
        else ⟨500, .failure (.db e)⟩ := by
  simp only [signup]
  rcases h : insertUser env.now db (sqlParam name) (sqlParam email) (env.bcryptHash pw) with
    ⟨res, db'⟩
  cases res <;> rfl

/-- The response of `POST /api/auth/google` when no user has the asserted email, from the
outcome of the insert. -/
theorem googleLogin_response (env : ServerEnv) (db : Db) (token : JsOpt)
    (payload : GooglePayload) (hconf : env.googleConfigured = true)
    (hv : env.googleVerify token = .ok payload)
    (hsel : selectUserByEmail db (sqlParam payload.email) = .ok none) :
    (googleLogin env db token).response =
      match (insertUser env.now db (sqlParam payload.name) (sqlParam payload.email)
        (env.bcryptHash env.randomPassword)).1 with
      | .ok user =>
        ⟨200, .session (env.jwtSign user.id) user.id user.name user.email (some payload.picture)⟩
      | .error _ => ⟨401, .error "Invalid Google Token"⟩ := by
  simp only [googleLogin, hconf, Bool.not_true, Bool.false_eq_true, if_false, hv, hsel]
  rcases h : insertUser env.now db (sqlParam payload.name) (sqlParam payload.email)
    (env.bcryptHash env.randomPassword) with ⟨res, db'⟩
  cases res <;> rfl

/-- The response of `POST /api/auth/signup` is the same whatever the password, its hash and the
stored hashes. -/
theorem signup_response_rehash (env : ServerEnv) (db : Db) (name email : JsOpt)
    (pw other : JsString) (hash : JsString → JsString) (f : UserRow → JsString) :
    (signup { env with bcryptHash := hash } (rehash f db) name email (.str other)).response =
      (signup env db name email (.str pw)).response := by
  rw [signup_response, signup_response]
  have hself := rehash_self db
  rcases insertUser_uniform env.now db (sqlParam name) (sqlParam email) with
    ⟨err, h⟩ | ⟨id, n, e, h⟩
  · have h1 := h f (hash other)
    have h2 := h (fun r => r.password_hash) (env.bcryptHash pw)
    rw [hself] at h2
    simp only [h1, h2]
  · have h1 := h f (hash other)
    have h2 := h (fun r => r.password_hash) (env.bcryptHash pw)
    rw [hself] at h2
    simp only [h1, h2]

/-- The response of `POST /api/auth/login` depends on the password and on the stored hashes
through the verdict of the comparison alone. -/
theorem login_response_rehash (env : ServerEnv) (db : Db) (email : JsOpt) (pw other : JsString)
    (compare : JsString → JsString → Bool) (f : UserRow → JsString)
    (hverdict : ∀ user ∈ db.users,
      compare other (f user) = env.bcryptCompare pw user.password_hash) :
    (login { env with bcryptCompare := compare } (rehash f db) email (.str other)).response =
      (login env db email (.str pw)).response := by
  simp only [login, selectUserByEmail_rehash]
  cases hsel : selectUserByEmail db (sqlParam email) with
  | error e => rfl
  | ok found =>
    cases found with
    | none => rfl
    | some user =>
      have hc := hverdict user (selectUserByEmail_mem hsel)
      simp only [Except.map, Option.map_some']
      rw [hc]
      cases env.bcryptCompare pw user.password_hash <;> rfl

/-- The response of `POST /api/auth/google` is the same whatever the random password, its hash
and the stored hashes. -/
theorem googleLogin_response_rehash (env : ServerEnv) (db : Db) (token : JsOpt)
    (random : JsString) (hash : JsString → JsString) (f : UserRow → JsString) :
    (googleLogin { env with bcryptHash := hash, randomPassword := random } (rehash f db)
      token).response = (googleLogin env db token).response := by
  rcases Bool.eq_false_or_eq_true env.googleConfigured with hconf | hconf
  · cases hv : env.googleVerify token with
    | error e =>
      simp only [googleLogin, hconf, hv]
      rfl
    | ok payload =>
      have hconf' : ({ env with bcryptHash := hash, randomPassword := random } :
          ServerEnv).googleConfigured = true := hconf
      have hv' : ({ env with bcryptHash := hash, randomPassword := random } :
          ServerEnv).googleVerify token = .ok payload := hv
      cases hsel : selectUserByEmail db (sqlParam payload.email) with
      | error e =>
        have hsel' : selectUserByEmail (rehash f db) (sqlParam payload.email) = .error e := by
          rw [selectUserByEmail_rehash, hsel]
          rfl
        simp only [googleLogin, hconf, Bool.not_true, Bool.false_eq_true, if_false, hv, hsel,
          hsel']
      | ok found =>
      cases found with
      | some user =>
        have hsel' : selectUserByEmail (rehash f db) (sqlParam payload.email) =
            .ok (some { user with password_hash := f user }) := by
          rw [selectUserByEmail_rehash, hsel]
          rfl
        rw [googleLogin_existing env db token payload user hconf hv hsel,
          googleLogin_existing _ (rehash f db) token payload _ hconf' hv' hsel']
      | none =>
        have hsel' : selectUserByEmail (rehash f db) (sqlParam payload.email) = .ok none := by
          rw [selectUserByEmail_rehash, hsel]
          rfl
        rw [googleLogin_response env db token payload hconf hv hsel,
          googleLogin_response _ (rehash f db) token payload hconf' hv' hsel']
        have hself := rehash_self db
        rcases insertUser_uniform env.now db (sqlParam payload.name) (sqlParam payload.email)
          with ⟨err, h⟩ | ⟨id, n, e, h⟩
        · have h1 := h f (hash random)
          have h2 := h (fun r => r.password_hash) (env.bcryptHash env.randomPassword)
          rw [hself] at h2
          simp only [h1, h2]
        · have h1 := h f (hash random)
          have h2 := h (fun r => r.password_hash) (env.bcryptHash env.randomPassword)
          rw [hself] at h2
          simp only [h1, h2]
  · simp only [googleLogin, hconf]
    rfl

/-- The bodies of the three sign-in routes: a session made of the token and of the id, the name
and the email of a user of the store, with a picture for the login with Google and without one
otherwise, or a body without a session. -/
theorem runPublic_body (env : ServerEnv) (db : Db) (r : PublicRoute) :
    (∃ user ∈ (runPublic r env db).db.users, ∃ picture,
      (runPublic r env db).response.body =
        .session (env.jwtSign user.id) user.id user.name user.email picture ∧
      (picture = none ↔ ∀ token, r ≠ .google token)) ∨
    (runPublic r env db).response.body = .noSession ∨
    (∃ text, (runPublic r env db).response.body = .error text) ∨
    (∃ err, (runPublic r env db).response.body = .failure err) := by
  cases r with
  | signup name email password =>
    cases password with
    | undefined => exact Or.inr (Or.inr (Or.inr ⟨_, rfl⟩))
    | null => exact Or.inr (Or.inr (Or.inr ⟨_, rfl⟩))
    | str pw =>
      simp only [runPublic, signup]
      rcases insertUser_spec env.now db (sqlParam name) (sqlParam email) (env.bcryptHash pw)
        with ⟨e, he⟩ | ⟨e, he, _⟩ | ⟨row, hrow, _, _, _⟩
      · rw [he]
        by_cases hcode : e.code = "23505"
        · exact Or.inr (Or.inr (Or.inl ⟨"Email already exists", by simp only [hcode, if_true]⟩))
        · exact Or.inr (Or.inr (Or.inr ⟨.db e, by simp only [hcode, if_false]⟩))
      · rw [he]
        by_cases hcode : e.code = "23505"
        · exact Or.inr (Or.inr (Or.inl ⟨"Email already exists", by simp only [hcode, if_true]⟩))
        · exact Or.inr (Or.inr (Or.inr ⟨.db e, by simp only [hcode, if_false]⟩))
      · rw [hrow]
        exact Or.inl ⟨row, by simp, none, rfl, by simp⟩
  | login email password =>
    simp only [runPublic, login]
    cases hsel : selectUserByEmail db (sqlParam email) with
    | error e => exact Or.inr (Or.inr (Or.inr ⟨_, rfl⟩))
    | ok found =>
    cases found with
    | none => exact Or.inr (Or.inr (Or.inl ⟨_, rfl⟩))
    | some user =>
      have hu : user ∈ db.users := selectUserByEmail_mem hsel
      cases password with
      | undefined => exact Or.inr (Or.inr (Or.inr ⟨_, rfl⟩))
      | null => exact Or.inr (Or.inr (Or.inr ⟨_, rfl⟩))
      | str pw =>
        dsimp only
        rcases Bool.eq_false_or_eq_true (env.bcryptCompare pw user.password_hash) with hc | hc
        · rw [hc]
          exact Or.inl ⟨user, hu, none, rfl, by simp⟩
        · rw [hc]
          exact Or.inr (Or.inl rfl)
  | google token =>
    simp only [runPublic]
    rcases Bool.eq_false_or_eq_true env.googleConfigured with hconf | hconf
    · cases hv : env.googleVerify token with
      | error e =>
        simp only [googleLogin, hconf, hv]
        exact Or.inr (Or.inr (Or.inl ⟨"Invalid Google Token", rfl⟩))
      | ok payload =>
        cases hsel : selectUserByEmail db (sqlParam payload.email) with
        | error e =>
          simp only [googleLogin, hconf, Bool.not_true, Bool.false_eq_true, if_false, hv, hsel]
          exact Or.inr (Or.inr (Or.inl ⟨"Invalid Google Token", rfl⟩))
        | ok found =>
        cases found with
        | some user =>
          have hu : user ∈ db.users := selectUserByEmail_mem hsel
          rw [googleLogin_existing env db token payload user hconf hv hsel]
          exact Or.inl ⟨user, hu, some payload.picture, rfl,
            ⟨fun h => absurd h (Option.some_ne_none _), fun h => absurd rfl (h token)⟩⟩
        | none =>
          simp only [googleLogin, hconf, Bool.not_true, Bool.false_eq_true, if_false, hv, hsel]
          rcases insertUser_spec env.now db (sqlParam payload.name) (sqlParam payload.email)
            (env.bcryptHash env.randomPassword) with
            ⟨e, he⟩ | ⟨e, he, _⟩ | ⟨row, hrow, _, _, _⟩
          · rw [he]
            exact Or.inr (Or.inr (Or.inl ⟨"Invalid Google Token", rfl⟩))
          · rw [he]
            exact Or.inr (Or.inr (Or.inl ⟨"Invalid Google Token", rfl⟩))
          · rw [hrow]
            exact Or.inl ⟨row, by simp, some payload.picture, rfl,
              ⟨fun h => absurd h (Option.some_ne_none _), fun h => absurd rfl (h token)⟩⟩
    · simp only [googleLogin, hconf]
      exact Or.inr (Or.inr (Or.inl ⟨"Google Auth is not configured on the server", rfl⟩))

/-- C30: no response of the three sign-in routes discloses a credential.  The response of
register is the same whatever the password, its hash and the hashes of the store; the response
of authenticate depends on the password and on the stored hashes through the verdict of the
comparison alone; the response of federatedLogin is the same whatever the random password, its
hash and the hashes of the store; and the body of each is a session made of the token and of
the id, the name and the email of a user (with the picture for federatedLogin, without one
otherwise), or a body without a session. -/
theorem auth_responses_hide_credentials (env : ServerEnv) (db : Db)
    (authorization : Option JsString) (name email token : JsOpt) (pw other random : JsString)
    (hash : JsString → JsString) (compare : JsString → JsString → Bool)
    (f : UserRow → JsString) :
    (handle { env with bcryptHash := hash } (rehash f db)
      ⟨authorization, .unguarded (.signup name email (.str other))⟩).response =
      (handle env db ⟨authorization, .unguarded (.signup name email (.str pw))⟩).response ∧
    ((∀ user ∈ db.users, compare other (f user) = env.bcryptCompare pw user.password_hash) →
      (handle { env with bcryptCompare := compare } (rehash f db)
        ⟨authorization, .unguarded (.login email (.str other))⟩).response =
        (handle env db ⟨authorization, .unguarded (.login email (.str pw))⟩).response) ∧
    (handle { env with bcryptHash := hash, randomPassword := random } (rehash f db)
      ⟨authorization, .unguarded (.google token)⟩).response =
      (handle env db ⟨authorization, .unguarded (.google token)⟩).response ∧
    (∀ r : PublicRoute,
      (∃ user ∈ (handle env db ⟨authorization, .unguarded r⟩).db.users, ∃ picture,
        (handle env db ⟨authorization, .unguarded r⟩).response.body =
          .session (env.jwtSign user.id) user.id user.name user.email picture ∧
        (picture = none ↔ ∀ token, r ≠ .google token)) ∨
      (handle env db ⟨authorization, .unguarded r⟩).response.body = .noSession ∨
      (∃ text, (handle env db ⟨authorization, .unguarded r⟩).response.body = .error text) ∨
      (∃ err, (handle env db ⟨authorization, .unguarded r⟩).response.body = .failure err)) :=
  ⟨signup_response_rehash env db name email pw other hash f,
    login_response_rehash env db email pw other compare f,
    googleLogin_response_rehash env db token random hash f,
    runPublic_body env db⟩

/-- C30 on the sample database: the login of Ann with her password, and the login with another
password against another hash that verifies as well, are answered alike. -/
theorem auth_responses_hide_credentials_witness :
    (∀ user ∈ Db.sample.users,
      (fun pw hash => hash == '#' :: pw) "zz1".toList
        ((fun r : UserRow => '#' :: 'z' :: 'z' :: r.password_hash.drop 3) user) =
      (ServerEnv.sample 30).bcryptCompare "pw1".toList user.password_hash) ∧
    (handle { ServerEnv.sample 30 with bcryptCompare := fun pw hash => hash == '#' :: pw }
      (rehash (fun r => '#' :: 'z' :: 'z' :: r.password_hash.drop 3) Db.sample)
      ⟨none, .unguarded (.login (.str "ann@x.io".toList) (.str "zz1".toList))⟩).response =
      (handle (ServerEnv.sample 30) Db.sample
        ⟨none, .unguarded (.login (.str "ann@x.io".toList) (.str "pw1".toList))⟩).response ∧
    (handle (ServerEnv.sample 30) Db.sample
      ⟨none, .unguarded (.login (.str "ann@x.io".toList) (.str "pw1".toList))⟩).response =
      ⟨200, .session "h.t.s".toList 1 (some "Ann".toList) "ann@x.io".toList none⟩ :=
  ⟨by decide,
    (auth_responses_hide_credentials (ServerEnv.sample 30) Db.sample none .undefined
      (.str "ann@x.io".toList) .undefined "pw1".toList "zz1".toList [] (fun pw => pw)
      (fun pw hash => hash == '#' :: pw)
      (fun r => '#' :: 'z' :: 'z' :: r.password_hash.drop 3)).2.1 (by decide),
    by decide⟩

end AiFinance
